import Mathlib

/-!
# runguard: outcome classification, time-limit reporting and the I/O pump

A shallow embedding of the parts of `judge/runguard.cc` that decide how a run is
reported: the wait-status decoding in `main`, the signal handler `terminate`,
`output_exit_time`, `write_meta`, the stream pump `pump_pipes` with its post-reap
drain loop, and the `output-truncated` line; and of the parts that set a run up: the
option loop of `main` with `read_optarg_int` and `read_optarg_time`, the checks of the
run user and of the cpuset, the fatal-error path `error`, the environment and
credentials blocks of `setrestrictions`, the CPU-time resource limit, the interval
timer, the pipe flags set before the drain loop, and the `cpu.stat` loop of
`output_cgroup_stats_v2`.

Conventions of the embedding.

* C `int` flags that are only ever tested for truth (`use_walltime`, `outputmeta`, ...)
  are `Bool`; other `int`s are `Int`; the two limit bitmasks are `Nat` with the
  bitwise operators of `Nat`.
* `double` seconds are exact rationals.
* `size_t` values are `Nat` with every addition and subtraction reduced modulo `2^64`.
* The metadata file is the list of the `key: value` lines written so far; a value is
  kept together with the `printf` conversion that prints it.
* A call of `error()` ends the process; functions that can reach it return `Except`.
* Results of system calls are inputs of the model.
* C strings are lists of characters; `strtol` is modelled after ISO C, `strtod`, the
  user and group databases and `fnmatch` are inputs.
-/

namespace Runguard

/-! ## Constants of the source -/

/-- Source macro `BUF_SIZE`, defined as `4*1024`. -/
def BUF_SIZE : Nat := 4 * 1024

/-- Source macro `WALL_TIME_TYPE`, defined as `0`. -/
def WALL_TIME_TYPE : Int := 0

/-- Source macro `CPU_TIME_TYPE`, defined as `1`. -/
def CPU_TIME_TYPE : Int := 1

/-- Source table `output_timelimit_str[4][16]`: the strings for no/soft/hard/both limits. -/
def output_timelimit_str : List String :=
  ["", "soft-timelimit", "hard-timelimit", "hard-timelimit"]

/-- Source constant `soft_timelimit = 1`. -/
def soft_timelimit : Nat := 1

/-- Source constant `hard_timelimit = 2`. -/
def hard_timelimit : Nat := 2

/-! ## Platform constants (Linux `<signal.h>`, generic numbering) -/

/-- Signal number of SIGKILL. -/
def SIGKILL : Int := 9

/-- Signal number of SIGUSR1. -/
def SIGUSR1 : Int := 10

/-- Signal number of SIGALRM. -/
def SIGALRM : Int := 14

/-- Signal number of SIGTERM. -/
def SIGTERM : Int := 15

/-- Signal number of SIGXCPU. -/
def SIGXCPU : Int := 24

/-! ## Wait-status macros (Linux `<sys/wait.h>`)

`status & 0x7f` is written `status % 128` and `(status & 0xff00) >> 8` is written
`status / 256 % 256`; for a two's-complement `int` these agree (`%` and `/` on `Int`
round towards minus infinity for a positive divisor). -/

/-- Macro `WTERMSIG(status)`, that is `status & 0x7f`. -/
def WTERMSIG (status : Int) : Int := status % 128

/-- Macro `WEXITSTATUS(status)`, that is `(status & 0xff00) >> 8`. -/
def WEXITSTATUS (status : Int) : Int := status / 256 % 256

/-- Macro `WSTOPSIG(status)`, the same bits as `WEXITSTATUS`. -/
def WSTOPSIG (status : Int) : Int := WEXITSTATUS status

/-- Macro `WIFEXITED(status)`, that is `WTERMSIG(status) == 0`. -/
def WIFEXITED (status : Int) : Bool := WTERMSIG status == 0

/-- Conversion of a value in `0..255` to `signed char`. -/
def toSignedChar (v : Int) : Int := if v % 256 ≥ 128 then v % 256 - 256 else v % 256

/-- Macro `WIFSIGNALED(status)`, that is `((signed char) ((status & 0x7f) + 1) >> 1) > 0`. -/
def WIFSIGNALED (status : Int) : Bool := decide (toSignedChar (status % 128 + 1) / 2 > 0)

/-- Macro `WIFSTOPPED(status)`, that is `(status & 0xff) == 0x7f`. -/
def WIFSTOPPED (status : Int) : Bool := status % 256 == 127

/-! ## Metadata file -/

/-- A value handed to `write_meta`, tagged with the conversion of its format string. -/
inductive MetaValue where
  /-- Printed with `%d` (or `PRId64`). -/
  | d (n : Int)
  /-- Printed with `%.3f`. -/
  | f3 (x : ℚ)
  /-- Printed with `%s`, or a format string without conversions. -/
  | s (str : String)
  /-- Printed with `%zu`. -/
  | zu (n : Nat)
  deriving DecidableEq, Repr

/-- One `key: value` line of the metadata file. -/
abbrev MetaLine := String × MetaValue

/-- The C `struct timeval`. -/
structure Timeval where
  tv_sec : Int
  tv_usec : Int
  deriving DecidableEq, Repr

/-- The two fields of `struct tms` that the program reads. -/
structure Tms where
  tms_cutime : Int
  tms_cstime : Int
  deriving DecidableEq, Repr

/-- The global variables of the supervisor that the outcome report reads or writes,
together with the content of the metadata file. -/
structure Globals where
  /-- Variable `outputmeta` -/
  outputmeta : Bool
  /-- Whether `fprintf` to `metafile` succeeds (an input of the model). -/
  metafile_writable : Bool
  /-- Lines written to `metafile` so far. -/
  metafile : List MetaLine
  /-- Variable `outputtimetype` -/
  outputtimetype : Int
  /-- Variable `use_walltime` -/
  use_walltime : Bool
  /-- Variable `use_cputime` -/
  use_cputime : Bool
  /-- Variable `walltimelimit[0]`, the soft limit -/
  walltimelimit0 : ℚ
  /-- Variable `walltimelimit[1]`, the hard limit -/
  walltimelimit1 : ℚ
  /-- Variable `cputimelimit[0]`, the soft limit -/
  cputimelimit0 : ℚ
  /-- Variable `cputimelimit[1]`, the hard limit -/
  cputimelimit1 : ℚ
  /-- Variable `walllimit_reached` -/
  walllimit_reached : Nat
  /-- Variable `cpulimit_reached` -/
  cpulimit_reached : Nat
  /-- Variable `received_signal`, `-1` when none -/
  received_signal : Int
  /-- Variable `error_in_signalhandler` -/
  error_in_signalhandler : Bool
  /-- Variable `runpipe_pid` -/
  runpipe_pid : Int
  /-- Variable `child_pid` -/
  child_pid : Int
  /-- Signals sent with `kill`, as `(pid, signal)`, oldest first. -/
  kills : List (Int × Int)
  /-- Variable `starttime` -/
  starttime : Timeval
  /-- Variable `endtime` -/
  endtime : Timeval
  /-- Variable `startticks` -/
  startticks : Tms
  /-- Variable `endticks` -/
  endticks : Tms
  /-- Variable `sysconf(_SC_CLK_TCK)` -/
  ticks_per_second : Nat
  deriving DecidableEq, Repr

/-- Function `write_meta(key, format, ...)`: nothing when `outputmeta` is off; a failing `fprintf`
clears `outputmeta` and calls `error`, which exits. -/
def write_meta (g : Globals) (key : String) (v : MetaValue) : Except String Globals :=
  if !g.outputmeta then .ok g
  else if !g.metafile_writable then .error "cannot write to file"
  else .ok { g with metafile := g.metafile ++ [(key, v)] }

/-- The value `walldiff` computed in `output_exit_time`. -/
def walldiff (g : Globals) : ℚ :=
  ((g.endtime.tv_sec - g.starttime.tv_sec : Int) : ℚ) +
    ((g.endtime.tv_usec - g.starttime.tv_usec : Int) : ℚ) * (1 / 1000000)

/-- The value `userdiff` computed in `output_exit_time`. -/
def userdiff (g : Globals) : ℚ :=
  ((g.endticks.tms_cutime - g.startticks.tms_cutime : Int) : ℚ) / (g.ticks_per_second : ℚ)

/-- The value `sysdiff` computed in `output_exit_time`. -/
def sysdiff (g : Globals) : ℚ :=
  ((g.endticks.tms_cstime - g.startticks.tms_cstime : Int) : ℚ) / (g.ticks_per_second : ℚ)

/-- The soft-limit checks of `output_exit_time` (lines 435-443). -/
def soft_checks (g : Globals) (cpudiff : ℚ) : Globals :=
  let g1 := if g.use_walltime && decide (walldiff g > g.walltimelimit0)
    then { g with walllimit_reached := g.walllimit_reached ||| soft_timelimit } else g
  if g1.use_cputime && decide (cpudiff > g1.cputimelimit0)
    then { g1 with cpulimit_reached := g1.cpulimit_reached ||| soft_timelimit } else g1

/-- Function `output_exit_time(exitcode, cpudiff)`. An index outside `output_timelimit_str` is
reported as an error. -/
def output_exit_time (g : Globals) (exitcode : Int) (cpudiff : ℚ) : Except String Globals := do
  let g ← write_meta g "exitcode" (.d exitcode)
  let g ← if g.received_signal ≠ -1 then write_meta g "signal" (.d g.received_signal)
    else pure g
  let g ← write_meta g "wall-time" (.f3 (walldiff g))
  let g ← write_meta g "user-time" (.f3 (userdiff g))
  let g ← write_meta g "sys-time" (.f3 (sysdiff g))
  let g ← write_meta g "cpu-time" (.f3 cpudiff)
  let g := soft_checks g cpudiff
  let (g, timelimit_reached) ←
    if g.outputtimetype = WALL_TIME_TYPE then do
      let g ← write_meta g "time-used" (.s "wall-time")
      pure (g, g.walllimit_reached)
    else if g.outputtimetype = CPU_TIME_TYPE then do
      let g ← write_meta g "time-used" (.s "cpu-time")
      pure (g, g.cpulimit_reached)
    else throw "cannot write unknown time type to file"
  let timelimit_reached :=
    if (g.walllimit_reached ||| g.cpulimit_reached) &&& hard_timelimit ≠ 0
    then timelimit_reached ||| hard_timelimit else timelimit_reached
  match output_timelimit_str[timelimit_reached]? with
  | some str => write_meta g "time-result" (.s str)
  | none => throw "output_timelimit_str index out of range"

/-- Outcome of a `kill` call as the handler distinguishes it. -/
inductive KillResult where
  /-- The call returned 0. -/
  | ok
  /-- The call failed with `ESRCH`. -/
  | esrch
  /-- The call failed with another errno. -/
  | failed
  deriving DecidableEq, Repr

/-- Function `terminate(sig)`, the handler of SIGTERM and SIGALRM. The results of the two `kill`
calls on the child's process group are inputs. -/
def terminate (g : Globals) (sig : Int) (kill_term kill_kill : KillResult) : Globals :=
  let g := if sig = SIGALRM then
      let g := if g.runpipe_pid > 0
        then { g with kills := g.kills ++ [(g.runpipe_pid, SIGUSR1)] } else g
      { g with walllimit_reached := g.walllimit_reached ||| hard_timelimit }
    else g
  let g := { g with received_signal := sig }
  let g := { g with kills := g.kills ++ [(-g.child_pid, SIGTERM)] }
  if kill_term = .failed then { g with error_in_signalhandler := true }
  else
    let g := { g with kills := g.kills ++ [(-g.child_pid, SIGKILL)] }
    if kill_kill = .failed then { g with error_in_signalhandler := true }
    else g

/-- The block of `main` that turns the wait status into the exit code (lines 1538-1558). -/
def main_exitcode (g : Globals) (status : Int) : Except String (Globals × Int) :=
  if !WIFEXITED status then
    if WIFSIGNALED status then
      let g := if WTERMSIG status = SIGXCPU
        then { g with cpulimit_reached := g.cpulimit_reached ||| hard_timelimit } else g
      .ok (g, 128 + WTERMSIG status)
    else if WIFSTOPPED status then
      .ok (g, 128 + WSTOPSIG status)
    else .error "command exit status unknown"
  else .ok (g, WEXITSTATUS status)

/-- Values written under `key` among the lines of `after` that are not in `before`. -/
def written (key : String) (before after : Globals) : List MetaValue :=
  ((after.metafile.drop before.metafile.length).filter (fun l => l.1 == key)).map (·.2)

/-! ## The I/O pump -/

/-- Modulus of `size_t` arithmetic (64-bit Linux). -/
def SIZE_MOD : Nat := 2 ^ 64

/-- Addition of two `size_t` values. -/
def size_add (a b : Nat) : Nat := (a + b) % SIZE_MOD

/-- Subtraction of two `size_t` values. -/
def size_sub (a b : Nat) : Nat := (a + SIZE_MOD - b) % SIZE_MOD

/-- The `errno` values that `pump_pipes` tells apart. -/
inductive Errno where
  | EINTR
  | EAGAIN
  | EWOULDBLOCK
  | EINVAL
  | EPIPE
  /-- Any other error number. -/
  | other (n : Nat)
  deriving DecidableEq, Repr

/-- What `read`, `splice` or `write` returns: `-1` with an `errno`, or a byte count. -/
inductive SysResult where
  /-- The call returned `-1` and set `errno` to `e`. -/
  | fail (e : Errno)
  /-- The call returned the count `n`. -/
  | count (n : Nat)
  deriving DecidableEq, Repr

/-- The state of one of the two streams (`i = 1` stdout, `i = 2` stderr). -/
structure Stream where
  /-- Variable `child_pipefd[i][PIPE_OUT]`, `-1` once closed -/
  pipefd : Int
  /-- Variable `data_read[i]` -/
  data_read : Nat
  /-- Variable `data_passed[i]` -/
  data_passed : Nat
  /-- Bytes delivered to `child_redirfd[i]` by `splice` or `write` so far. -/
  sink : Nat
  deriving DecidableEq, Repr

/-- What the system answers for one stream during one call of `pump_pipes`. -/
structure Calls where
  /-- Value of `FD_ISSET(child_pipefd[i][PIPE_OUT], readfds)`. -/
  ready : Bool
  /-- Result of `read`, if it is called. -/
  read : SysResult
  /-- Result of `splice`, if it is called. -/
  splice : SysResult
  /-- Results of the successive `write` calls. -/
  writes : List SysResult
  /-- Whether `close` succeeds, if it is called. -/
  close_ok : Bool
  deriving DecidableEq, Repr

/-- Ways in which `pump_pipes` does not return to its caller. -/
inductive Abort where
  /-- A call of `error()`: the process exits. -/
  | fatal (msg : String)
  /-- The loop does not finish with the answers given (or within the fuel given). -/
  | hang
  deriving DecidableEq, Repr

/-- The variables `pump_pipes` works on. -/
structure PumpState where
  /-- Variable `limit_streamsize` -/
  limit_streamsize : Bool
  /-- Variable `streamsize` -/
  streamsize : Nat
  /-- Variable `use_splice` -/
  use_splice : Bool
  /-- Stream 1, the child's stdout. -/
  out : Stream
  /-- Stream 2, the child's stderr. -/
  err : Stream
  deriving DecidableEq, Repr

/-- Stream `i` of the state: stream 1 for `i = 1`, stream 2 otherwise. -/
def PumpState.strm (s : PumpState) (i : Nat) : Stream := if i = 1 then s.out else s.err

/-- Number of bytes `pump_pipes` asks `read` or `splice` for on a stream (the third
argument of the call it makes). -/
def requested (limit : Bool) (streamsize : Nat) (st : Stream) : Nat :=
  if limit && st.data_passed == streamsize then BUF_SIZE
  else if limit then min BUF_SIZE (size_sub streamsize st.data_passed)
  else BUF_SIZE

/-- The `while ( to_write>0 )` loop of `pump_pipes`: `none` when the answers run out
before the loop ends, otherwise the `errno` of a failed `write` (if any) and the bytes
now in the sink. -/
def write_loop (to_write sink : Nat) : List SysResult → Option (Option Errno × Nat)
  | [] => if to_write = 0 then some (none, sink) else none
  | r :: rest =>
    if to_write = 0 then some (none, sink)
    else match r with
      | .fail e => some (some e, sink)
      | .count w => write_loop (size_sub to_write w) (sink + w) rest

/-- The part of the loop body of `pump_pipes` that moves data (lines 985-1034): the value
of `nread` (with `errno`), the new `use_splice` and the new stream state; `none` when the
write loop does not end. -/
def transfer (limit : Bool) (streamsize : Nat) (use_splice : Bool) (st : Stream) (c : Calls) :
    Option (SysResult × Bool × Stream) :=
  if limit && st.data_passed == streamsize then
    some (c.read, use_splice, st)
  else
    let r : Option (SysResult × Bool × Nat) :=
      if use_splice then
        match c.splice with
        | .fail .EINVAL => some (.fail .EAGAIN, false, st.sink)
        | .fail .EPIPE => some (.count 0, true, st.sink)
        | .fail e => some (.fail e, true, st.sink)
        | .count n => some (.count n, true, st.sink + n)
      else
        match c.read with
        | .fail e => some (.fail e, false, st.sink)
        | .count 0 => some (.count 0, false, st.sink)
        | .count (n + 1) =>
          match write_loop (n + 1) st.sink c.writes with
          | none => none
          | some (none, sink) => some (.count (n + 1), false, sink)
          | some (some e, sink) => some (.fail e, false, sink)
    match r with
    | none => none
    | some (.count n, us, sink) =>
      some (.count n, us,
        { st with data_passed := if n > 0 then size_add st.data_passed n else st.data_passed,
                  sink := sink })
    | some (.fail e, us, sink) => some (.fail e, us, { st with sink := sink })

/-- The loop body of `pump_pipes` for one stream: new `use_splice` and stream state. -/
def pump_stream (limit : Bool) (streamsize : Nat) (use_splice : Bool) (st : Stream)
    (c : Calls) : Except Abort (Bool × Stream) :=
  if st.pipefd ≠ -1 && c.ready then
    match transfer limit streamsize use_splice st c with
    | none => .error .hang
    | some (.fail e, us, st1) =>
      if e = .EINTR ∨ e = .EAGAIN ∨ e = .EWOULDBLOCK then .ok (us, st1)
      else .error (.fatal "copying data")
    | some (.count 0, us, st1) =>
      if c.close_ok then .ok (us, { st1 with pipefd := -1 })
      else .error (.fatal "closing pipe")
    | some (.count (n + 1), us, st1) =>
      .ok (us, { st1 with data_read := size_add st1.data_read (n + 1) })
  else .ok (use_splice, st)

/-- Function `pump_pipes(readfds, data_read, data_passed)`: the loop body for `i = 1`, then
for `i = 2`. -/
def pump_pipes (s : PumpState) (c : Calls × Calls) : Except Abort PumpState :=
  match pump_stream s.limit_streamsize s.streamsize s.use_splice s.out c.1 with
  | .error e => .error e
  | .ok (us1, out1) =>
    match pump_stream s.limit_streamsize s.streamsize us1 s.err c.2 with
    | .error e => .error e
    | .ok (us2, err1) => .ok { s with use_splice := us2, out := out1, err := err1 }

/-- A sequence of `pump_pipes` calls, each with its own answers. -/
def pump_calls (s : PumpState) : List (Calls × Calls) → Except Abort PumpState
  | [] => .ok s
  | c :: rest =>
    match pump_pipes s c with
    | .error e => .error e
    | .ok s1 => pump_calls s1 rest

/-- Whether a result is at most `n` bytes (a failure counts as within bounds). -/
def SysResult.within (r : SysResult) (n : Nat) : Bool :=
  match r with
  | .fail _ => true
  | .count k => decide (k ≤ n)

/-- Whether `read` and `splice` return at most the number of bytes requested of them
on both streams. -/
def calls_bounded (s : PumpState) (c : Calls × Calls) : Bool :=
  c.1.read.within (requested s.limit_streamsize s.streamsize s.out) &&
  c.1.splice.within (requested s.limit_streamsize s.streamsize s.out) &&
  c.2.read.within (requested s.limit_streamsize s.streamsize s.err) &&
  c.2.splice.within (requested s.limit_streamsize s.streamsize s.err)

/-- Whether every call of a sequence is bounded in the state it is made in. -/
def run_bounded (s : PumpState) : List (Calls × Calls) → Bool
  | [] => true
  | c :: rest =>
    calls_bounded s c &&
    match pump_pipes s c with
    | .error _ => true
    | .ok s1 => run_bounded s1 rest


/-! ## The drain loop after the child is reaped

Once the child and all its descendants are gone nothing writes to the pipes any more:
a pipe holds `avail` buffered bytes followed by end-of-file. On such a pipe `read` and
`splice` return the smaller of the count asked for and the bytes available (0 at
end-of-file), in blocking and in non-blocking mode alike, and `write` takes all it is
given. -/

/-- The two pipes and sinks as the drain loop finds them. -/
structure Pipes where
  /-- Bytes buffered in the stdout pipe. -/
  avail1 : Nat
  /-- Bytes buffered in the stderr pipe. -/
  avail2 : Nat
  /-- Whether `splice` works towards `child_redirfd[1]` (otherwise it fails with `EINVAL`). -/
  splice_ok1 : Bool
  /-- Whether `splice` works towards `child_redirfd[2]`. -/
  splice_ok2 : Bool
  deriving DecidableEq, Repr

/-- Byte count of a result, 0 for a failure. -/
def SysResult.bytes : SysResult → Nat
  | .fail _ => 0
  | .count n => n

/-- Bytes that the loop body of `pump_pipes` takes off the pipe of a stream. -/
def taken (limit : Bool) (streamsize : Nat) (use_splice : Bool) (st : Stream) (c : Calls) :
    Nat :=
  if st.pipefd ≠ -1 && c.ready then
    if limit && st.data_passed == streamsize then c.read.bytes
    else if use_splice then c.splice.bytes else c.read.bytes
  else 0

/-- The answers of the system for a stream whose pipe holds `avail` bytes before
end-of-file. `readfds` holds every read end that was open when the loop was set up
(lines 1506-1519). -/
def drain_calls (limit : Bool) (streamsize : Nat) (st : Stream) (avail : Nat)
    (splice_ok : Bool) : Calls :=
  let k := min (requested limit streamsize st) avail
  { ready := decide (st.pipefd ≥ 0)
    read := .count k
    splice := if splice_ok then .count k else .fail .EINVAL
    writes := [.count k]
    close_ok := true }

/-- One `pump_pipes` call of the drain loop together with its effect on the pipes. -/
def drain_pump (s : PumpState) (p : Pipes) : Except Abort (PumpState × Pipes) :=
  let c1 := drain_calls s.limit_streamsize s.streamsize s.out p.avail1 p.splice_ok1
  let c2 := drain_calls s.limit_streamsize s.streamsize s.err p.avail2 p.splice_ok2
  match pump_pipes s (c1, c2) with
  | .error e => .error e
  | .ok s1 =>
    let us1 := match pump_stream s.limit_streamsize s.streamsize s.use_splice s.out c1 with
      | .ok (us, _) => us
      | .error _ => s.use_splice
    .ok (s1, { p with
      avail1 := p.avail1 - taken s.limit_streamsize s.streamsize s.use_splice s.out c1
      avail2 := p.avail2 - taken s.limit_streamsize s.streamsize us1 s.err c2 })

/-- The `do ... while ( data_passed[1] + data_passed[2] > total_data )` loop of `main`
(lines 1521-1524), run for at most `fuel` iterations. -/
def drain_loop : Nat → PumpState → Pipes → Except Abort (PumpState × Pipes)
  | 0, _, _ => .error .hang
  | fuel + 1, s, p =>
    let total_data := size_add s.out.data_passed s.err.data_passed
    match drain_pump s p with
    | .error e => .error e
    | .ok (s1, p1) =>
      if size_add s1.out.data_passed s1.err.data_passed > total_data
      then drain_loop fuel s1 p1
      else .ok (s1, p1)

/-! ## The outcome report of `main` -/

/-- C library `stpcpy(ptr, src)` on the buffer `str`, with `ptr` an offset into it: the new
buffer content up to its terminating NUL, and the offset of that NUL. -/
def stpcpy (str : List Char) (ptr : Nat) (src : String) : List Char × Nat :=
  (str.take ptr ++ src.toList, ptr + src.toList.length)

/-- The string written as `output-truncated` (lines 1593-1601). -/
def output_truncated (s : PumpState) : String :=
  let str : List Char := []
  let ptr : Nat := 0
  let r1 := if s.out.data_passed < s.out.data_read then stpcpy str ptr "stdout" else (str, ptr)
  let r2 :=
    if s.err.data_passed < s.err.data_read then
      let r := if r1.2 ≠ 0 then stpcpy r1.1 r1.2 "," else r1
      stpcpy r.1 r.2 "stderr"
    else r1
  String.mk r2.1

/-- The end of `main`, from the decoding of the wait status to `return exitcode`
(lines 1538-1614). `max_usage` and `cputime` are what the cgroup sampler reads; the
cgroup and timer calls in between are taken to succeed. `data_read[0]` is 0. -/
def main_finish (g : Globals) (s : PumpState) (status : Int) (max_usage : Int) (cputime : ℚ) :
    Except String (Globals × Int) := do
  let (g, exitcode) ← main_exitcode g status
  let g ← write_meta g "memory-bytes" (.d max_usage)
  let g ← output_exit_time g exitcode cputime
  let g ← if s.limit_streamsize
    then write_meta g "output-truncated" (.s (output_truncated s)) else pure g
  let g ← write_meta g "stdin-bytes" (.zu 0)
  let g ← write_meta g "stdout-bytes" (.zu s.out.data_read)
  let g ← write_meta g "stderr-bytes" (.zu s.err.data_read)
  pure (g, exitcode)

/-! ## Auxiliary definitions for the statements -/

/-- The index into `output_timelimit_str` that `output_exit_time` computes. -/
def timelimit_index (g : Globals) (cpudiff : ℚ) : Nat :=
  let g1 := soft_checks g cpudiff
  let sel := if g.outputtimetype = WALL_TIME_TYPE then g1.walllimit_reached
    else g1.cpulimit_reached
  if (g1.walllimit_reached ||| g1.cpulimit_reached) &&& hard_timelimit ≠ 0
  then sel ||| hard_timelimit else sel

/-- The lines `output_exit_time` appends when every write succeeds. -/
def exit_time_lines (g : Globals) (exitcode : Int) (cpudiff : ℚ) (str : String) :
    List MetaLine :=
  [("exitcode", .d exitcode)] ++
  (if g.received_signal ≠ -1 then [("signal", MetaValue.d g.received_signal)] else []) ++
  [("wall-time", .f3 (walldiff g)), ("user-time", .f3 (userdiff g)),
   ("sys-time", .f3 (sysdiff g)), ("cpu-time", .f3 cpudiff),
   ("time-used", .s (if g.outputtimetype = WALL_TIME_TYPE then "wall-time" else "cpu-time")),
   ("time-result", .s str)]

/-- The state `g` with the lines `ls` appended to the metadata file. -/
def with_lines (g : Globals) (ls : List MetaLine) : Globals :=
  { g with metafile := g.metafile ++ ls }

/-- Whether the clock selected by `outputtimetype` is in use and its measured time is
strictly greater than its soft limit. -/
def selected_exceeds (g : Globals) (cpudiff : ℚ) : Prop :=
  if g.outputtimetype = WALL_TIME_TYPE
  then g.use_walltime = true ∧ walldiff g > g.walltimelimit0
  else g.use_cputime = true ∧ cpudiff > g.cputimelimit0

/-- The index computation of `output_exit_time` on plain values: the two masks on entry,
whether the wall and the cpu soft check fire, and whether wall time is selected. -/
def result_index (w c : Nat) (a b t : Bool) : Nat :=
  let w1 := if a then w ||| soft_timelimit else w
  let c1 := if b then c ||| soft_timelimit else c
  let sel := if t then w1 else c1
  if (w1 ||| c1) &&& hard_timelimit ≠ 0 then sel ||| hard_timelimit else sel

/-- The lines the end of `main` appends when every write succeeds. -/
def finish_lines (g : Globals) (s : PumpState) (exitcode : Int) (max_usage : Int)
    (cputime : ℚ) (str : String) : List MetaLine :=
  [("memory-bytes", .d max_usage)] ++ exit_time_lines g exitcode cputime str ++
  (if s.limit_streamsize = true
   then [("output-truncated", MetaValue.s (output_truncated s))] else []) ++
  [("stdin-bytes", .zu 0), ("stdout-bytes", .zu s.out.data_read),
   ("stderr-bytes", .zu s.err.data_read)]

/-- The globals of a run started with `-C 1 -M FILE` and no `-t`, as they are when the
child has been reaped. -/
def cpu_only_run : Globals :=
  { outputmeta := true, metafile_writable := true, metafile := [],
    outputtimetype := CPU_TIME_TYPE, use_walltime := false, use_cputime := true,
    walltimelimit0 := 0, walltimelimit1 := 0, cputimelimit0 := 1, cputimelimit1 := 1,
    walllimit_reached := 0, cpulimit_reached := 0, received_signal := -1,
    error_in_signalhandler := false, runpipe_pid := -1, child_pid := 4321, kills := [],
    starttime := ⟨100, 0⟩, endtime := ⟨102, 500000⟩,
    startticks := ⟨0, 0⟩, endticks := ⟨140, 10⟩, ticks_per_second := 100 }

/-- The globals of a run started with `-t 2:3 -M FILE` and no `-C`, while the child runs. -/
def wall_only_run : Globals :=
  { cpu_only_run with
    outputtimetype := WALL_TIME_TYPE, use_walltime := true, use_cputime := false,
    walltimelimit0 := 2, walltimelimit1 := 3, cputimelimit0 := 0, cputimelimit1 := 0 }

/-- A pump state with a cap of 1024 bytes (`-s 1`) and nothing transferred yet. -/
def capped_start : PumpState :=
  { limit_streamsize := true, streamsize := 1024, use_splice := true,
    out := ⟨5, 0, 0, 0⟩, err := ⟨7, 0, 0, 0⟩ }

/-- The four byte counters are zero, as `main` sets them before the pump runs. -/
def counters_zero (s : PumpState) : Prop :=
  s.out.data_read = 0 ∧ s.out.data_passed = 0 ∧ s.err.data_read = 0 ∧ s.err.data_passed = 0

/-- Invariant of one stream after `k` calls of `pump_pipes`, for the flag `L` and cap `S`:
the counters are equal unless the stream sits at the cap; with a cap the forwarded bytes
stay within it; and, as long as `S + BUF_SIZE * k` fits in a `size_t`, the bytes read are
at least the bytes forwarded and at most `BUF_SIZE * k` more. -/
def StreamInv (L : Bool) (S k : Nat) (st : Stream) : Prop :=
  (st.data_read = st.data_passed ∨ (L = true ∧ st.data_passed = S)) ∧
  (L = true → st.data_passed ≤ S) ∧
  (L = true → S + BUF_SIZE * k < SIZE_MOD →
    st.data_passed ≤ st.data_read ∧ st.data_read ≤ st.data_passed + BUF_SIZE * k)

deriving instance DecidableEq for Except

/-- The answers for stream `i` within the answers for one `pump_pipes` call. -/
def calls_of (c : Calls × Calls) (i : Nat) : Calls := if i = 1 then c.1 else c.2

/-- Answers for a stream that is ready and whose `read` or `splice` moves `n` bytes, all
of which one `write` takes. -/
def moves (n : Nat) : Calls :=
  { ready := true, read := .count n, splice := .count n, writes := [.count n],
    close_ok := true }

/-- Answers for a stream that is not in `readfds`. -/
def idle : Calls :=
  { ready := false, read := .count 0, splice := .count 0, writes := [], close_ok := true }

/-- The state `capped_start` after 1024 bytes of stdout have been forwarded: stream 1
sits at the cap. -/
def capped_full : PumpState := { capped_start with out := ⟨5, 1024, 1024, 1024⟩ }

/-- The state `capped_full` after a further 4096 bytes of stdout have been read and
discarded. -/
def capped_discarded : PumpState := { capped_start with out := ⟨5, 5120, 1024, 1024⟩ }

/-- The pipes of a child that wrote 6000 bytes to stdout, nothing to stderr, and was
reaped before the pump ran; both sinks accept `splice`. -/
def pipes_6000 : Pipes := ⟨6000, 0, true, true⟩

/-- The state in which the drain loop leaves `capped_start` on `pipes_6000`. -/
def drained_6000 : PumpState :=
  { capped_start with out := ⟨5, 5120, 1024, 1024⟩, err := ⟨-1, 0, 0, 0⟩ }

/-- The pump state when the child is reaped before any byte was pumped, with the cap `C`
configured. -/
def reaped (C : Nat) (us : Bool) (fd1 fd2 : Int) : PumpState :=
  { limit_streamsize := true, streamsize := C, use_splice := us,
    out := ⟨fd1, 0, 0, 0⟩, err := ⟨fd2, 0, 0, 0⟩ }

/-- The pump state inside the drain loop of a run with the cap `C`, after `p` bytes of
stdout have been forwarded and nothing discarded; `fd2` is the stderr read end. -/
def draining (C : Nat) (us : Bool) (fd1 fd2 : Int) (p : Nat) : PumpState :=
  { limit_streamsize := true, streamsize := C, use_splice := us,
    out := ⟨fd1, p, p, p⟩, err := ⟨fd2, 0, 0, 0⟩ }

/-- The stdout stream after one loop body of the drain loop that found `a` bytes in the
pipe, having forwarded `p` bytes before. -/
def drained_out (C : Nat) (fd1 : Int) (p a : Nat) : Stream :=
  let k := min (requested true C ⟨fd1, p, p, p⟩) a
  if k = 0 then ⟨-1, p, p, p⟩
  else if p = C then ⟨fd1, size_add p k, p, p⟩
  else ⟨fd1, size_add p k, size_add p k, p + k⟩

/-! ## C library functions used by the option parser

`strtol` is modelled after ISO C for base 10 on a platform with a 64-bit `long`: leading
white space, an optional sign, then decimal digits; without a digit no conversion is
performed, the value is 0 and the end pointer is the start of the string; a value outside
the range of `long` is clamped and `errno` becomes `ERANGE`. `strtod` is an input of the
model: the functions below take it as an argument. Strings are lists of characters. -/

/-- Upper bound of `long`. -/
def LONG_MAX : Int := 2 ^ 63 - 1

/-- Lower bound of `long`. -/
def LONG_MIN : Int := -(2 ^ 63)

/-- Number of values of the 64-bit unsigned `rlim_t`. -/
def RLIM_MOD : Nat := 2 ^ 64

/-- The value of `RLIM_INFINITY` on Linux, `(rlim_t) -1`. -/
def RLIM_INFINITY : Nat := 2 ^ 64 - 1

/-- The value of `FNM_NOMATCH` in glibc. -/
def FNM_NOMATCH : Int := 1

/-- The constant `exit_failure` of the source. -/
def exit_failure : Int := -1

/-- The characters for which `isspace` holds in the C locale. -/
def isspace (c : Char) : Bool := c.toNat = 32 || (9 ≤ c.toNat && c.toNat ≤ 13)

/-- The decimal digits. -/
def isdigit (c : Char) : Bool := 48 ≤ c.toNat && c.toNat ≤ 57

/-- The letters `A-Z` and `a-z`. -/
def isalpha (c : Char) : Bool :=
  (65 ≤ c.toNat && c.toNat ≤ 90) || (97 ≤ c.toNat && c.toNat ≤ 122)

/-- Conversion of an integer to a 32-bit `int`, as on assignment of a `long` or of an
unsigned 32-bit id to an `int`. -/
def to_int (n : Int) : Int := (n + 2 ^ 31) % 2 ^ 32 - 2 ^ 31

/-- Conversion of a `long` to `rlim_t`. -/
def to_rlim (n : Int) : Nat := (n % 2 ^ 64).toNat

/-- What a call of `strtol` leaves: the value, the string at the end pointer, and whether
`errno` was set. -/
structure StrtolResult where
  value : Int
  rest : List Char
  erange : Bool
deriving DecidableEq

/-- The digits at the head of a string, accumulated onto `acc`, and the rest. -/
def read_digits : List Char → Nat → Nat × List Char
  | [], acc => (acc, [])
  | c :: cs, acc =>
    if isdigit c then read_digits cs (10 * acc + (c.toNat - 48)) else (acc, c :: cs)

/-- The call `strtol(s, &ptr, 10)` after `errno = 0`. -/
def strtol (s : List Char) : StrtolResult :=
  let t := s.dropWhile isspace
  let negative := t.head? = some '-'
  let u := if t.head? = some '-' ∨ t.head? = some '+' then t.tail else t
  if (u.head?.map isdigit) = some true then
    let r := read_digits u 0
    let v : Int := if negative then -(r.1 : Int) else (r.1 : Int)
    if v > LONG_MAX then ⟨LONG_MAX, r.2, true⟩
    else if v < LONG_MIN then ⟨LONG_MIN, r.2, true⟩
    else ⟨v, r.2, false⟩
  else ⟨0, s, false⟩

/-- A value of type `double`: a finite number, an infinity or a NaN. -/
inductive Double
  | fin (q : ℚ)
  | inf (negative : Bool)
  | nan
deriving DecidableEq

/-- The test `finite(x)`. -/
def Double.finite : Double → Bool
  | .fin _ => true
  | _ => false

/-- The comparison `x <= 0`; it is false for a NaN. -/
def Double.le_zero : Double → Bool
  | .fin q => decide (q ≤ 0)
  | .inf negative => negative
  | .nan => false

/-- The comparison `x < y`; it is false when either side is a NaN. -/
def Double.lt : Double → Double → Bool
  | .fin p, .fin q => decide (p < q)
  | .fin _, .inf negative => !negative
  | .inf negative, .fin _ => negative
  | .inf a, .inf b => a && !b
  | _, _ => false

/-- The number a finite `double` stands for; 0 for the others. -/
def Double.toRat : Double → ℚ
  | .fin q => q
  | _ => 0

/-- What a call of `strtod` leaves: the value, the string at the end pointer, and whether
`errno` was set. -/
structure StrtodResult where
  value : Double
  rest : List Char
  erange : Bool

/-- The function `read_optarg_int` for the argument string `optarg`: the `Except` error is
the call of `error`. -/
def read_optarg_int (optarg : List Char) (minval maxval : Int) : Except String Int :=
  let r := strtol optarg
  if r.erange || !r.rest.isEmpty || decide (r.value < minval) || decide (r.value > maxval)
  then .error "invalid value specified"
  else .ok r.value

/-- The function `read_optarg_time` for the argument string `optarg`, with the `strtod`
of the platform as an argument: `strchr` finds the first `:` and the string is cut there.
The result is `(times[0], times[1])`. -/
def read_optarg_time (strtod : List Char → StrtodResult) (optarg : List Char) :
    Except String (ℚ × ℚ) :=
  let optcopy := optarg.takeWhile (fun c => c != ':')
  let sep := optarg.dropWhile (fun c => c != ':')
  let r0 := strtod optcopy
  if r0.erange || !r0.rest.isEmpty || !r0.value.finite || r0.value.le_zero
  then .error "invalid time specified"
  else
    match sep with
    | _ :: hard =>
      let r1 := strtod hard
      if r1.erange || hard.isEmpty || !r1.rest.isEmpty || !r1.value.finite
        || r1.value.le_zero
      then .error "invalid time specified"
      else if r1.value.lt r0.value
      then .error "invalid time specified: hard limit is lower than soft limit"
      else .ok (r0.value.toRat, r1.value.toRat)
    | [] => .ok (r0.value.toRat, r0.value.toRat)

/-- The conversion of the `-m` and `-f` arguments from kB to bytes in `rlim_t`. -/
def kb_to_rlim (arg : Int) : Nat :=
  let memsize := to_rlim arg
  if memsize ≠ (memsize * 1024 % RLIM_MOD) / 1024 then RLIM_INFINITY
  else memsize * 1024 % RLIM_MOD

/-- The conversion of the `-s` argument from kB to bytes in `size_t`. -/
def kb_to_streamsize (arg : Int) : Nat :=
  let streamsize := (arg % SIZE_MOD).toNat
  if streamsize ≠ (streamsize * 1024 % SIZE_MOD) / 1024 then LONG_MAX.toNat
  else streamsize * 1024 % SIZE_MOD

/-- Splitting as repeated `strtok` does it: the maximal runs without the delimiter, in
order, empty runs left out. `cur` is the run being read. -/
def tokens_from (delim : Char) : List Char → List Char → List (List Char)
  | [], cur => if cur.isEmpty then [] else [cur]
  | c :: cs, cur =>
    if c = delim then
      (if cur.isEmpty then tokens_from delim cs [] else cur :: tokens_from delim cs [])
    else tokens_from delim cs (cur ++ [c])

/-- The tokens that `strtok(s, delim)` and the following `strtok(nullptr, delim)` calls
return. -/
def strtok (s : List Char) (delim : Char) : List (List Char) := tokens_from delim s []

/-- The POSIX basic regular expression `^[A-Za-z][A-Za-z0-9\._-]*$` of the source; inside
the bracket the backslash (code 92) stands for itself. -/
def username_regex (s : List Char) : Bool :=
  match s with
  | [] => false
  | c :: cs =>
    isalpha c &&
    cs.all (fun d => isalpha d || isdigit d || d.toNat = 92 || d = '.' || d = '_' || d = '-')

/-! ## Option processing in `main`

`getopt_long` is outside the source: a command line is given as the list of options it
returns, in order, each with its `optarg`. The user and group databases, `strtod`,
`fnmatch`, `get_nprocs_conf` and the build constant `VALID_USERS` are inputs, collected
in `Sys`. A call of `error` ends the function with `Except.error`. -/

/-- An entry of the user database. -/
structure Passwd where
  pw_name : String
  pw_uid : Nat
  pw_gid : Nat

/-- An entry of the group database. -/
structure Group where
  gr_name : String
  gr_gid : Nat

/-- The platform as the option parser sees it. -/
structure Sys where
  strtod : List Char → StrtodResult
  passwd : List Passwd
  group : List Group
  fnmatch : String → String → Int
  nprocs_conf : Int
  VALID_USERS : String

/-- The call `getpwnam(name)`. -/
def getpwnam (sys : Sys) (name : String) : Option Passwd :=
  sys.passwd.find? (fun p => p.pw_name = name)

/-- The call `getgrnam(name)`. -/
def getgrnam (sys : Sys) (name : String) : Option Group :=
  sys.group.find? (fun p => p.gr_name = name)

/-- The function `userid`. -/
def userid (sys : Sys) (name : String) : Int :=
  match getpwnam sys name with
  | none => -1
  | some pwd => to_int pwd.pw_uid

/-- The function `groupid`. -/
def groupid (sys : Sys) (name : String) : Int :=
  match getgrnam sys name with
  | none => -1
  | some grp => to_int grp.gr_gid

/-- One return of `getopt_long` with its `optarg`. -/
inductive Opt
  | help
  | version
  | root (optarg : String)
  | user (optarg : String)
  | group (optarg : String)
  | chdir (optarg : String)
  | walltime (optarg : String)
  | cputime (optarg : String)
  | memsize (optarg : String)
  | filesize (optarg : String)
  | nproc (optarg : String)
  | cpuset (optarg : String)
  | no_core
  | stdout (optarg : String)
  | stderr (optarg : String)
  | streamsize (optarg : String)
  | environment
  | variable (optarg : String)
  | outmeta (optarg : String)
  | verbose
  | quiet
  | runpipepid (optarg : String)
  | unknown
deriving DecidableEq

/-- The globals that the option loop of `main` sets. -/
structure Options where
  use_root : Bool
  use_walltime : Bool
  use_cputime : Bool
  use_user : Bool
  use_group : Bool
  no_coredump : Bool
  outputmeta : Bool
  outputtimetype : Int
  preserve_environment : Bool
  memsize : Nat
  filesize : Nat
  nproc : Nat
  redir_stdout : Bool
  redir_stderr : Bool
  limit_streamsize : Bool
  streamsize : Nat
  be_verbose : Bool
  be_quiet : Bool
  show_help : Bool
  show_version : Bool
  walltimelimit : ℚ × ℚ
  cputimelimit : ℚ × ℚ
  runuser : Option String
  rungroup : Option String
  runuid : Int
  rungid : Int
  rootdir : Option String
  rootchdir : Option String
  cpuset : Option String
  stdoutfilename : Option String
  stderrfilename : Option String
  metafilename : Option String
  environment_variables : List String
  runpipe_pid : Int
deriving DecidableEq

/-- The globals as `main` sets them before the option loop; the ones it does not assign
have their static initial values. -/
def Options.start : Options :=
  { use_root := false, use_walltime := false, use_cputime := false, use_user := false,
    use_group := false, no_coredump := false, outputmeta := false,
    outputtimetype := CPU_TIME_TYPE, preserve_environment := false,
    memsize := RLIM_INFINITY, filesize := RLIM_INFINITY, nproc := RLIM_INFINITY,
    redir_stdout := false, redir_stderr := false, limit_streamsize := false,
    streamsize := 0, be_verbose := false, be_quiet := false, show_help := false,
    show_version := false, walltimelimit := (0, 0), cputimelimit := (0, 0),
    runuser := none, rungroup := none, runuid := 0, rungid := 0, rootdir := none,
    rootchdir := none, cpuset := none, stdoutfilename := none, stderrfilename := none,
    metafilename := none, environment_variables := [], runpipe_pid := -1 }

/-- One pass through the body of the option loop of `main`. -/
def process_option (sys : Sys) (o : Options) : Opt → Except String Options
  | .help => .ok { o with show_help := true }
  | .version => .ok { o with show_version := true }
  | .root optarg => .ok { o with use_root := true, rootdir := some optarg }
  | .user optarg =>
    let r := strtol optarg.data
    if r.erange || !r.rest.isEmpty then
      if !username_regex optarg.data
      then .error "username does not match POSIX pattern"
      else if userid sys optarg < 0 then .error "invalid username or ID specified"
      else .ok { o with use_user := true, runuser := some optarg,
                        runuid := userid sys optarg }
    else if to_int r.value < 0 then .error "invalid username or ID specified"
    else .ok { o with use_user := true, runuser := some optarg, runuid := to_int r.value }
  | .group optarg =>
    let r := strtol optarg.data
    let rungid := if r.erange || !r.rest.isEmpty then groupid sys optarg else to_int r.value
    if rungid < 0 then .error "invalid groupname or ID specified"
    else .ok { o with use_group := true, rungroup := some optarg, rungid := rungid }
  | .chdir optarg => .ok { o with rootchdir := some optarg }
  | .walltime optarg =>
    match read_optarg_time sys.strtod optarg.data with
    | .error e => .error e
    | .ok times =>
      .ok { o with use_walltime := true, outputtimetype := WALL_TIME_TYPE,
                   walltimelimit := times }
  | .cputime optarg =>
    match read_optarg_time sys.strtod optarg.data with
    | .error e => .error e
    | .ok times =>
      .ok { o with use_cputime := true, outputtimetype := CPU_TIME_TYPE,
                   cputimelimit := times }
  | .memsize optarg =>
    match read_optarg_int optarg.data 1 LONG_MAX with
    | .error e => .error e
    | .ok arg => .ok { o with memsize := kb_to_rlim arg }
  | .filesize optarg =>
    match read_optarg_int optarg.data 1 LONG_MAX with
    | .error e => .error e
    | .ok arg => .ok { o with filesize := kb_to_rlim arg }
  | .nproc optarg =>
    match read_optarg_int optarg.data 1 LONG_MAX with
    | .error e => .error e
    | .ok arg => .ok { o with nproc := to_rlim arg }
  | .cpuset optarg => .ok { o with cpuset := some optarg }
  | .no_core => .ok { o with no_coredump := true }
  | .stdout optarg => .ok { o with redir_stdout := true, stdoutfilename := some optarg }
  | .stderr optarg => .ok { o with redir_stderr := true, stderrfilename := some optarg }
  | .streamsize optarg =>
    match read_optarg_int optarg.data 0 LONG_MAX with
    | .error e => .error e
    | .ok arg => .ok { o with limit_streamsize := true, streamsize := kb_to_streamsize arg }
  | .environment => .ok { o with preserve_environment := true }
  | .variable optarg =>
    .ok { o with environment_variables := o.environment_variables ++ [optarg] }
  | .outmeta optarg => .ok { o with outputmeta := true, metafilename := some optarg }
  | .verbose => .ok { o with be_verbose := true }
  | .quiet => .ok { o with be_quiet := true }
  | .runpipepid optarg => .ok { o with runpipe_pid := to_int (strtol optarg.data).value }
  | .unknown => .error "unknown option or missing argument"

/-- The option loop of `main` from the globals `o` on. A failure carries the globals as
they were when the failing option was reached; no failing option changes `outputmeta`,
the only one of them that `error` reads. -/
def parse_options (sys : Sys) (o : Options) : List Opt → Except (Options × String) Options
  | [] => .ok o
  | opt :: opts =>
    match process_option sys o opt with
    | .error e => .error (o, e)
    | .ok o1 => parse_options sys o1 opts

/-- The block after the option loop that gives a run with `-u` and without `-g` a group
(lines 1233 to 1239). -/
def default_group (sys : Sys) (o : Options) : Except String Options :=
  if o.use_user && !o.use_group then
    match o.runuser with
    | none => .error "invalid groupname or ID specified"
    | some runuser =>
      if groupid sys runuser < 0 then .error "invalid groupname or ID specified"
      else .ok { o with use_group := true, rungroup := some runuser,
                        rungid := groupid sys runuser }
  else .ok o

/-- The loop over the tokens of `VALID_USERS`: whether it ends at a token, that is with
`ptr != nullptr`. -/
def valid_user_found (sys : Sys) (runuid : Int) (runuser : Option String) :
    List String → Except String Bool
  | [] => .ok false
  | ptr :: rest =>
    if runuid = userid sys ptr then .ok true
    else
      match runuser with
      | none => valid_user_found sys runuid runuser rest
      | some u =>
        if sys.fnmatch ptr u = 0 then .ok true
        else if sys.fnmatch ptr u ≠ FNM_NOMATCH then .error "matching username"
        else valid_user_found sys runuid runuser rest

/-- The check of the run user against `VALID_USERS` (lines 1260 to 1273). -/
def check_valid_user (sys : Sys) (o : Options) : Except String Unit :=
  if o.use_user then
    match valid_user_found sys o.runuid o.runuser
        ((strtok sys.VALID_USERS.data ',').map String.mk) with
    | .error e => .error e
    | .ok found =>
      if !found || decide (o.runuid ≤ 0) then .error "illegal user specified" else .ok ()
  else .ok ()

/-- The validation of the `cpuset` string (lines 1299 to 1310); `nprocs` is the value of
`get_nprocs_conf()`. The result of `strtol` is stored in an `int`. -/
def check_cpuset (cpuset : Option String) (nprocs : Int) : Except String Unit :=
  match cpuset with
  | none => .ok ()
  | some s =>
    if s.data.length > 0 then
      let r := strtol s.data
      let ret := to_int r.value
      if r.rest.isEmpty then
        if ret < 0 ∨ ret ≥ nprocs then .error "processor ID given as cpuset out of range"
        else .ok ()
      else .ok ()
    else .ok ()

/-! ## The fatal-error path

`error` and `write_meta` call each other; the flag `in_error_handling` ends the recursion
after one level. The process state below holds what the two functions read and write.
`metafile` is `none` while the pointer `metafile` is null, that is until the `fopen` of
line 1252. As in `Globals`, one input says whether `fprintf` to the metadata file
succeeds. The message that `error` formats is passed as a string. -/

/-- How a process stopped: by `exit(code)`, or inside `fprintf` on the null `metafile`
pointer, where the behaviour is undefined in C and glibc faults. -/
inductive Stop
  | exit (code : Int)
  | null_stream
deriving DecidableEq

/-- The part of the process state that `error` and `write_meta` read or write. -/
structure Proc where
  in_error_handling : Bool
  outputmeta : Bool
  metafile : Option (List MetaLine)
  metafile_writable : Bool
  stderr : List String
  child_pid : Int
  kills : List (Int × Int)
  stopped : Option Stop
deriving DecidableEq

/-- The function `write_meta` when `in_error_handling` is set: each `error` call in it
returns at once, so a failed `fprintf` only clears `outputmeta`. -/
def Proc.write_meta_in_error (p : Proc) (key : String) (v : MetaValue) : Proc :=
  if !p.outputmeta then p
  else
    match p.metafile with
    | none => { p with stopped := some .null_stream }
    | some lines =>
      if p.metafile_writable then { p with metafile := some (lines ++ [(key, v)]) }
      else { p with outputmeta := false }

/-- The function `error`. -/
def Proc.error (p : Proc) (_errnum : Int) (errstr : String) : Proc :=
  if p.in_error_handling then p
  else
    let p1 := { p with in_error_handling := true, stderr := p.stderr ++ [errstr] }
    let p2 := p1.write_meta_in_error "internal-error" (.s errstr)
    if p2.stopped.isSome then p2
    else
      let p3 := if p2.child_pid > 0
        then { p2 with kills := p2.kills ++ [(-p2.child_pid, SIGKILL)] } else p2
      { p3 with stopped := some (.exit exit_failure) }

/-- The function `write_meta`. -/
def Proc.write_meta (p : Proc) (key : String) (v : MetaValue) : Proc :=
  if !p.outputmeta then p
  else
    match p.metafile with
    | none => { p with stopped := some .null_stream }
    | some lines =>
      if p.metafile_writable then { p with metafile := some (lines ++ [(key, v)]) }
      else Proc.error { p with outputmeta := false } 0 "cannot write to file"

/-- A call that the rest of the program makes into the error path. -/
inductive Call
  | write_meta (key : String) (v : MetaValue)
  | error (errnum : Int) (errstr : String)

/-- The state after one call. -/
def Proc.call (p : Proc) : Call → Proc
  | .write_meta key v => p.write_meta key v
  | .error errnum errstr => p.error errnum errstr

/-- The state after a sequence of calls; a stopped process makes no further call. -/
def Proc.run (p : Proc) : List Call → Proc
  | [] => p
  | c :: cs => if p.stopped.isSome then p else (p.call c).run cs

/-- The number of `internal-error` lines in the metadata file. -/
def Proc.internal_errors (p : Proc) : Nat :=
  match p.metafile with
  | none => 0
  | some lines => (lines.filter (fun l => l.1 = "internal-error")).length

/-- The calls of `write_meta` outside `error` have another key than `internal-error`. -/
def Call.regular : Call → Prop
  | .write_meta key _ => key ≠ "internal-error"
  | .error _ _ => True

/-- The fork of line 1355 as the metadata file sees it. The child starts as a copy of
the parent `p` with `child_pid = 0` and makes the calls `child_calls`; the parent makes
the calls `parent_calls` after the child has ended. Both write through the one open file
description that `main` opened before the fork, and the parent has written nothing at
the fork, so the lines that the child flushed precede the lines of the parent. The
result is the final state of the parent. -/
def fork_run (p : Proc) (child_calls parent_calls : List Call) : Proc :=
  let child := Proc.run { p with child_pid := 0 } child_calls
  Proc.run { p with metafile := child.metafile } parent_calls

/-- The process state of `main` before the fork, with the given `outputmeta` and
`metafile`; `child_pid` is 0 until the fork. -/
def Proc.before_fork (outputmeta : Bool) (metafile : Option (List MetaLine))
    (writable : Bool) : Proc :=
  { in_error_handling := false, outputmeta := outputmeta, metafile := metafile,
    metafile_writable := writable, stderr := [], child_pid := 0, kills := [],
    stopped := none }

/-- The function `main` from the option loop to the validation of the cpuset (lines 1094
to 1310) on the options `opts`. `have_command` says that `argc > optind`, `fopen_ok` that
the `fopen` of the metadata file succeeds, `writable` that `fprintf` to it succeeds; the
calls of `pipe`, `sigprocmask` and `sigaction` in between are taken to succeed. The
result is the globals when the function gets through, and the stopped process state when
it exits. -/
def main_start (sys : Sys) (opts : List Opt) (have_command fopen_ok writable : Bool) :
    Except Proc Options :=
  match parse_options sys Options.start opts with
  | .error (o, e) => .error ((Proc.before_fork o.outputmeta none writable).error 0 e)
  | .ok o0 =>
    match default_group sys o0 with
    | .error e => .error ((Proc.before_fork o0.outputmeta none writable).error 0 e)
    | .ok o =>
      if o.show_help || o.show_version then
        .error { Proc.before_fork o.outputmeta none writable with stopped := some (.exit 0) }
      else if !have_command then
        .error ((Proc.before_fork o.outputmeta none writable).error 0 "no command specified")
      else if o.outputmeta && !fopen_ok then
        .error ((Proc.before_fork o.outputmeta none writable).error 0 "cannot open")
      else
        let metafile : Option (List MetaLine) := if o.outputmeta then some [] else none
        match check_valid_user sys o with
        | .error e => .error ((Proc.before_fork o.outputmeta metafile writable).error 0 e)
        | .ok _ =>
          match check_cpuset o.cpuset sys.nprocs_conf with
          | .error e =>
            .error ((Proc.before_fork o.outputmeta metafile writable).error 0 e)
          | .ok _ => .ok o

/-! ## The restrictions of the child

The environment is a list of names with their values. `setenv` and `putenv` replace the
first entry of the name or append one; `putenv` of a string without `=` removes the name,
as glibc does. The system calls that change the credentials are inputs (`Kernel`). -/

/-- The array `environ`. -/
abbrev Environ := List (List Char × List Char)

/-- The call `getenv(name)`. -/
def getenv (env : Environ) (name : List Char) : Option (List Char) :=
  match env with
  | [] => none
  | (k, v) :: rest => if k = name then some v else getenv rest name

/-- The call `setenv(name, value, 1)`. -/
def setenv : Environ → List Char → List Char → Environ
  | [], name, value => [(name, value)]
  | (k, v) :: rest, name, value =>
    if k = name then (name, value) :: rest else (k, v) :: setenv rest name value

/-- The call `putenv(string)`. -/
def putenv (env : Environ) (string : List Char) : Environ :=
  if '=' ∈ string then
    setenv env (string.takeWhile (fun c => c != '=')) (string.dropWhile (fun c => c != '=')).tail
  else env.filter (fun e => e.1 != string)

/-- The first block of `setrestrictions` (lines 822 to 841). -/
def set_environment (preserve_environment : Bool) (environment_variables : List String)
    (environ : Environ) : Environ :=
  let cleared : Environ :=
    if !preserve_environment then
      match getenv environ "PATH".data with
      | some path => setenv [] "PATH".data path
      | none => []
    else environ
  environment_variables.foldl
    (fun env tokens => (strtok tokens.data ';').foldl putenv env) cleared

/-- The user and group ids of a process that the source reads or sets. -/
structure Cred where
  ruid : Nat
  euid : Nat
  rgid : Nat
  egid : Nat
deriving DecidableEq

/-- The system calls of the last block of `setrestrictions`: each gives the new
credentials, or `none` when it fails. -/
structure Kernel where
  setgid : Cred → Int → Option Cred
  setgroups : Cred → Option Cred
  setuid : Cred → Int → Option Cred

/-- The group block of `setrestrictions` (lines 949 to 955). -/
def set_group_id (k : Kernel) (o : Options) (c : Cred) : Except String Cred :=
  if o.use_group then
    match k.setgid c o.rungid with
    | none => .error "cannot set group ID"
    | some c1 =>
      match k.setgroups c1 with
      | none => .error "cannot clear auxiliary groups"
      | some c2 => .ok c2
  else .ok c

/-- The user block of `setrestrictions` (lines 956 to 968). -/
def set_user_id (k : Kernel) (o : Options) (c : Cred) : Except String Cred :=
  if o.use_user then
    match k.setuid c o.runuid with
    | none => .error "cannot set user ID"
    | some c1 => .ok c1
  else
    match k.setuid c c.ruid with
    | none => .error "cannot reset real user ID"
    | some c1 => .ok c1

/-- The last part of `setrestrictions` (lines 949 to 971): the two blocks and the test
of `geteuid()` and `getuid()`. -/
def drop_privileges (k : Kernel) (o : Options) (c : Cred) : Except String Cred :=
  match set_group_id k o c with
  | .error e => .error e
  | .ok c2 =>
    match set_user_id k o c2 with
    | .error e => .error e
    | .ok c3 =>
      if c3.euid = 0 ∨ c3.ruid = 0 then .error "root privileges not dropped"
      else .ok c3

/-- The state of the child that `setrestrictions` changes. -/
structure Child where
  environ : Environ
  cred : Cred
deriving DecidableEq

/-- The function `setrestrictions`; `middle_ok` says that the resource limits, the cgroup
attachment, `setsid` and the change of root (lines 843 to 947) get through. -/
def setrestrictions (k : Kernel) (o : Options) (middle_ok : Bool) (st : Child) :
    Except String Child :=
  let environ := set_environment o.preserve_environment o.environment_variables st.environ
  if !middle_ok then .error "restriction failed"
  else
    match drop_privileges k o st.cred with
    | .error e => .error e
    | .ok c => .ok { environ := environ, cred := c }

/-- The child branch after the fork up to `execvp` (lines 1358 to 1385): the result is
the state in which the command is executed; `redirect_ok` says that the `dup2`, `close`
and `fclose` calls after `setrestrictions` succeed. -/
def child_until_exec (k : Kernel) (o : Options) (middle_ok redirect_ok : Bool)
    (st : Child) : Except String Child :=
  match setrestrictions k o middle_ok st with
  | .error e => .error e
  | .ok st1 => if redirect_ok then .ok st1 else .error "redirecting child fd"

/-! ## The order of the actions of the parent

The parent branch of `main` after the fork, as the sequence of its calls that change the
user id, touch the cgroup or write a line of the metadata file, on the path on which no
call fails. -/

/-- An action of the parent. -/
inductive Step
  | setuid_getuid
  | check_remaining_procs
  | cgroup_kill
  | cgroup_delete
  | write_meta (key : String)
deriving DecidableEq

/-- The actions of the parent from the fork to the end of `main`, in program order
(lines 1390 to 1614), for the globals `g` at the report, the pump state `s` and the
flag `use_user`. `output_cgroup_stats_v2` and `_v1` write `memory-bytes`; the lines of
`output_exit_time` are those of `exit_time_lines`. -/
def parent_steps (use_user : Bool) (g : Globals) (s : PumpState) : List Step :=
  (if !use_user then [Step.setuid_getuid] else []) ++
  [.check_remaining_procs, .write_meta "memory-bytes", .cgroup_kill, .cgroup_delete,
   .setuid_getuid] ++
  (exit_time_lines g 0 0 "").map (fun l => Step.write_meta l.1) ++
  (if s.limit_streamsize then [Step.write_meta "output-truncated"] else []) ++
  [.write_meta "stdin-bytes", .write_meta "stdout-bytes", .write_meta "stderr-bytes"]

/-! ## Statistics, timer, limits and pipe flags

Conversions of a `double` to an integer type truncate toward zero and are undefined in C
when the truncated value does not fit the type; they return `none` then. The entries of
`cpu.stat` that libcgroup hands out and the result of `fcntl(F_GETFL)` are inputs. -/

/-- The value of `O_NONBLOCK` on Linux (octal 04000). -/
def O_NONBLOCK : Nat := 2048

/-- Truncation of a `double` toward zero, as an integer. -/
def trunc (x : ℚ) : Int := if 0 ≤ x then ⌊x⌋ else ⌈x⌉

/-- The conversion `(int) x` of a `double`. -/
def double_to_int (x : ℚ) : Option Int :=
  if -(2 ^ 31) ≤ trunc x ∧ trunc x < 2 ^ 31 then some (trunc x) else none

/-- The conversion `(rlim_t) x` of a `double`. -/
def double_to_rlim (x : ℚ) : Option Nat :=
  if 0 ≤ trunc x ∧ trunc x < 2 ^ 64 then some (trunc x).toNat else none

/-- The fractional part that `modf(x, &tmpd)` returns: it has the sign of `x`. -/
def modf (x : ℚ) : ℚ := x - trunc x

/-- The loop of `output_cgroup_stats_v2` over the entries of `cpu.stat` (lines 538 to
546): every entry named `usage_usec` assigns `strtoll(value) / 1e6` to `*cputime`;
`cputime` is the value before the loop. `long long` has the range of `long`. -/
def cpu_stat_cputime (cputime : ℚ) : List (String × String) → ℚ
  | [] => cputime
  | (name, value) :: rest =>
    cpu_stat_cputime
      (if name = "usage_usec" then ((strtol value.data).value : ℚ) / 1000000 else cputime)
      rest

/-- The `cputime` that `main` hands to `output_exit_time` on a cgroup v2 system (lines
1577 to 1589): it starts as -1 and `output_cgroup_stats_v2` runs the loop on it. -/
def main_cputime_v2 (stats : List (String × String)) : ℚ := cpu_stat_cputime (-1) stats

/-- The C `struct itimerval`. -/
structure Itimerval where
  it_interval : Timeval
  it_value : Timeval
deriving DecidableEq

/-- The timer value that `main` passes to `setitimer(ITIMER_REAL, ...)` for the hard
wall-time limit `walltimelimit[1]` (lines 1454 to 1457). -/
def walltime_itimer (walltimelimit1 : ℚ) : Option Itimerval :=
  match double_to_int walltimelimit1, double_to_int (modf walltimelimit1 * 1000000) with
  | some tv_sec, some tv_usec => some ⟨⟨0, 0⟩, ⟨tv_sec, tv_usec⟩⟩
  | _, _ => none

/-- The C `struct rlimit`. -/
structure Rlimit where
  rlim_cur : Nat
  rlim_max : Nat
deriving DecidableEq

/-- The limit that `setrestrictions` passes to `setrlimit(RLIMIT_CPU, ...)` for the hard
CPU-time limit `cputimelimit[1]` (lines 865 to 868). -/
def cputime_rlimit (cputimelimit1 : ℚ) : Option Rlimit :=
  match double_to_rlim (⌈cputimelimit1⌉ : ℚ) with
  | some cputime_limit => some ⟨cputime_limit, (cputime_limit + 1) % RLIM_MOD⟩
  | none => none

/-- The flags that `main` sets on a pipe read end before the drain loop (lines 1510 to
1517): `getfl` is the result of `fcntl(fd, F_GETFL)`, `setfl_ok` says that the
`fcntl(fd, F_SETFL, ...)` call succeeds, and the result is the flag word passed to it. -/
def drain_flags (getfl : Int) (setfl_ok : Bool) : Except String Nat :=
  if getfl = -1 then .error "fcntl, getting flags"
  else if !setfl_ok then .error "fcntl, setting flags"
  else .ok (getfl.toNat ^^^ O_NONBLOCK)

/-- The pump state when the child is reaped before any byte was pumped and no cap is
configured. -/
def uncapped_start : PumpState :=
  { limit_streamsize := false, streamsize := 0, use_splice := true,
    out := ⟨5, 0, 0, 0⟩, err := ⟨7, 0, 0, 0⟩ }

/-! ## Auxiliary definitions for the statements on options and restrictions -/

/-- The option is `-t` or `--walltime`. -/
def Opt.is_walltime : Opt → Bool
  | .walltime _ => true
  | _ => false

/-- The option is `-C` or `--cputime`. -/
def Opt.is_cputime : Opt → Bool
  | .cputime _ => true
  | _ => false

/-- The last of the `-t` and `-C` options of a command line, if there is one. -/
def last_time_option (opts : List Opt) : Option Opt :=
  (opts.filter (fun opt => opt.is_walltime || opt.is_cputime)).getLast?

/-- The name that a `KEY=VALUE` string assigns to. -/
def token_name (token : List Char) : List Char := token.takeWhile (fun c => c != '=')

/-- The value that a `KEY=VALUE` string assigns. -/
def token_value (token : List Char) : List Char := (token.dropWhile (fun c => c != '=')).tail

/-- The value that a list of `KEY=VALUE` strings, read in order, assigns to `name`: that
of the last string with this name. -/
def assigned (name : List Char) : List (List Char) → Option (List Char)
  | [] => none
  | token :: rest =>
    match assigned name rest with
    | some v => some v
    | none => if token_name token = name then some (token_value token) else none

/-- All tokens of all `-V` strings, in the order in which `setrestrictions` reads them. -/
def variable_tokens (environment_variables : List String) : List (List Char) :=
  (environment_variables.map (fun tokens => strtok tokens.data ';')).flatten

/-- A `strtod` for plain digit strings, as an instance of the input `Sys.strtod`: it
reads the decimal digits at the head of the string. -/
def strtod_digits (s : List Char) : StrtodResult :=
  if (s.head?.map isdigit) = some true
  then ⟨.fin (read_digits s 0).1, (read_digits s 0).2, false⟩
  else ⟨.fin 0, s, false⟩

/-- A platform with the user `alice` (uid 1000, primary group `users` with gid 100) and a
second group named `alice` with gid 1001; four cores are configured. -/
def sample_sys : Sys :=
  { strtod := strtod_digits,
    passwd := [⟨"alice", 1000, 100⟩],
    group := [⟨"users", 100⟩, ⟨"alice", 1001⟩],
    fnmatch := fun pattern string => if pattern = string then 0 else FNM_NOMATCH,
    nprocs_conf := 4,
    VALID_USERS := "alice,bob" }

/-- The Linux rules for an unprivileged or privileged `setuid` and `setgid`, without
saved ids: a process with effective uid 0 may set any id, another one only its real
id. -/
def linux_kernel : Kernel :=
  { setgid := fun c gid =>
      if c.euid = 0 then some { c with rgid := gid.toNat, egid := gid.toNat }
      else if gid = c.rgid then some { c with egid := c.rgid } else none,
    setgroups := fun c => if c.euid = 0 then some c else none,
    setuid := fun c uid =>
      if c.euid = 0 then some { c with ruid := uid.toNat, euid := uid.toNat }
      else if uid = c.ruid then some { c with euid := c.ruid } else none }

/-- The globals after the option loop on `-C 5 -t 2:3` with `sample_sys`. -/
def sample_options : Options :=
  { Options.start with
    use_walltime := true, use_cputime := true, outputtimetype := WALL_TIME_TYPE,
    walltimelimit := (2, 3), cputimelimit := (5, 5) }

/-- The option is `-u` or `--user`. -/
def Opt.is_user : Opt → Bool
  | .user _ => true
  | _ => false

/-- The option is `-g` or `--group`. -/
def Opt.is_group : Opt → Bool
  | .group _ => true
  | _ => false

/-- The primary group of the user with the id `uid`: the `pw_gid` of the first entry of
the user database with this uid, as `getpwuid` gives it. -/
def primary_gid (sys : Sys) (uid : Int) : Option Int :=
  (sys.passwd.find? (fun p => to_int p.pw_uid = uid)).map (fun p => to_int p.pw_gid)

/-- The globals after the option loop on `-u alice` with `sample_sys`. -/
def sample_user_options : Options :=
  { Options.start with use_user := true, runuser := some "alice", runuid := 1000 }

/-- The globals after the option loop on `-u alice -g users` with `sample_sys`. -/
def sample_run_options : Options :=
  { sample_user_options with use_group := true, rungroup := some "users", rungid := 100 }

/-- The child of a supervisor that root started, right after the fork. -/
def root_child : Child := { environ := [], cred := ⟨0, 0, 0, 0⟩ }

/-- The globals of `sample_run_options` with the two further options `-V "A=1;B=2"` and
`-V "A=3"`. -/
def sample_env_options : Options :=
  { sample_run_options with environment_variables := ["A=1;B=2", "A=3"] }

/-- The globals of `sample_run_options` with the further option `-V PATH`, a string
without `=`. -/
def sample_unset_options : Options :=
  { sample_run_options with environment_variables := ["PATH"] }

/-- A child of a supervisor that root started, with `PATH` and `HOME` in its
environment. -/
def sample_child : Child :=
  { environ := [("PATH".data, "/bin".data), ("HOME".data, "/root".data)],
    cred := ⟨0, 0, 0, 0⟩ }

/-- The key of the metadata line that a step writes, if it writes one. -/
def Step.key : Step → Option String
  | .write_meta key => some key
  | _ => none

/-- The process state of the parent at the end of a run with `-M`: nothing written yet,
the child has the pid 4321. -/
def sample_proc : Proc :=
  { in_error_handling := false, outputmeta := true, metafile := some [],
    metafile_writable := true, stderr := [], child_pid := 4321, kills := [],
    stopped := none }

/-! ## Lemmas on `write_meta` and `output_exit_time` -/

theorem with_lines_nil (g : Globals) : with_lines g [] = g := by
  simp [with_lines]

theorem write_meta_with_lines (g : Globals) (ls : List MetaLine) (k : String) (v : MetaValue)
    (hm : g.outputmeta = true) (hw : g.metafile_writable = true) :
    write_meta (with_lines g ls) k v = .ok (with_lines g (ls ++ [(k, v)])) := by
  simp [write_meta, with_lines, hm, hw]

theorem soft_checks_with_lines (g : Globals) (ls : List MetaLine) (c : ℚ) :
    soft_checks (with_lines g ls) c = with_lines (soft_checks g c) ls := by
  unfold soft_checks with_lines walldiff
  dsimp only
  split_ifs <;> rfl

theorem soft_checks_frame (g : Globals) (c : ℚ) :
    (soft_checks g c).outputmeta = g.outputmeta ∧
    (soft_checks g c).metafile_writable = g.metafile_writable ∧
    (soft_checks g c).outputtimetype = g.outputtimetype ∧
    (soft_checks g c).metafile = g.metafile ∧
    (soft_checks g c).received_signal = g.received_signal := by
  unfold soft_checks
  dsimp only
  split_ifs <;> simp

theorem output_exit_time_with_lines (g : Globals) (ls : List MetaLine) (exitcode : Int)
    (cpudiff : ℚ) (str : String)
    (hm : g.outputmeta = true) (hw : g.metafile_writable = true)
    (ht : g.outputtimetype = WALL_TIME_TYPE ∨ g.outputtimetype = CPU_TIME_TYPE)
    (hs : output_timelimit_str[timelimit_index g cpudiff]? = some str) :
    output_exit_time (with_lines g ls) exitcode cpudiff =
      .ok (with_lines (soft_checks g cpudiff) (ls ++ exit_time_lines g exitcode cpudiff str)) := by
  obtain ⟨f1, f2, f3, -, -⟩ := soft_checks_frame g cpudiff
  have hm2 : (soft_checks g cpudiff).outputmeta = true := by rw [f1]; exact hm
  have hw2 : (soft_checks g cpudiff).metafile_writable = true := by rw [f2]; exact hw
  have p1 : ∀ l, (with_lines g l).received_signal = g.received_signal := fun _ => rfl
  have p2 : ∀ l, walldiff (with_lines g l) = walldiff g := fun _ => rfl
  have p3 : ∀ l, userdiff (with_lines g l) = userdiff g := fun _ => rfl
  have p4 : ∀ l, sysdiff (with_lines g l) = sysdiff g := fun _ => rfl
  have p5 : ∀ l, (with_lines (soft_checks g cpudiff) l).outputtimetype = g.outputtimetype :=
    fun _ => f3
  have p6 : ∀ l, (with_lines (soft_checks g cpudiff) l).walllimit_reached =
    (soft_checks g cpudiff).walllimit_reached := fun _ => rfl
  have p7 : ∀ l, (with_lines (soft_checks g cpudiff) l).cpulimit_reached =
    (soft_checks g cpudiff).cpulimit_reached := fun _ => rfl
  unfold timelimit_index at hs
  dsimp only at hs
  unfold output_exit_time
  simp only [write_meta_with_lines _ _ _ _ hm hw, write_meta_with_lines _ _ _ _ hm2 hw2,
    bind, Except.bind, pure, Except.pure, p1, p2, p3, p4, p5, p6, p7, soft_checks_with_lines]
  have hc : CPU_TIME_TYPE ≠ WALL_TIME_TYPE := by decide
  rcases ht with h | h
  · simp only [h, if_true] at hs ⊢
    rw [hs]
    unfold exit_time_lines
    split_ifs <;> simp [h]
  · simp only [h, hc, if_true, if_false] at hs ⊢
    rw [hs]
    unfold exit_time_lines
    simp only [h, hc, if_false]
    split_ifs <;> simp


theorem soft_checks_wall (g : Globals) (c : ℚ) :
    (soft_checks g c).walllimit_reached =
      if (g.use_walltime && decide (walldiff g > g.walltimelimit0)) = true
      then g.walllimit_reached ||| soft_timelimit else g.walllimit_reached := by
  unfold soft_checks
  dsimp only
  split_ifs <;> simp_all

theorem soft_checks_cpu (g : Globals) (c : ℚ) :
    (soft_checks g c).cpulimit_reached =
      if (g.use_cputime && decide (c > g.cputimelimit0)) = true
      then g.cpulimit_reached ||| soft_timelimit else g.cpulimit_reached := by
  unfold soft_checks
  dsimp only
  split_ifs <;> simp_all

theorem timelimit_index_eq (g : Globals) (c : ℚ) :
    timelimit_index g c = result_index g.walllimit_reached g.cpulimit_reached
      (g.use_walltime && decide (walldiff g > g.walltimelimit0))
      (g.use_cputime && decide (c > g.cputimelimit0))
      (decide (g.outputtimetype = WALL_TIME_TYPE)) := by
  unfold timelimit_index result_index
  dsimp only
  rw [soft_checks_wall, soft_checks_cpu]
  simp only [decide_eq_true_eq]

theorem selected_exceeds_iff (g : Globals) (c : ℚ) :
    selected_exceeds g c ↔
      (if decide (g.outputtimetype = WALL_TIME_TYPE) = true
       then (g.use_walltime && decide (walldiff g > g.walltimelimit0))
       else (g.use_cputime && decide (c > g.cputimelimit0))) = true := by
  unfold selected_exceeds
  split_ifs <;> simp_all

theorem result_index_hard :
    ∀ w c : Fin 4, ∀ a b t : Bool,
      (output_timelimit_str[result_index w c a b t]?).isSome = true ∧
      (output_timelimit_str[result_index w c a b t]? = some "hard-timelimit" ↔
        ((w : Nat) &&& hard_timelimit ≠ 0 ∨ (c : Nat) &&& hard_timelimit ≠ 0)) := by
  decide

theorem result_index_soft :
    ∀ w c : Fin 4, ∀ a b t : Bool,
      (w : Nat) &&& soft_timelimit = 0 → (c : Nat) &&& soft_timelimit = 0 →
      (output_timelimit_str[result_index w c a b t]? = some "soft-timelimit" ↔
        ((w : Nat) &&& hard_timelimit = 0 ∧ (c : Nat) &&& hard_timelimit = 0 ∧
          (if t = true then a else b) = true)) ∧
      ((w : Nat) &&& hard_timelimit = 0 → (c : Nat) &&& hard_timelimit = 0 →
        (if t = true then a else b) = false →
        output_timelimit_str[result_index w c a b t]? = some "") := by
  decide

theorem written_with_lines (key : String) (g g1 : Globals) (ls : List MetaLine)
    (h : g1.metafile = g.metafile) :
    written key g (with_lines g1 ls) = (ls.filter (fun l => l.1 == key)).map (·.2) := by
  simp [written, with_lines, h]

theorem output_exit_time_ok (g : Globals) (exitcode : Int) (cpudiff : ℚ) (str : String)
    (hm : g.outputmeta = true) (hw : g.metafile_writable = true)
    (ht : g.outputtimetype = WALL_TIME_TYPE ∨ g.outputtimetype = CPU_TIME_TYPE)
    (hs : output_timelimit_str[timelimit_index g cpudiff]? = some str) :
    output_exit_time g exitcode cpudiff =
      .ok (with_lines (soft_checks g cpudiff) (exit_time_lines g exitcode cpudiff str)) := by
  have h := output_exit_time_with_lines g [] exitcode cpudiff str hm hw ht hs
  rwa [with_lines_nil, List.nil_append] at h

theorem written_time_result (g g1 : Globals) (exitcode : Int) (cpudiff : ℚ) (str : String)
    (h : g1.metafile = g.metafile) :
    written "time-result" g (with_lines g1 (exit_time_lines g exitcode cpudiff str)) =
      [.s str] := by
  rw [written_with_lines _ _ _ _ h]
  unfold exit_time_lines
  split_ifs <;> simp

/-! ## Claims on the time-limit result -/

/-- Claim C1: for limit masks in 0..3, either time type and any measured times,
`output_exit_time` writes exactly one `time-result` line, and its value is
`hard-timelimit` if and only if the hard bit (2) is set in `walllimit_reached` or in
`cpulimit_reached` on entry, whichever clock is reported as `time-used`. -/
theorem hard_limit_precedence (g : Globals) (exitcode : Int) (cpudiff : ℚ)
    (hm : g.outputmeta = true) (hw : g.metafile_writable = true)
    (ht : g.outputtimetype = WALL_TIME_TYPE ∨ g.outputtimetype = CPU_TIME_TYPE)
    (hwr : g.walllimit_reached < 4) (hcr : g.cpulimit_reached < 4) :
    ∃ g1 r, output_exit_time g exitcode cpudiff = .ok g1 ∧
      written "time-result" g g1 = [.s r] ∧
      (r = "hard-timelimit" ↔
        (g.walllimit_reached &&& hard_timelimit ≠ 0 ∨
         g.cpulimit_reached &&& hard_timelimit ≠ 0)) := by
  obtain ⟨-, -, -, f4, -⟩ := soft_checks_frame g cpudiff
  obtain ⟨h1, h2⟩ := result_index_hard ⟨g.walllimit_reached, hwr⟩ ⟨g.cpulimit_reached, hcr⟩
    (g.use_walltime && decide (walldiff g > g.walltimelimit0))
    (g.use_cputime && decide (cpudiff > g.cputimelimit0))
    (decide (g.outputtimetype = WALL_TIME_TYPE))
  rw [← timelimit_index_eq] at h1 h2
  obtain ⟨r, hr⟩ := Option.isSome_iff_exists.mp h1
  refine ⟨_, r, output_exit_time_ok g exitcode cpudiff r hm hw ht hr,
    written_time_result g _ exitcode cpudiff r f4, ?_⟩
  rw [← h2, hr]
  simp

/-- Claim C5: with the soft bits clear on entry, `output_exit_time` writes
`time-result = soft-timelimit` if and only if no hard bit is set in either mask and the
clock selected by `outputtimetype` is in use with a measured time strictly greater than
its soft limit; when no hard bit is set and the selected clock does not exceed its soft
limit (its time equals the limit, or only the other clock exceeds its own), the value
written is the empty string. -/
theorem soft_limit_result (g : Globals) (exitcode : Int) (cpudiff : ℚ)
    (hm : g.outputmeta = true) (hw : g.metafile_writable = true)
    (ht : g.outputtimetype = WALL_TIME_TYPE ∨ g.outputtimetype = CPU_TIME_TYPE)
    (hwr : g.walllimit_reached < 4) (hcr : g.cpulimit_reached < 4)
    (hws : g.walllimit_reached &&& soft_timelimit = 0)
    (hcs : g.cpulimit_reached &&& soft_timelimit = 0) :
    ∃ g1 r, output_exit_time g exitcode cpudiff = .ok g1 ∧
      written "time-result" g g1 = [.s r] ∧
      (r = "soft-timelimit" ↔
        (g.walllimit_reached &&& hard_timelimit = 0 ∧
         g.cpulimit_reached &&& hard_timelimit = 0 ∧ selected_exceeds g cpudiff)) ∧
      (g.walllimit_reached &&& hard_timelimit = 0 →
       g.cpulimit_reached &&& hard_timelimit = 0 →
       ¬ selected_exceeds g cpudiff → r = "") := by
  obtain ⟨-, -, -, f4, -⟩ := soft_checks_frame g cpudiff
  obtain ⟨h1, -⟩ := result_index_hard ⟨g.walllimit_reached, hwr⟩ ⟨g.cpulimit_reached, hcr⟩
    (g.use_walltime && decide (walldiff g > g.walltimelimit0))
    (g.use_cputime && decide (cpudiff > g.cputimelimit0))
    (decide (g.outputtimetype = WALL_TIME_TYPE))
  obtain ⟨h2, h3⟩ := result_index_soft ⟨g.walllimit_reached, hwr⟩ ⟨g.cpulimit_reached, hcr⟩
    (g.use_walltime && decide (walldiff g > g.walltimelimit0))
    (g.use_cputime && decide (cpudiff > g.cputimelimit0))
    (decide (g.outputtimetype = WALL_TIME_TYPE)) hws hcs
  rw [← timelimit_index_eq] at h1 h2 h3
  rw [← selected_exceeds_iff] at h2
  obtain ⟨r, hr⟩ := Option.isSome_iff_exists.mp h1
  refine ⟨_, r, output_exit_time_ok g exitcode cpudiff r hm hw ht hr,
    written_time_result g _ exitcode cpudiff r f4, ?_, ?_⟩
  · rw [← h2, hr]
    simp
  · intro a b hn
    have hf : (if decide (g.outputtimetype = WALL_TIME_TYPE) = true
       then (g.use_walltime && decide (walldiff g > g.walltimelimit0))
       else (g.use_cputime && decide (cpudiff > g.cputimelimit0))) = false :=
      Bool.eq_false_iff.mpr (fun h => hn ((selected_exceeds_iff g cpudiff).mpr h))
    have := h3 a b hf
    rw [hr] at this
    simpa using this


theorem WIFSIGNALED_iff (status : Int) :
    WIFSIGNALED status = true ↔ 1 ≤ status % 128 ∧ status % 128 ≤ 126 := by
  unfold WIFSIGNALED toSignedChar
  simp only [decide_eq_true_eq]
  split_ifs <;> omega

theorem WIFSTOPPED_iff (status : Int) :
    WIFSTOPPED status = true ↔ status % 256 = 127 := by
  unfold WIFSTOPPED
  simp

theorem WIFEXITED_iff (status : Int) :
    WIFEXITED status = true ↔ status % 128 = 0 := by
  unfold WIFEXITED WTERMSIG
  simp

theorem wait_classes_exclusive (status : Int) :
    ¬ (WIFEXITED status = true ∧ WIFSIGNALED status = true) ∧
    ¬ (WIFEXITED status = true ∧ WIFSTOPPED status = true) ∧
    ¬ (WIFSIGNALED status = true ∧ WIFSTOPPED status = true) := by
  rw [WIFEXITED_iff, WIFSIGNALED_iff, WIFSTOPPED_iff]
  omega

theorem main_exitcode_exited (g : Globals) (status : Int) (h : WIFEXITED status = true) :
    main_exitcode g status = .ok (g, WEXITSTATUS status) := by
  simp [main_exitcode, h]

theorem main_exitcode_signaled (g : Globals) (status : Int) (h : WIFSIGNALED status = true) :
    main_exitcode g status =
      .ok (if WTERMSIG status = SIGXCPU
           then { g with cpulimit_reached := g.cpulimit_reached ||| hard_timelimit } else g,
           128 + WTERMSIG status) := by
  have hne : WIFEXITED status = false := by
    have := (wait_classes_exclusive status).1
    cases hx : WIFEXITED status
    · rfl
    · exact absurd ⟨hx, h⟩ this
  simp [main_exitcode, h, hne]

theorem main_exitcode_stopped (g : Globals) (status : Int) (h : WIFSTOPPED status = true) :
    main_exitcode g status = .ok (g, 128 + WSTOPSIG status) := by
  obtain ⟨-, h2, h3⟩ := wait_classes_exclusive status
  have hne : WIFEXITED status = false := by
    cases hx : WIFEXITED status
    · rfl
    · exact absurd ⟨hx, h⟩ h2
  have hns : WIFSIGNALED status = false := by
    cases hx : WIFSIGNALED status
    · rfl
    · exact absurd ⟨hx, h⟩ h3
  simp [main_exitcode, h, hne, hns]

theorem main_exitcode_unknown (g : Globals) (status : Int) (h1 : WIFEXITED status = false)
    (h2 : WIFSIGNALED status = false) (h3 : WIFSTOPPED status = false) :
    main_exitcode g status = .error "command exit status unknown" := by
  simp [main_exitcode, h1, h2, h3]


theorem main_finish_ok (g0 g : Globals) (s : PumpState) (status exitcode max_usage : Int)
    (cputime : ℚ) (str : String)
    (hx : main_exitcode g0 status = .ok (g, exitcode))
    (hm : g.outputmeta = true) (hw : g.metafile_writable = true)
    (ht : g.outputtimetype = WALL_TIME_TYPE ∨ g.outputtimetype = CPU_TIME_TYPE)
    (hs : output_timelimit_str[timelimit_index g cputime]? = some str) :
    main_finish g0 s status max_usage cputime =
      .ok (with_lines (soft_checks g cputime)
        (finish_lines g s exitcode max_usage cputime str), exitcode) := by
  obtain ⟨f1, f2, -, -, -⟩ := soft_checks_frame g cputime
  have hm2 : (soft_checks g cputime).outputmeta = true := by rw [f1]; exact hm
  have hw2 : (soft_checks g cputime).metafile_writable = true := by rw [f2]; exact hw
  have e1 : write_meta g "memory-bytes" (.d max_usage) =
      .ok (with_lines g [("memory-bytes", .d max_usage)]) := by
    have := write_meta_with_lines g [] "memory-bytes" (.d max_usage) hm hw
    rwa [with_lines_nil, List.nil_append] at this
  unfold main_finish
  simp only [hx, e1, output_exit_time_with_lines g _ exitcode cputime str hm hw ht hs,
    write_meta_with_lines _ _ _ _ hm2 hw2, bind, Except.bind, pure, Except.pure]
  unfold finish_lines
  split_ifs <;>
    simp only [write_meta_with_lines _ _ _ _ hm2 hw2, List.append_assoc, List.append_nil,
      List.singleton_append, List.cons_append, List.nil_append]


theorem written_exit_time_signal (g g1 : Globals) (exitcode : Int) (cpudiff : ℚ)
    (str : String) (h : g1.metafile = g.metafile) :
    written "signal" g (with_lines g1 (exit_time_lines g exitcode cpudiff str)) =
      if g.received_signal ≠ -1 then [.d g.received_signal] else [] := by
  rw [written_with_lines _ _ _ _ h]
  unfold exit_time_lines
  split_ifs <;> simp

theorem written_finish (g0 g1 g : Globals) (s : PumpState) (exitcode max_usage : Int)
    (cputime : ℚ) (str : String) (h : g1.metafile = g0.metafile) :
    written "exitcode" g0 (with_lines g1 (finish_lines g s exitcode max_usage cputime str)) =
      [.d exitcode] ∧
    written "time-used" g0 (with_lines g1 (finish_lines g s exitcode max_usage cputime str)) =
      [.s (if g.outputtimetype = WALL_TIME_TYPE then "wall-time" else "cpu-time")] ∧
    written "time-result" g0
      (with_lines g1 (finish_lines g s exitcode max_usage cputime str)) = [.s str] ∧
    written "stdout-bytes" g0
      (with_lines g1 (finish_lines g s exitcode max_usage cputime str)) =
      [.zu s.out.data_read] ∧
    written "output-truncated" g0
      (with_lines g1 (finish_lines g s exitcode max_usage cputime str)) =
      if s.limit_streamsize = true then [.s (output_truncated s)] else [] := by
  simp only [written_with_lines _ _ _ _ h]
  unfold finish_lines exit_time_lines
  refine ⟨?_, ?_, ?_, ?_, ?_⟩ <;> split_ifs <;> simp


theorem timelimit_str_exists (g : Globals) (cpudiff : ℚ)
    (hwr : g.walllimit_reached < 4) (hcr : g.cpulimit_reached < 4) :
    ∃ str, output_timelimit_str[timelimit_index g cpudiff]? = some str := by
  obtain ⟨h1, -⟩ := result_index_hard ⟨g.walllimit_reached, hwr⟩ ⟨g.cpulimit_reached, hcr⟩
    (g.use_walltime && decide (walldiff g > g.walltimelimit0))
    (g.use_cputime && decide (cpudiff > g.cputimelimit0))
    (decide (g.outputtimetype = WALL_TIME_TYPE))
  rw [← timelimit_index_eq] at h1
  exact Option.isSome_iff_exists.mp h1

theorem lor_hard_lt (c : Nat) (h : c < 4) : c ||| hard_timelimit < 4 := by
  unfold hard_timelimit
  interval_cases c <;> decide

theorem main_finish_exitcode_line (g0 g : Globals) (s : PumpState)
    (status exitcode max_usage : Int) (cputime : ℚ)
    (hx : main_exitcode g0 status = .ok (g, exitcode))
    (hmf : g.metafile = g0.metafile)
    (hm : g.outputmeta = true) (hw : g.metafile_writable = true)
    (ht : g.outputtimetype = WALL_TIME_TYPE ∨ g.outputtimetype = CPU_TIME_TYPE)
    (hwr : g.walllimit_reached < 4) (hcr : g.cpulimit_reached < 4) :
    ∃ g1, main_finish g0 s status max_usage cputime = .ok (g1, exitcode) ∧
      written "exitcode" g0 g1 = [.d exitcode] := by
  obtain ⟨str, hs⟩ := timelimit_str_exists g cputime hwr hcr
  obtain ⟨-, -, -, f4, -⟩ := soft_checks_frame g cputime
  exact ⟨_, main_finish_ok g0 g s status exitcode max_usage cputime str hx hm hw ht hs,
    (written_finish g0 _ g s exitcode max_usage cputime str (f4.trans hmf)).1⟩

/-! ## Claims on the exit code and the signal handler -/

/-- Claim C2: for every wait status the three classes exited / signaled / stopped are
mutually exclusive; the end of `main` returns `WEXITSTATUS(status)` for a normal exit,
`128 + WTERMSIG(status)` for a child killed by a signal and `128 + WSTOPSIG(status)` for
a stopped child, and in each case writes that same integer as the one `exitcode` line of
the metadata; a status in none of the classes ends in `error()`. -/
theorem exit_code_of_status (g : Globals) (s : PumpState) (status max_usage : Int)
    (cputime : ℚ)
    (hm : g.outputmeta = true) (hw : g.metafile_writable = true)
    (ht : g.outputtimetype = WALL_TIME_TYPE ∨ g.outputtimetype = CPU_TIME_TYPE)
    (hwr : g.walllimit_reached < 4) (hcr : g.cpulimit_reached < 4) :
    (¬ (WIFEXITED status = true ∧ WIFSIGNALED status = true) ∧
     ¬ (WIFEXITED status = true ∧ WIFSTOPPED status = true) ∧
     ¬ (WIFSIGNALED status = true ∧ WIFSTOPPED status = true)) ∧
    (WIFEXITED status = true →
      ∃ g1, main_finish g s status max_usage cputime = .ok (g1, WEXITSTATUS status) ∧
        written "exitcode" g g1 = [.d (WEXITSTATUS status)]) ∧
    (WIFSIGNALED status = true →
      ∃ g1, main_finish g s status max_usage cputime = .ok (g1, 128 + WTERMSIG status) ∧
        written "exitcode" g g1 = [.d (128 + WTERMSIG status)]) ∧
    (WIFSTOPPED status = true →
      ∃ g1, main_finish g s status max_usage cputime = .ok (g1, 128 + WSTOPSIG status) ∧
        written "exitcode" g g1 = [.d (128 + WSTOPSIG status)]) ∧
    (WIFEXITED status = false → WIFSIGNALED status = false → WIFSTOPPED status = false →
      ∃ e, main_finish g s status max_usage cputime = .error e) := by
  refine ⟨wait_classes_exclusive status, ?_, ?_, ?_, ?_⟩
  · intro h
    exact main_finish_exitcode_line g g s status _ max_usage cputime
      (main_exitcode_exited g status h) rfl hm hw ht hwr hcr
  · intro h
    have hx := main_exitcode_signaled g status h
    by_cases hc : WTERMSIG status = SIGXCPU
    · rw [if_pos hc] at hx
      exact main_finish_exitcode_line g _ s status _ max_usage cputime hx rfl hm hw ht hwr
        (lor_hard_lt _ hcr)
    · rw [if_neg hc] at hx
      exact main_finish_exitcode_line g g s status _ max_usage cputime hx rfl hm hw ht hwr hcr
  · intro h
    exact main_finish_exitcode_line g g s status _ max_usage cputime
      (main_exitcode_stopped g status h) rfl hm hw ht hwr hcr
  · intro h1 h2 h3
    refine ⟨"command exit status unknown", ?_⟩
    simp [main_finish, main_exitcode_unknown g status h1 h2 h3, bind, Except.bind]

/-- Witness for C2: a run with `-C 1` whose child was killed by signal 9. -/
theorem exit_code_of_status_witness :
    (cpu_only_run.outputmeta = true ∧ cpu_only_run.walllimit_reached < 4 ∧
      WIFSIGNALED 9 = true) ∧
    ∃ g1, main_finish cpu_only_run capped_start 9 0 2 = .ok (g1, 128 + WTERMSIG 9) ∧
      written "exitcode" cpu_only_run g1 = [.d (128 + WTERMSIG 9)] :=
  ⟨⟨rfl, by decide, by decide⟩,
   (exit_code_of_status cpu_only_run capped_start 9 0 2 rfl rfl (Or.inr rfl)
      (by decide) (by decide)).2.2.1 (by decide)⟩


theorem main_finish_lines (g0 g : Globals) (s : PumpState)
    (status exitcode max_usage : Int) (cputime : ℚ) (str : String)
    (hx : main_exitcode g0 status = .ok (g, exitcode))
    (hmf : g.metafile = g0.metafile)
    (hm : g.outputmeta = true) (hw : g.metafile_writable = true)
    (ht : g.outputtimetype = WALL_TIME_TYPE ∨ g.outputtimetype = CPU_TIME_TYPE)
    (hs : output_timelimit_str[timelimit_index g cputime]? = some str) :
    ∃ g1, main_finish g0 s status max_usage cputime = .ok (g1, exitcode) ∧
      written "exitcode" g0 g1 = [.d exitcode] ∧
      written "time-used" g0 g1 =
        [.s (if g.outputtimetype = WALL_TIME_TYPE then "wall-time" else "cpu-time")] ∧
      written "time-result" g0 g1 = [.s str] := by
  obtain ⟨-, -, -, f4, -⟩ := soft_checks_frame g cputime
  obtain ⟨w1, w2, w3, -, -⟩ :=
    written_finish g0 (soft_checks g cputime) g s exitcode max_usage cputime str (f4.trans hmf)
  exact ⟨_, main_finish_ok g0 g s status exitcode max_usage cputime str hx hm hw ht hs,
    w1, w2, w3⟩

/-- A run with only a CPU-time limit whose child dies from SIGXCPU is reported as
`hard-timelimit`. -/
theorem cpu_only_xcpu (g : Globals) (s : PumpState) (status max_usage : Int) (cputime : ℚ)
    (hm : g.outputmeta = true) (hw : g.metafile_writable = true)
    (ht : g.outputtimetype = CPU_TIME_TYPE)
    (hw0 : g.walllimit_reached = 0) (hc0 : g.cpulimit_reached = 0)
    (hsig : WIFSIGNALED status = true) (hx : WTERMSIG status = SIGXCPU) :
    ∃ g1, main_finish g s status max_usage cputime = .ok (g1, 128 + SIGXCPU) ∧
      written "exitcode" g g1 = [.d (128 + SIGXCPU)] ∧
      written "time-used" g g1 = [.s "cpu-time"] ∧
      written "time-result" g g1 = [.s "hard-timelimit"] := by
  have hcode := main_exitcode_signaled g status hsig
  rw [if_pos hx, hx] at hcode
  have hs : output_timelimit_str[timelimit_index
      { g with cpulimit_reached := g.cpulimit_reached ||| hard_timelimit } cputime]? =
      some "hard-timelimit" := by
    rw [timelimit_index_eq]
    simp only [hw0, hc0]
    have := (result_index_hard 0 2
      (g.use_walltime && decide (walldiff g > g.walltimelimit0))
      (g.use_cputime && decide (cputime > g.cputimelimit0))
      (decide (g.outputtimetype = WALL_TIME_TYPE))).2
    exact this.mpr (Or.inr (by decide))
  have hc : CPU_TIME_TYPE ≠ WALL_TIME_TYPE := by decide
  have := main_finish_lines g _ s status _ max_usage cputime _ hcode rfl hm hw (Or.inr ht) hs
  simpa only [ht, hc, if_false] using this

/-- A run with only a CPU-time limit whose child dies from a signal other than SIGXCPU
is reported by the soft check alone. -/
theorem cpu_only_other_signal (g : Globals) (s : PumpState) (status max_usage : Int)
    (cputime : ℚ)
    (hm : g.outputmeta = true) (hw : g.metafile_writable = true)
    (hnw : g.use_walltime = false) (hc : g.use_cputime = true)
    (ht : g.outputtimetype = CPU_TIME_TYPE)
    (hw0 : g.walllimit_reached = 0) (hc0 : g.cpulimit_reached = 0)
    (hsig : WIFSIGNALED status = true) (hx : WTERMSIG status ≠ SIGXCPU) :
    ∃ g1, main_finish g s status max_usage cputime = .ok (g1, 128 + WTERMSIG status) ∧
      written "exitcode" g g1 = [.d (128 + WTERMSIG status)] ∧
      written "time-used" g g1 = [.s "cpu-time"] ∧
      written "time-result" g g1 =
        [.s (if cputime > g.cputimelimit0 then "soft-timelimit" else "")] := by
  have hcode := main_exitcode_signaled g status hsig
  rw [if_neg hx] at hcode
  have hcne : CPU_TIME_TYPE ≠ WALL_TIME_TYPE := by decide
  have hs : output_timelimit_str[timelimit_index g cputime]? =
      some (if cputime > g.cputimelimit0 then "soft-timelimit" else "") := by
    rw [timelimit_index_eq]
    simp only [hw0, hc0, hnw, hc, ht, hcne, Bool.false_and, Bool.true_and, decide_False]
    by_cases h : cputime > g.cputimelimit0
    · simp only [h, decide_True, if_true]
      decide
    · simp only [h, decide_False, if_false]
      decide
  have := main_finish_lines g g s status _ max_usage cputime _ hcode rfl hm hw (Or.inr ht) hs
  simpa only [ht, hcne, if_false] using this

/-- Claim C3 as amended: in a run with only a CPU-time limit (soft = hard = 1 second) and
no hard bit set before the reap, a child terminated by SIGXCPU is reported with
`exitcode = 128+SIGXCPU`, `time-used = cpu-time` and `time-result = hard-timelimit`; a
child terminated by SIGKILL is reported with `exitcode = 128+SIGKILL`,
`time-used = cpu-time` and `time-result = soft-timelimit` when the measured cpu time is
greater than 1 second, and an empty `time-result` otherwise. -/
theorem cpu_limit_signal_report (g : Globals) (s : PumpState) (status max_usage : Int)
    (cputime : ℚ)
    (hm : g.outputmeta = true) (hw : g.metafile_writable = true)
    (hnw : g.use_walltime = false) (hc : g.use_cputime = true)
    (ht : g.outputtimetype = CPU_TIME_TYPE)
    (hsoft : g.cputimelimit0 = 1) (_hhard : g.cputimelimit1 = 1)
    (hw0 : g.walllimit_reached = 0) (hc0 : g.cpulimit_reached = 0)
    (hsig : WIFSIGNALED status = true) :
    (WTERMSIG status = SIGXCPU →
      ∃ g1, main_finish g s status max_usage cputime = .ok (g1, 128 + SIGXCPU) ∧
        written "exitcode" g g1 = [.d (128 + SIGXCPU)] ∧
        written "time-used" g g1 = [.s "cpu-time"] ∧
        written "time-result" g g1 = [.s "hard-timelimit"]) ∧
    (WTERMSIG status = SIGKILL →
      ∃ g1, main_finish g s status max_usage cputime = .ok (g1, 128 + SIGKILL) ∧
        written "exitcode" g g1 = [.d (128 + SIGKILL)] ∧
        written "time-used" g g1 = [.s "cpu-time"] ∧
        written "time-result" g g1 =
          [.s (if cputime > 1 then "soft-timelimit" else "")]) := by
  constructor
  · intro hx
    exact cpu_only_xcpu g s status max_usage cputime hm hw ht hw0 hc0 hsig hx
  · intro hk
    have hne : WTERMSIG status ≠ SIGXCPU := by rw [hk]; decide
    have := cpu_only_other_signal g s status max_usage cputime hm hw hnw hc ht hw0 hc0 hsig hne
    rw [hk, hsoft] at this
    exact this

/-- Witness for C3: the run `cpu_only_run` with a child killed by SIGXCPU (status 24). -/
theorem cpu_limit_signal_report_witness :
    (cpu_only_run.use_walltime = false ∧ cpu_only_run.use_cputime = true ∧
      cpu_only_run.cputimelimit0 = 1 ∧ WIFSIGNALED 24 = true ∧ WTERMSIG 24 = SIGXCPU) ∧
    ∃ g1, main_finish cpu_only_run capped_start 24 0 (101 / 100) = .ok (g1, 128 + SIGXCPU) ∧
      written "exitcode" cpu_only_run g1 = [.d (128 + SIGXCPU)] ∧
      written "time-used" cpu_only_run g1 = [.s "cpu-time"] ∧
      written "time-result" cpu_only_run g1 = [.s "hard-timelimit"] :=
  ⟨⟨rfl, rfl, rfl, by decide, by decide⟩,
   (cpu_limit_signal_report cpu_only_run capped_start 24 0 (101 / 100) rfl rfl rfl rfl rfl
      rfl rfl rfl rfl (by decide)).1 (by decide)⟩

/-- Counterexample to C3 as stated: with only `-C 1`, a child that is killed by SIGKILL
(status 9) after 1.5 seconds of cpu time is reported with `time-result = soft-timelimit`,
not `hard-timelimit`. -/
theorem cpu_limit_sigkill_counterexample :
    WIFSIGNALED 9 = true ∧ WTERMSIG 9 = SIGKILL ∧ (1 : ℚ) ≤ 3 / 2 ∧
    cpu_only_run.use_cputime = true ∧ cpu_only_run.use_walltime = false ∧
    cpu_only_run.cputimelimit0 = 1 ∧ cpu_only_run.cputimelimit1 = 1 ∧
    ∃ g1, main_finish cpu_only_run capped_start 9 0 (3 / 2) = .ok (g1, 128 + SIGKILL) ∧
      written "exitcode" cpu_only_run g1 = [.d (128 + SIGKILL)] ∧
      written "time-result" cpu_only_run g1 = [.s "soft-timelimit"] ∧
      written "time-result" cpu_only_run g1 ≠ [.s "hard-timelimit"] := by
  refine ⟨by decide, by decide, by norm_num, rfl, rfl, rfl, rfl, ?_⟩
  obtain ⟨g1, h1, h2, -, h4⟩ := cpu_only_other_signal cpu_only_run capped_start 9 0 (3 / 2)
    rfl rfl rfl rfl rfl rfl rfl (by decide) (by decide)
  have h5 : written "time-result" cpu_only_run g1 = [.s "soft-timelimit"] := by
    rw [h4]
    have : (3 / 2 : ℚ) > cpu_only_run.cputimelimit0 := by
      show (3 / 2 : ℚ) > 1
      norm_num
    rw [if_pos this]
  refine ⟨g1, h1, h2, h5, ?_⟩
  rw [h5]
  decide


theorem terminate_alarm_fields (g : Globals) (k1 k2 : KillResult) :
    (terminate g SIGALRM k1 k2).walllimit_reached = g.walllimit_reached ||| hard_timelimit ∧
    (terminate g SIGALRM k1 k2).received_signal = SIGALRM := by
  unfold terminate
  simp only [if_true]
  split_ifs <;> exact ⟨rfl, rfl⟩

theorem terminate_term_fields (g : Globals) (k1 k2 : KillResult) :
    (terminate g SIGTERM k1 k2).walllimit_reached = g.walllimit_reached ∧
    (terminate g SIGTERM k1 k2).received_signal = SIGTERM := by
  have h : SIGTERM ≠ SIGALRM := by decide
  unfold terminate
  simp only [if_neg h]
  split_ifs <;> exact ⟨rfl, rfl⟩

theorem lor_hard_bit (w : Nat) (h : w < 4) : (w ||| hard_timelimit) &&& hard_timelimit ≠ 0 := by
  unfold hard_timelimit
  interval_cases w <;> decide

/-- Claim C4: `terminate(SIGALRM)` sets the hard bit of `walllimit_reached` and records
`received_signal = SIGALRM`, whatever the two `kill` calls return; every later call of
`output_exit_time` in a state with these two values (either time type, any cpu mask in
0..3) writes a `signal` line with the number of SIGALRM and `time-result =
hard-timelimit`; `terminate(SIGTERM)` records `received_signal = SIGTERM` and leaves
`walllimit_reached` as it was. -/
theorem terminate_alarm_report (g : Globals) (k1 k2 : KillResult)
    (hwr : g.walllimit_reached < 4) :
    ((terminate g SIGALRM k1 k2).walllimit_reached &&& hard_timelimit ≠ 0 ∧
     (terminate g SIGALRM k1 k2).received_signal = SIGALRM) ∧
    (∀ (g2 : Globals) (exitcode : Int) (cpudiff : ℚ),
      g2.walllimit_reached = (terminate g SIGALRM k1 k2).walllimit_reached →
      g2.received_signal = (terminate g SIGALRM k1 k2).received_signal →
      g2.outputmeta = true → g2.metafile_writable = true →
      (g2.outputtimetype = WALL_TIME_TYPE ∨ g2.outputtimetype = CPU_TIME_TYPE) →
      g2.cpulimit_reached < 4 →
      ∃ g3, output_exit_time g2 exitcode cpudiff = .ok g3 ∧
        written "signal" g2 g3 = [.d SIGALRM] ∧
        written "time-result" g2 g3 = [.s "hard-timelimit"]) ∧
    ((terminate g SIGTERM k1 k2).received_signal = SIGTERM ∧
     (terminate g SIGTERM k1 k2).walllimit_reached = g.walllimit_reached) := by
  obtain ⟨a1, a2⟩ := terminate_alarm_fields g k1 k2
  obtain ⟨t1, t2⟩ := terminate_term_fields g k1 k2
  refine ⟨⟨?_, a2⟩, ?_, ⟨t2, t1⟩⟩
  · rw [a1]
    exact lor_hard_bit _ hwr
  · intro g2 exitcode cpudiff e1 e2 hm hw ht hcr
    rw [a1] at e1
    rw [a2] at e2
    have hwr2 : g2.walllimit_reached < 4 := by rw [e1]; exact lor_hard_lt _ hwr
    have hbit : g2.walllimit_reached &&& hard_timelimit ≠ 0 := by
      rw [e1]; exact lor_hard_bit _ hwr
    obtain ⟨-, -, -, f4, -⟩ := soft_checks_frame g2 cpudiff
    have hs : output_timelimit_str[timelimit_index g2 cpudiff]? = some "hard-timelimit" := by
      rw [timelimit_index_eq]
      exact (result_index_hard ⟨g2.walllimit_reached, hwr2⟩ ⟨g2.cpulimit_reached, hcr⟩
        _ _ _).2.mpr (Or.inl hbit)
    refine ⟨_, output_exit_time_ok g2 exitcode cpudiff _ hm hw ht hs, ?_,
      written_time_result g2 _ exitcode cpudiff _ f4⟩
    rw [written_exit_time_signal g2 _ exitcode cpudiff _ f4, e2]
    have : SIGALRM ≠ -1 := by decide
    rw [if_pos this]

/-- Witness for C4: the alarm fires in the run `wall_only_run`. -/
theorem terminate_alarm_report_witness :
    wall_only_run.walllimit_reached < 4 ∧
    (terminate wall_only_run SIGALRM .ok .esrch).walllimit_reached &&& hard_timelimit ≠ 0 ∧
    (terminate wall_only_run SIGALRM .ok .esrch).received_signal = SIGALRM :=
  ⟨by decide, (terminate_alarm_report wall_only_run .ok .esrch (by decide)).1⟩

/-- Witness for C1: the run `cpu_only_run` with exit code 0 after 0.5 seconds of cpu. -/
theorem hard_limit_precedence_witness :
    (cpu_only_run.outputmeta = true ∧ cpu_only_run.metafile_writable = true ∧
      cpu_only_run.outputtimetype = CPU_TIME_TYPE ∧
      cpu_only_run.walllimit_reached < 4 ∧ cpu_only_run.cpulimit_reached < 4) ∧
    ∃ g1 r, output_exit_time cpu_only_run 0 (1 / 2) = .ok g1 ∧
      written "time-result" cpu_only_run g1 = [.s r] ∧
      (r = "hard-timelimit" ↔
        (cpu_only_run.walllimit_reached &&& hard_timelimit ≠ 0 ∨
         cpu_only_run.cpulimit_reached &&& hard_timelimit ≠ 0)) :=
  ⟨⟨rfl, rfl, rfl, by decide, by decide⟩,
   hard_limit_precedence cpu_only_run 0 (1 / 2) rfl rfl (Or.inr rfl) (by decide) (by decide)⟩

/-- Witness for C5: the run `wall_only_run` with 1.5 seconds of cpu time. -/
theorem soft_limit_result_witness :
    (wall_only_run.outputmeta = true ∧ wall_only_run.metafile_writable = true ∧
      wall_only_run.outputtimetype = WALL_TIME_TYPE ∧
      wall_only_run.walllimit_reached &&& soft_timelimit = 0 ∧
      wall_only_run.cpulimit_reached &&& soft_timelimit = 0) ∧
    ∃ g1 r, output_exit_time wall_only_run 0 (3 / 2) = .ok g1 ∧
      written "time-result" wall_only_run g1 = [.s r] ∧
      (r = "soft-timelimit" ↔
        (wall_only_run.walllimit_reached &&& hard_timelimit = 0 ∧
         wall_only_run.cpulimit_reached &&& hard_timelimit = 0 ∧
         selected_exceeds wall_only_run (3 / 2))) ∧
      (wall_only_run.walllimit_reached &&& hard_timelimit = 0 →
       wall_only_run.cpulimit_reached &&& hard_timelimit = 0 →
       ¬ selected_exceeds wall_only_run (3 / 2) → r = "") :=
  ⟨⟨rfl, rfl, rfl, by decide, by decide⟩,
   soft_limit_result wall_only_run 0 (3 / 2) rfl rfl (Or.inl rfl) (by decide) (by decide)
     (by decide) (by decide)⟩


/-! ## Lemmas and claims on `pump_pipes` -/

theorem at_cap_iff (L : Bool) (S : Nat) (st : Stream) :
    (L && st.data_passed == S) = true ↔ (L = true ∧ st.data_passed = S) := by
  simp

/-- What the data-moving part of the loop body does: at the cap the stream is untouched
and `nread` is what `read` returned; otherwise `data_passed` grows by `nread` when that
is positive, and a positive `nread` is what `read` or `splice` returned. -/
theorem transfer_cases (L : Bool) (S : Nat) (us us1 : Bool) (st st1 : Stream) (c : Calls)
    (r : SysResult) (h : transfer L S us st c = some (r, us1, st1)) :
    st1.pipefd = st.pipefd ∧ st1.data_read = st.data_read ∧
    (((L = true ∧ st.data_passed = S) ∧ r = c.read ∧ st1 = st ∧ us1 = us) ∨
     (¬ (L = true ∧ st.data_passed = S) ∧
       ((∃ e, r = .fail e ∧ st1.data_passed = st.data_passed) ∨
        (r = .count 0 ∧ st1.data_passed = st.data_passed) ∨
        (∃ n, r = .count (n + 1) ∧ (c.read = .count (n + 1) ∨ c.splice = .count (n + 1)) ∧
          st1.data_passed = size_add st.data_passed (n + 1))))) := by
  unfold transfer at h
  by_cases hcap : (L && st.data_passed == S) = true
  · rw [if_pos hcap] at h
    simp only [Option.some.injEq, Prod.mk.injEq] at h
    obtain ⟨rfl, rfl, rfl⟩ := h
    exact ⟨rfl, rfl, Or.inl ⟨(at_cap_iff L S _).mp hcap, rfl, rfl, rfl⟩⟩
  · rw [if_neg hcap] at h
    have hn : ¬ (L = true ∧ st.data_passed = S) := fun hh => hcap ((at_cap_iff L S _).mpr hh)
    cases us
    · simp only [Bool.false_eq_true, if_false] at h
      rcases hr : c.read with e | n
      · simp only [hr, Option.some.injEq, Prod.mk.injEq] at h
        obtain ⟨rfl, rfl, rfl⟩ := h
        exact ⟨rfl, rfl, Or.inr ⟨hn, Or.inl ⟨e, rfl, rfl⟩⟩⟩
      · cases n with
        | zero =>
          simp only [hr, Option.some.injEq, Prod.mk.injEq] at h
          obtain ⟨rfl, rfl, rfl⟩ := h
          exact ⟨rfl, rfl, Or.inr ⟨hn, Or.inr (Or.inl ⟨rfl, by simp⟩)⟩⟩
        | succ m =>
          simp only [hr] at h
          rcases hw : write_loop (m + 1) st.sink c.writes with _ | ⟨_ | e, sink⟩
          · simp [hw] at h
          · simp only [hw, Option.some.injEq, Prod.mk.injEq] at h
            obtain ⟨rfl, rfl, rfl⟩ := h
            exact ⟨rfl, rfl, Or.inr ⟨hn, Or.inr (Or.inr ⟨m, rfl, Or.inl rfl, by simp⟩)⟩⟩
          · simp only [hw, Option.some.injEq, Prod.mk.injEq] at h
            obtain ⟨rfl, rfl, rfl⟩ := h
            exact ⟨rfl, rfl, Or.inr ⟨hn, Or.inl ⟨e, rfl, rfl⟩⟩⟩
    · simp only [if_true] at h
      rcases hs : c.splice with e | n
      · cases e <;>
        · simp only [hs, Option.some.injEq, Prod.mk.injEq] at h
          obtain ⟨rfl, rfl, rfl⟩ := h
          first
            | exact ⟨rfl, rfl, Or.inr ⟨hn, Or.inl ⟨_, rfl, rfl⟩⟩⟩
            | exact ⟨rfl, rfl, Or.inr ⟨hn, Or.inr (Or.inl ⟨rfl, by simp⟩)⟩⟩
      · simp only [hs, Option.some.injEq, Prod.mk.injEq] at h
        obtain ⟨rfl, rfl, rfl⟩ := h
        cases n with
        | zero => exact ⟨rfl, rfl, Or.inr ⟨hn, Or.inr (Or.inl ⟨rfl, by simp⟩)⟩⟩
        | succ m =>
          exact ⟨rfl, rfl, Or.inr ⟨hn, Or.inr (Or.inr ⟨m, rfl, Or.inr rfl, by simp⟩)⟩⟩


/-- What one loop body of `pump_pipes` does to its stream when it returns. -/
theorem pump_stream_result (L : Bool) (S : Nat) (us us1 : Bool) (st st1 : Stream) (c : Calls)
    (h : pump_stream L S us st c = .ok (us1, st1)) :
    (st1.data_passed = st.data_passed ∧ st1.data_read = st.data_read ∧
      ((L = true ∧ st.data_passed = S) → st1.sink = st.sink ∧ us1 = us)) ∨
    ((L = true ∧ st.data_passed = S) ∧ ∃ n, 0 < n ∧ c.read = .count n ∧
      st1.data_passed = st.data_passed ∧ st1.data_read = size_add st.data_read n ∧
      st1.sink = st.sink ∧ us1 = us) ∨
    (¬ (L = true ∧ st.data_passed = S) ∧ ∃ n, 0 < n ∧
      (c.read = .count n ∨ c.splice = .count n) ∧
      st1.data_passed = size_add st.data_passed n ∧
      st1.data_read = size_add st.data_read n) := by
  unfold pump_stream at h
  by_cases hg : (decide (st.pipefd ≠ -1) && c.ready) = true
  · rw [if_pos hg] at h
    rcases ht : transfer L S us st c with _ | ⟨r, us2, st2⟩
    · simp [ht] at h
    · obtain ⟨-, hrd, hcases⟩ := transfer_cases L S us us2 st st2 c r ht
      rcases r with e | n
      · simp only [ht] at h
        split_ifs at h
        simp only [Except.ok.injEq, Prod.mk.injEq] at h
        obtain ⟨rfl, rfl⟩ := h
        rcases hcases with ⟨hc, -, rfl, rfl⟩ | ⟨hn, hh⟩
        · exact Or.inl ⟨rfl, rfl, fun _ => ⟨rfl, rfl⟩⟩
        · rcases hh with ⟨e1, -, hp⟩ | ⟨h0, -⟩ | ⟨m, hm, -⟩
          · exact Or.inl ⟨hp, hrd, fun hc => absurd hc hn⟩
          · exact absurd h0 (by simp)
          · exact absurd hm (by simp)
      · cases n with
        | zero =>
          simp only [ht] at h
          split_ifs at h
          simp only [Except.ok.injEq, Prod.mk.injEq] at h
          obtain ⟨rfl, rfl⟩ := h
          rcases hcases with ⟨hc, -, rfl, rfl⟩ | ⟨hn, hh⟩
          · exact Or.inl ⟨rfl, rfl, fun _ => ⟨rfl, rfl⟩⟩
          · rcases hh with ⟨e1, he, -⟩ | ⟨-, hp⟩ | ⟨m, hm, -⟩
            · exact absurd he (by simp)
            · exact Or.inl ⟨hp, hrd, fun hc => absurd hc hn⟩
            · exact absurd hm (by simp)
        | succ m =>
          simp only [ht, Except.ok.injEq, Prod.mk.injEq] at h
          obtain ⟨rfl, rfl⟩ := h
          rcases hcases with ⟨hc, hr, rfl, rfl⟩ | ⟨hn, hh⟩
          · exact Or.inr (Or.inl ⟨hc, m + 1, Nat.succ_pos m, hr.symm, rfl, rfl, rfl, rfl⟩)
          · rcases hh with ⟨e1, he, -⟩ | ⟨h0, -⟩ | ⟨k, hk, hsrc, hp⟩
            · exact absurd he (by simp)
            · exact absurd h0 (by simp)
            · simp only [SysResult.count.injEq, Nat.add_right_cancel_iff] at hk
              subst hk
              exact Or.inr (Or.inr ⟨hn, m + 1, Nat.succ_pos m, hsrc, hp, by rw [hrd]⟩)
  · rw [if_neg hg] at h
    simp only [Except.ok.injEq, Prod.mk.injEq] at h
    obtain ⟨rfl, rfl⟩ := h
    exact Or.inl ⟨rfl, rfl, fun _ => ⟨rfl, rfl⟩⟩


theorem SIZE_MOD_eq : SIZE_MOD = 18446744073709551616 := by
  unfold SIZE_MOD
  norm_num

theorem BUF_SIZE_eq : BUF_SIZE = 4096 := by
  unfold BUF_SIZE
  norm_num

theorem within_count (r : SysResult) (n m : Nat) (h : r.within m = true) (hr : r = .count n) :
    n ≤ m := by
  subst hr
  simpa [SysResult.within] using h

theorem requested_at_cap (L : Bool) (S : Nat) (st : Stream)
    (h : L = true ∧ st.data_passed = S) : requested L S st = BUF_SIZE := by
  unfold requested
  rw [if_pos ((at_cap_iff L S st).mpr h)]

theorem requested_below_cap (S : Nat) (st : Stream) (hS : S < SIZE_MOD)
    (h : st.data_passed ≤ S) (hne : st.data_passed ≠ S) :
    requested true S st = min BUF_SIZE (S - st.data_passed) := by
  unfold requested size_sub
  have hc : ¬ ((true && st.data_passed == S) = true) := by simpa using hne
  rw [if_neg hc]
  simp only [if_true]
  rw [SIZE_MOD_eq] at *
  congr 1
  omega

/-- One loop body of `pump_pipes` preserves the stream invariant when `read` and `splice`
return at most what was requested. -/
theorem stream_step (L : Bool) (S k : Nat) (us us1 : Bool) (st st1 : Stream) (c : Calls)
    (hS : S < SIZE_MOD) (hinv : StreamInv L S k st)
    (hb1 : c.read.within (requested L S st) = true)
    (hb2 : c.splice.within (requested L S st) = true)
    (h : pump_stream L S us st c = .ok (us1, st1)) :
    StreamInv L S (k + 1) st1 := by
  obtain ⟨hq, ha, hd⟩ := hinv
  rcases pump_stream_result L S us us1 st st1 c h with
    ⟨e1, e2, -⟩ | ⟨hc, n, hn, hr, e1, e2, -, -⟩ | ⟨hnc, n, hn, hsrc, e1, e2⟩
  · refine ⟨by rw [e1, e2]; exact hq, by rw [e1]; exact ha, ?_⟩
    intro hL hfit
    rw [e1, e2]
    rw [SIZE_MOD_eq, BUF_SIZE_eq] at *
    have := hd hL (by omega)
    omega
  · have hle : n ≤ BUF_SIZE := by
      have := within_count _ _ _ hb1 hr
      rwa [requested_at_cap L S st hc] at this
    refine ⟨Or.inr ⟨hc.1, by rw [e1]; exact hc.2⟩, by rw [e1]; exact ha, ?_⟩
    intro hL hfit
    rw [e1, e2]
    unfold size_add
    rw [SIZE_MOD_eq, BUF_SIZE_eq] at *
    have := hd hL (by omega)
    have := ha hL
    omega
  · have hrp : st.data_read = st.data_passed := by
      rcases hq with hq | hq
      · exact hq
      · exact absurd hq hnc
    have heq : st1.data_read = st1.data_passed := by rw [e1, e2, hrp]
    refine ⟨Or.inl heq, ?_, ?_⟩
    · intro hL
      subst hL
      have hp := ha rfl
      have hne : st.data_passed ≠ S := fun hh => hnc ⟨rfl, hh⟩
      have hreq := requested_below_cap S st hS hp hne
      have hle : n ≤ requested true S st := by
        rcases hsrc with hsrc | hsrc
        · exact within_count _ _ _ hb1 hsrc
        · exact within_count _ _ _ hb2 hsrc
      rw [hreq] at hle
      rw [e1]
      unfold size_add
      rw [SIZE_MOD_eq] at *
      have : n ≤ S - st.data_passed := le_trans hle (Nat.min_le_right _ _)
      omega
    · intro _ _
      rw [heq]
      omega


/-- A returning `pump_pipes` call is a returning loop body for stream 1 followed by one
for stream 2; the flag and the cap are not touched. -/
theorem pump_pipes_ok (s s1 : PumpState) (c : Calls × Calls) (h : pump_pipes s c = .ok s1) :
    ∃ us1 us2,
      pump_stream s.limit_streamsize s.streamsize s.use_splice s.out c.1 = .ok (us1, s1.out) ∧
      pump_stream s.limit_streamsize s.streamsize us1 s.err c.2 = .ok (us2, s1.err) ∧
      s1.limit_streamsize = s.limit_streamsize ∧ s1.streamsize = s.streamsize ∧
      s1.use_splice = us2 := by
  unfold pump_pipes at h
  rcases h1 : pump_stream s.limit_streamsize s.streamsize s.use_splice s.out c.1 with
    e | ⟨us1, o1⟩
  · simp [h1] at h
  · simp only [h1] at h
    rcases h2 : pump_stream s.limit_streamsize s.streamsize us1 s.err c.2 with e | ⟨us2, e1⟩
    · simp [h2] at h
    · simp only [h2, Except.ok.injEq] at h
      subst h
      exact ⟨us1, us2, rfl, h2, rfl, rfl, rfl⟩

theorem pump_pipes_inv (s s1 : PumpState) (c : Calls × Calls) (k : Nat)
    (hS : s.streamsize < SIZE_MOD) (hb : calls_bounded s c = true)
    (h : pump_pipes s c = .ok s1)
    (ho : StreamInv s.limit_streamsize s.streamsize k s.out)
    (he : StreamInv s.limit_streamsize s.streamsize k s.err) :
    StreamInv s1.limit_streamsize s1.streamsize (k + 1) s1.out ∧
    StreamInv s1.limit_streamsize s1.streamsize (k + 1) s1.err := by
  obtain ⟨us1, us2, h1, h2, e1, e2, -⟩ := pump_pipes_ok s s1 c h
  unfold calls_bounded at hb
  simp only [Bool.and_eq_true] at hb
  obtain ⟨⟨⟨b1, b2⟩, b3⟩, b4⟩ := hb
  rw [e1, e2]
  exact ⟨stream_step _ _ k _ _ _ _ _ hS ho b1 b2 h1, stream_step _ _ k _ _ _ _ _ hS he b3 b4 h2⟩

theorem pump_calls_inv (cs : List (Calls × Calls)) :
    ∀ (s s1 : PumpState) (k : Nat), s.streamsize < SIZE_MOD → run_bounded s cs = true →
      pump_calls s cs = .ok s1 →
      StreamInv s.limit_streamsize s.streamsize k s.out →
      StreamInv s.limit_streamsize s.streamsize k s.err →
      (s1.limit_streamsize = s.limit_streamsize ∧ s1.streamsize = s.streamsize) ∧
      StreamInv s1.limit_streamsize s1.streamsize (k + cs.length) s1.out ∧
      StreamInv s1.limit_streamsize s1.streamsize (k + cs.length) s1.err := by
  induction cs with
  | nil =>
    intro s s1 k _ _ h ho he
    simp only [pump_calls, Except.ok.injEq] at h
    subst h
    exact ⟨⟨rfl, rfl⟩, ho, he⟩
  | cons c rest ih =>
    intro s s1 k hS hb h ho he
    unfold pump_calls at h
    unfold run_bounded at hb
    rcases hp : pump_pipes s c with e | s2
    · simp [hp] at h
    · simp only [hp, Bool.and_eq_true] at h hb
      obtain ⟨us1, us2, -, -, e1, e2, -⟩ := pump_pipes_ok s s2 c hp
      obtain ⟨io, ie⟩ := pump_pipes_inv s s2 c k hS hb.1 hp ho he
      obtain ⟨⟨f1, f2⟩, r1, r2⟩ := ih s2 s1 (k + 1) (by rw [e2]; exact hS) hb.2 h io ie
      refine ⟨⟨f1.trans e1, f2.trans e2⟩, ?_, ?_⟩
      · have : k + (c :: rest).length = k + 1 + rest.length := by simp; omega
        rw [this]; exact r1
      · have : k + (c :: rest).length = k + 1 + rest.length := by simp; omega
        rw [this]; exact r2

theorem stream_inv_zero (L : Bool) (S : Nat) (st : Stream) (h1 : st.data_read = 0)
    (h2 : st.data_passed = 0) : StreamInv L S 0 st := by
  refine ⟨Or.inl (by rw [h1, h2]), fun _ => by rw [h2]; exact Nat.zero_le _, fun _ _ => ?_⟩
  rw [h1, h2]
  omega

/-- Claim C6: starting from counters equal to zero, after every sequence of `pump_pipes`
calls in which `read` and `splice` return at most the number of bytes requested, a
configured cap bounds the forwarded bytes, `data_passed[i] <= streamsize`, and
`data_passed[i] <= data_read[i]`, for `i = 1, 2`; the second inequality is shown
without a cap, and with a cap as long as the 64-bit counter `data_read[i]` cannot have
wrapped around (cap plus `BUF_SIZE` bytes per call stays below `2^64`). -/
theorem pump_counters_invariant (s0 s : PumpState) (cs : List (Calls × Calls))
    (hz : counters_zero s0) (hS : s0.streamsize < SIZE_MOD)
    (hb : run_bounded s0 cs = true) (hr : pump_calls s0 cs = .ok s) :
    (s.limit_streamsize = true →
      s.out.data_passed ≤ s.streamsize ∧ s.err.data_passed ≤ s.streamsize) ∧
    (s.limit_streamsize = false ∨ s.streamsize + BUF_SIZE * cs.length < SIZE_MOD →
      s.out.data_passed ≤ s.out.data_read ∧ s.err.data_passed ≤ s.err.data_read) := by
  obtain ⟨z1, z2, z3, z4⟩ := hz
  obtain ⟨-, ⟨q1, a1, d1⟩, ⟨q2, a2, d2⟩⟩ := pump_calls_inv cs s0 s 0 hS hb hr
    (stream_inv_zero _ _ _ z1 z2) (stream_inv_zero _ _ _ z3 z4)
  refine ⟨fun hL => ⟨a1 hL, a2 hL⟩, ?_⟩
  intro hcond
  cases hL : s.limit_streamsize
  · have n1 : ¬ (s.limit_streamsize = true ∧ s.out.data_passed = s.streamsize) := by simp [hL]
    have n2 : ¬ (s.limit_streamsize = true ∧ s.err.data_passed = s.streamsize) := by simp [hL]
    have r1 := q1.resolve_right n1
    have r2 := q2.resolve_right n2
    omega
  · have hfit : s.streamsize + BUF_SIZE * (0 + cs.length) < SIZE_MOD := by
      rcases hcond with hc | hc
      · rw [hL] at hc; exact absurd hc (by simp)
      · simpa using hc
    exact ⟨(d1 hL hfit).1, (d2 hL hfit).1⟩


/-- The counters of a stream are equal unless it sits at the cap; this needs no
assumption on what the system calls return. -/
theorem stream_eq_step (L : Bool) (S : Nat) (us us1 : Bool) (st st1 : Stream) (c : Calls)
    (hq : st.data_read = st.data_passed ∨ (L = true ∧ st.data_passed = S))
    (h : pump_stream L S us st c = .ok (us1, st1)) :
    st1.data_read = st1.data_passed ∨ (L = true ∧ st1.data_passed = S) := by
  rcases pump_stream_result L S us us1 st st1 c h with
    ⟨e1, e2, -⟩ | ⟨hc, n, -, -, e1, -, -, -⟩ | ⟨hnc, n, -, -, e1, e2⟩
  · rw [e1, e2]; exact hq
  · exact Or.inr ⟨hc.1, by rw [e1]; exact hc.2⟩
  · have hrp : st.data_read = st.data_passed := hq.resolve_right hnc
    exact Or.inl (by rw [e1, e2, hrp])

theorem pump_calls_eq (cs : List (Calls × Calls)) :
    ∀ (s s1 : PumpState), pump_calls s cs = .ok s1 →
      (s.out.data_read = s.out.data_passed ∨
        (s.limit_streamsize = true ∧ s.out.data_passed = s.streamsize)) →
      (s.err.data_read = s.err.data_passed ∨
        (s.limit_streamsize = true ∧ s.err.data_passed = s.streamsize)) →
      (s1.out.data_read = s1.out.data_passed ∨
        (s1.limit_streamsize = true ∧ s1.out.data_passed = s1.streamsize)) ∧
      (s1.err.data_read = s1.err.data_passed ∨
        (s1.limit_streamsize = true ∧ s1.err.data_passed = s1.streamsize)) := by
  induction cs with
  | nil =>
    intro s s1 h ho he
    simp only [pump_calls, Except.ok.injEq] at h
    subst h
    exact ⟨ho, he⟩
  | cons c rest ih =>
    intro s s1 h ho he
    unfold pump_calls at h
    rcases hp : pump_pipes s c with e | s2
    · simp [hp] at h
    · simp only [hp] at h
      obtain ⟨us1, us2, h1, h2, e1, e2, -⟩ := pump_pipes_ok s s2 c hp
      refine ih s2 s1 h ?_ ?_
      · rw [e1, e2]; exact stream_eq_step _ _ _ _ _ _ _ ho h1
      · rw [e1, e2]; exact stream_eq_step _ _ _ _ _ _ _ he h2

/-- Claim C7 as amended: with a cap configured, in every state reached by `pump_pipes`
calls from zero counters, `data_read[i] = data_passed[i]` -- and therefore
`data_read[i] <= data_passed[i] + streamsize` -- whenever `data_passed[i]` differs from
`streamsize`, in particular while the cap has not been reached, for `i = 1, 2`. -/
theorem read_equals_passed_off_cap (s0 s : PumpState) (cs : List (Calls × Calls))
    (hz : counters_zero s0) (hL : s0.limit_streamsize = true)
    (hr : pump_calls s0 cs = .ok s) :
    (s.out.data_passed ≠ s.streamsize →
      s.out.data_read = s.out.data_passed ∧
      s.out.data_read ≤ s.out.data_passed + s.streamsize) ∧
    (s.err.data_passed ≠ s.streamsize →
      s.err.data_read = s.err.data_passed ∧
      s.err.data_read ≤ s.err.data_passed + s.streamsize) := by
  have _ := hL
  obtain ⟨z1, z2, z3, z4⟩ := hz
  obtain ⟨q1, q2⟩ := pump_calls_eq cs s0 s hr (Or.inl (by rw [z1, z2])) (Or.inl (by rw [z3, z4]))
  constructor
  · intro hne
    have : s.out.data_read = s.out.data_passed := q1.resolve_right (fun hh => hne hh.2)
    exact ⟨this, by omega⟩
  · intro hne
    have : s.err.data_read = s.err.data_passed := q2.resolve_right (fun hh => hne hh.2)
    exact ⟨this, by omega⟩

/-- Witness for C7 (amended): one call that forwards 100 bytes of stdout under a cap of
1024 bytes. -/
theorem read_equals_passed_off_cap_witness :
    (counters_zero capped_start ∧ capped_start.limit_streamsize = true) ∧
    ∃ s, pump_calls capped_start [(moves 100, idle)] = .ok s ∧
      (s.out.data_passed ≠ s.streamsize →
        s.out.data_read = s.out.data_passed ∧
        s.out.data_read ≤ s.out.data_passed + s.streamsize) ∧
      (s.err.data_passed ≠ s.streamsize →
        s.err.data_read = s.err.data_passed ∧
        s.err.data_read ≤ s.err.data_passed + s.streamsize) :=
  ⟨⟨⟨rfl, rfl, rfl, rfl⟩, rfl⟩,
   { capped_start with out := ⟨5, 100, 100, 100⟩ }, by decide,
   read_equals_passed_off_cap capped_start { capped_start with out := ⟨5, 100, 100, 100⟩ }
      [(moves 100, idle)] ⟨rfl, rfl, rfl, rfl⟩ rfl (by decide)⟩

/-- Counterexample to C7 as stated: with a cap of 1024 bytes, a first call forwards 1024
bytes of stdout and a second call reads and discards 4096 more; then
`data_read[1] = 5120` while `data_passed[1] + streamsize = 2048`. -/
theorem read_bound_counterexample :
    counters_zero capped_start ∧ capped_start.limit_streamsize = true ∧
    run_bounded capped_start [(moves 1024, idle), (moves 4096, idle)] = true ∧
    pump_calls capped_start [(moves 1024, idle), (moves 4096, idle)] =
      .ok capped_discarded ∧
    ¬ (capped_discarded.out.data_read ≤
      capped_discarded.out.data_passed + capped_discarded.streamsize) :=
  ⟨⟨rfl, rfl, rfl, rfl⟩, rfl, by decide, by decide, by decide⟩

/-- Witness for C6: the two calls of the run above. -/
theorem pump_counters_invariant_witness :
    (counters_zero capped_start ∧ capped_start.streamsize < SIZE_MOD ∧
      run_bounded capped_start [(moves 1024, idle), (moves 4096, idle)] = true) ∧
    ∃ s, pump_calls capped_start [(moves 1024, idle), (moves 4096, idle)] = .ok s ∧
      (s.limit_streamsize = true →
        s.out.data_passed ≤ s.streamsize ∧ s.err.data_passed ≤ s.streamsize) ∧
      (s.limit_streamsize = false ∨ s.streamsize + BUF_SIZE * 2 < SIZE_MOD →
        s.out.data_passed ≤ s.out.data_read ∧ s.err.data_passed ≤ s.err.data_read) :=
  ⟨⟨⟨rfl, rfl, rfl, rfl⟩, by decide, by decide⟩,
   capped_discarded, by decide,
   pump_counters_invariant capped_start capped_discarded
      [(moves 1024, idle), (moves 4096, idle)] ⟨rfl, rfl, rfl, rfl⟩ (by decide) (by decide)
      (by decide)⟩


/-- At the cap a loop body that returns leaves `data_passed`, the sink and `use_splice`
as they were. -/
theorem pump_stream_at_cap (L : Bool) (S : Nat) (us us1 : Bool) (st st1 : Stream) (c : Calls)
    (hc : L = true ∧ st.data_passed = S)
    (h : pump_stream L S us st c = .ok (us1, st1)) :
    st1.data_passed = st.data_passed ∧ st1.sink = st.sink ∧ us1 = us := by
  rcases pump_stream_result L S us us1 st st1 c h with
    ⟨e1, -, e3⟩ | ⟨-, n, -, -, e1, -, e3, e4⟩ | ⟨hnc, -⟩
  · exact ⟨e1, (e3 hc).1, (e3 hc).2⟩
  · exact ⟨e1, e3, e4⟩
  · exact absurd hc hnc

/-- At the cap a successful `read` of `k > 0` bytes is counted in `data_read`. -/
theorem pump_stream_at_cap_read (L : Bool) (S : Nat) (us : Bool) (st : Stream) (c : Calls)
    (k : Nat) (hc : L = true ∧ st.data_passed = S) (hfd : st.pipefd ≠ -1)
    (hready : c.ready = true) (hk : c.read = .count k) (hpos : 0 < k) :
    pump_stream L S us st c = .ok (us, { st with data_read := size_add st.data_read k }) := by
  obtain ⟨m, rfl⟩ : ∃ m, k = m + 1 := ⟨k - 1, by omega⟩
  have hg : (decide (st.pipefd ≠ -1) && c.ready) = true := by simp [hfd, hready]
  have ht : transfer L S us st c = some (.count (m + 1), us, st) := by
    unfold transfer
    rw [if_pos ((at_cap_iff L S st).mpr hc), hk]
  unfold pump_stream
  rw [if_pos hg, ht]

theorem pump_pipes_at_cap (s s1 : PumpState) (c : Calls × Calls) (i : Nat)
    (hL : s.limit_streamsize = true) (hcap : (s.strm i).data_passed = s.streamsize)
    (h : pump_pipes s c = .ok s1) :
    s1.limit_streamsize = true ∧ s1.streamsize = s.streamsize ∧
    (s1.strm i).data_passed = (s.strm i).data_passed ∧ (s1.strm i).sink = (s.strm i).sink := by
  obtain ⟨us1, us2, h1, h2, e1, e2, -⟩ := pump_pipes_ok s s1 c h
  refine ⟨e1.trans hL, e2, ?_⟩
  unfold PumpState.strm at hcap ⊢
  by_cases hi : i = 1
  · simp only [hi, if_true] at hcap ⊢
    obtain ⟨a, b, -⟩ := pump_stream_at_cap _ _ _ _ _ _ _ ⟨hL, hcap⟩ h1
    exact ⟨a, b⟩
  · simp only [hi, if_false] at hcap ⊢
    obtain ⟨a, b, -⟩ := pump_stream_at_cap _ _ _ _ _ _ _ ⟨hL, hcap⟩ h2
    exact ⟨a, b⟩

theorem pump_calls_at_cap (cs : List (Calls × Calls)) (i : Nat) :
    ∀ (s s1 : PumpState), s.limit_streamsize = true →
      (s.strm i).data_passed = s.streamsize → pump_calls s cs = .ok s1 →
      s1.limit_streamsize = true ∧ s1.streamsize = s.streamsize ∧
      (s1.strm i).data_passed = (s.strm i).data_passed ∧
      (s1.strm i).sink = (s.strm i).sink := by
  induction cs with
  | nil =>
    intro s s1 hL _ h
    simp only [pump_calls, Except.ok.injEq] at h
    subst h
    exact ⟨hL, rfl, rfl, rfl⟩
  | cons c rest ih =>
    intro s s1 hL hcap h
    unfold pump_calls at h
    rcases hp : pump_pipes s c with e | s2
    · simp [hp] at h
    · simp only [hp] at h
      obtain ⟨a1, a2, a3, a4⟩ := pump_pipes_at_cap s s2 c i hL hcap hp
      obtain ⟨b1, b2, b3, b4⟩ := ih s2 s1 a1 (by rw [a3, a2]; exact hcap) h
      exact ⟨b1, b2.trans a2, b3.trans a3, b4.trans a4⟩

theorem pump_pipes_at_cap_read (s s1 : PumpState) (c : Calls × Calls) (i k : Nat)
    (hL : s.limit_streamsize = true) (hcap : (s.strm i).data_passed = s.streamsize)
    (h : pump_pipes s c = .ok s1) (hfd : (s.strm i).pipefd ≠ -1)
    (hready : (calls_of c i).ready = true) (hk : (calls_of c i).read = .count k)
    (hpos : 0 < k) :
    (s1.strm i).data_read = size_add (s.strm i).data_read k := by
  obtain ⟨us1, us2, h1, h2, -, -, -⟩ := pump_pipes_ok s s1 c h
  unfold PumpState.strm at hcap hfd ⊢
  unfold calls_of at hready hk
  by_cases hi : i = 1
  · simp only [hi, if_true] at hcap hfd hready hk ⊢
    rw [pump_stream_at_cap_read _ _ _ _ _ k ⟨hL, hcap⟩ hfd hready hk hpos] at h1
    simp only [Except.ok.injEq, Prod.mk.injEq] at h1
    rw [← h1.2]
  · simp only [hi, if_false] at hcap hfd hready hk ⊢
    rw [pump_stream_at_cap_read _ _ _ _ _ k ⟨hL, hcap⟩ hfd hready hk hpos] at h2
    simp only [Except.ok.injEq, Prod.mk.injEq] at h2
    rw [← h2.2]

/-- Claim C8: once `limit_streamsize` is set and `data_passed[i] == streamsize`, every
later sequence of `pump_pipes` calls leaves `data_passed[i]` unchanged and delivers
nothing to the sink of stream `i`; and in each such later call a successful `read` of
`k > 0` bytes from pipe `i` adds `k` to the `size_t` counter `data_read[i]`: exactly `k`
more as long as the counter does not exceed `2^64 - 1`. -/
theorem cap_sticky (s : PumpState) (i : Nat)
    (hL : s.limit_streamsize = true) (hcap : (s.strm i).data_passed = s.streamsize) :
    (∀ (cs : List (Calls × Calls)) (s1 : PumpState), pump_calls s cs = .ok s1 →
      (s1.strm i).data_passed = (s.strm i).data_passed ∧
      (s1.strm i).sink = (s.strm i).sink) ∧
    (∀ (cs : List (Calls × Calls)) (s1 s2 : PumpState) (c : Calls × Calls) (k : Nat),
      pump_calls s cs = .ok s1 → pump_pipes s1 c = .ok s2 →
      (s1.strm i).pipefd ≠ -1 → (calls_of c i).ready = true →
      (calls_of c i).read = .count k → 0 < k →
      (s2.strm i).data_read = size_add (s1.strm i).data_read k ∧
      ((s1.strm i).data_read + k < SIZE_MOD →
        (s2.strm i).data_read = (s1.strm i).data_read + k)) := by
  constructor
  · intro cs s1 h
    obtain ⟨-, -, a, b⟩ := pump_calls_at_cap cs i s s1 hL hcap h
    exact ⟨a, b⟩
  · intro cs s1 s2 c k h hp hfd hready hk hpos
    obtain ⟨a1, a2, a3, -⟩ := pump_calls_at_cap cs i s s1 hL hcap h
    have hcap1 : (s1.strm i).data_passed = s1.streamsize := by rw [a3, a2]; exact hcap
    have hrd := pump_pipes_at_cap_read s1 s2 c i k a1 hcap1 hp hfd hready hk hpos
    refine ⟨hrd, fun hfit => ?_⟩
    rw [hrd]
    unfold size_add
    exact Nat.mod_eq_of_lt hfit

/-- Witness for C8: stdout at its cap of 1024 bytes, then a call that reads 4096 bytes. -/
theorem cap_sticky_witness :
    capped_full.limit_streamsize = true ∧
    (capped_full.strm 1).data_passed = capped_full.streamsize ∧
    pump_pipes capped_full (moves 4096, idle) = .ok capped_discarded ∧
    (capped_discarded.strm 1).data_read = (capped_full.strm 1).data_read + 4096 :=
  ⟨rfl, rfl, by decide,
   ((cap_sticky capped_full 1 rfl rfl).2 [] capped_full capped_discarded (moves 4096, idle)
      4096 rfl (by decide) (by decide) rfl rfl (by decide)).2 (by decide)⟩


/-! ## Claims on the drain loop and the truncation report -/

theorem main_exitcode_frame (g g1 : Globals) (status exitcode : Int)
    (hx : main_exitcode g status = .ok (g1, exitcode)) :
    g1.outputmeta = g.outputmeta ∧ g1.metafile_writable = g.metafile_writable ∧
    g1.outputtimetype = g.outputtimetype ∧ g1.metafile = g.metafile ∧
    g1.walllimit_reached = g.walllimit_reached ∧
    (g1.cpulimit_reached = g.cpulimit_reached ∨
      g1.cpulimit_reached = g.cpulimit_reached ||| hard_timelimit) := by
  cases h1 : WIFEXITED status
  · cases h2 : WIFSIGNALED status
    · cases h3 : WIFSTOPPED status
      · rw [main_exitcode_unknown g status h1 h2 h3] at hx
        exact absurd hx (by simp)
      · rw [main_exitcode_stopped g status h3] at hx
        simp only [Except.ok.injEq, Prod.mk.injEq] at hx
        obtain ⟨rfl, -⟩ := hx
        exact ⟨rfl, rfl, rfl, rfl, rfl, Or.inl rfl⟩
    · rw [main_exitcode_signaled g status h2] at hx
      simp only [Except.ok.injEq, Prod.mk.injEq] at hx
      obtain ⟨rfl, -⟩ := hx
      split_ifs
      · exact ⟨rfl, rfl, rfl, rfl, rfl, Or.inr rfl⟩
      · exact ⟨rfl, rfl, rfl, rfl, rfl, Or.inl rfl⟩
  · rw [main_exitcode_exited g status h1] at hx
    simp only [Except.ok.injEq, Prod.mk.injEq] at hx
    obtain ⟨rfl, -⟩ := hx
    exact ⟨rfl, rfl, rfl, rfl, rfl, Or.inl rfl⟩

theorem main_exitcode_ok (g : Globals) (status : Int)
    (hcls : WIFEXITED status = true ∨ WIFSIGNALED status = true ∨ WIFSTOPPED status = true) :
    ∃ g1 exitcode, main_exitcode g status = .ok (g1, exitcode) := by
  rcases hcls with h | h | h
  · exact ⟨_, _, main_exitcode_exited g status h⟩
  · exact ⟨_, _, main_exitcode_signaled g status h⟩
  · exact ⟨_, _, main_exitcode_stopped g status h⟩

/-- The byte-count and truncation lines that the end of `main` writes. -/
theorem main_finish_stream_lines (g g2 : Globals) (s : PumpState)
    (status exitcode max_usage : Int) (cputime : ℚ)
    (hx : main_exitcode g status = .ok (g2, exitcode))
    (hm : g.outputmeta = true) (hw : g.metafile_writable = true)
    (ht : g.outputtimetype = WALL_TIME_TYPE ∨ g.outputtimetype = CPU_TIME_TYPE)
    (hwr : g.walllimit_reached < 4) (hcr : g.cpulimit_reached < 4) :
    ∃ g1, main_finish g s status max_usage cputime = .ok (g1, exitcode) ∧
      written "stdout-bytes" g g1 = [.zu s.out.data_read] ∧
      written "output-truncated" g g1 =
        if s.limit_streamsize = true then [.s (output_truncated s)] else [] := by
  obtain ⟨e1, e2, e3, e4, e5, e6⟩ := main_exitcode_frame g g2 status exitcode hx
  have hcr2 : g2.cpulimit_reached < 4 := by
    rcases e6 with e6 | e6
    · rw [e6]; exact hcr
    · rw [e6]; exact lor_hard_lt _ hcr
  obtain ⟨str, hs⟩ := timelimit_str_exists g2 cputime (by rw [e5]; exact hwr) hcr2
  obtain ⟨-, -, -, f4, -⟩ := soft_checks_frame g2 cputime
  obtain ⟨-, -, -, w4, w5⟩ :=
    written_finish g (soft_checks g2 cputime) g2 s exitcode max_usage cputime str
      (f4.trans e4)
  exact ⟨_, main_finish_ok g g2 s status exitcode max_usage cputime str hx
    (by rw [e1]; exact hm) (by rw [e2]; exact hw) (by rw [e3]; exact ht) hs, w4, w5⟩

theorem output_truncated_cases (s : PumpState) :
    output_truncated s =
      if s.out.data_passed < s.out.data_read then
        (if s.err.data_passed < s.err.data_read then "stdout,stderr" else "stdout")
      else (if s.err.data_passed < s.err.data_read then "stderr" else "") := by
  unfold output_truncated
  by_cases h1 : s.out.data_passed < s.out.data_read <;>
  by_cases h2 : s.err.data_passed < s.err.data_read <;>
  simp only [h1, h2, if_true, if_false] <;> decide

theorem output_truncated_spec (s : PumpState) :
    (output_truncated s = "" ∨ output_truncated s = "stdout" ∨
      output_truncated s = "stderr" ∨ output_truncated s = "stdout,stderr") ∧
    ("stdout".toList <:+: (output_truncated s).toList ↔
      s.out.data_passed < s.out.data_read) ∧
    ("stderr".toList <:+: (output_truncated s).toList ↔
      s.err.data_passed < s.err.data_read) ∧
    (s.out.data_passed < s.out.data_read → s.err.data_passed < s.err.data_read →
      output_truncated s = "stdout,stderr") := by
  rw [output_truncated_cases]
  by_cases h1 : s.out.data_passed < s.out.data_read <;>
  by_cases h2 : s.err.data_passed < s.err.data_read <;>
  simp only [h1, h2, if_true, if_false] <;> decide

/-- Claim C9, evaluated at the failing input: with a cap of 1024 bytes and 6000 bytes of
stdout in the pipe at reap time, the drain loop ends after two `pump_pipes` calls with
`data_read[1] = 5120`, 1024 bytes in the sink and 880 bytes left unread in the pipe, and
the end of `main` reports `stdout-bytes = 5120` and `output-truncated = stdout`. -/
theorem drain_undercounts_stdout :
    drain_loop 2 capped_start pipes_6000 = .ok (drained_6000, ⟨880, 0, true, true⟩) ∧
    drained_6000.out.sink = 1024 ∧
    ∃ g1, main_finish cpu_only_run drained_6000 0 0 (1 / 2) = .ok (g1, 0) ∧
      written "stdout-bytes" cpu_only_run g1 = [.zu 5120] ∧
      written "output-truncated" cpu_only_run g1 = [.s "stdout"] := by
  refine ⟨by decide, rfl, ?_⟩
  obtain ⟨g1, h1, h2, h3⟩ := main_finish_stream_lines cpu_only_run cpu_only_run drained_6000
    0 0 0 (1 / 2) (main_exitcode_exited cpu_only_run 0 (by decide))
    rfl rfl (Or.inr rfl) (by decide) (by decide)
  refine ⟨g1, h1, h2, ?_⟩
  rw [h3]
  decide

/-- The scenario of the specification: with a cap of 1024 bytes and 2048 bytes of stdout
in the pipe at reap time the drain loop reads all of them and forwards 1024. -/
theorem drain_scenario_2048 :
    drain_loop 2 capped_start ⟨2048, 0, true, true⟩ =
      .ok ({ capped_start with out := ⟨5, 2048, 1024, 1024⟩, err := ⟨-1, 0, 0, 0⟩ },
           ⟨0, 0, true, true⟩) := by
  decide

/-- Claim C10: when a stream cap is configured and the end of `main` is reached with a
status of one of the three classes, it writes exactly one `output-truncated` line whose
value is one of the empty string, `stdout`, `stderr` and `stdout,stderr`; the value
contains `stdout` if and only if `data_passed[1] < data_read[1]` and `stderr` if and only
if `data_passed[2] < data_read[2]`, and when both hold it is `stdout,stderr`: stdout
first, one comma in between. -/
theorem output_truncated_line (g : Globals) (s : PumpState) (status max_usage : Int)
    (cputime : ℚ) (hL : s.limit_streamsize = true)
    (hm : g.outputmeta = true) (hw : g.metafile_writable = true)
    (ht : g.outputtimetype = WALL_TIME_TYPE ∨ g.outputtimetype = CPU_TIME_TYPE)
    (hwr : g.walllimit_reached < 4) (hcr : g.cpulimit_reached < 4)
    (hcls : WIFEXITED status = true ∨ WIFSIGNALED status = true ∨ WIFSTOPPED status = true) :
    ∃ g1 exitcode v, main_finish g s status max_usage cputime = .ok (g1, exitcode) ∧
      written "output-truncated" g g1 = [.s v] ∧
      (v = "" ∨ v = "stdout" ∨ v = "stderr" ∨ v = "stdout,stderr") ∧
      ("stdout".toList <:+: v.toList ↔ s.out.data_passed < s.out.data_read) ∧
      ("stderr".toList <:+: v.toList ↔ s.err.data_passed < s.err.data_read) ∧
      (s.out.data_passed < s.out.data_read → s.err.data_passed < s.err.data_read →
        v = "stdout,stderr") := by
  obtain ⟨g2, ec, hx⟩ := main_exitcode_ok g status hcls
  obtain ⟨g1, h1, -, h3⟩ :=
    main_finish_stream_lines g g2 s status ec max_usage cputime hx hm hw ht hwr hcr
  rw [if_pos hL] at h3
  obtain ⟨p1, p2, p3, p4⟩ := output_truncated_spec s
  exact ⟨g1, ec, output_truncated s, h1, h3, p1, p2, p3, p4⟩

/-- Witness for C10: the drained state `drained_6000` reported by `cpu_only_run`. -/
theorem output_truncated_line_witness :
    (drained_6000.limit_streamsize = true ∧ cpu_only_run.outputmeta = true ∧
      WIFEXITED 0 = true) ∧
    ∃ g1 exitcode v, main_finish cpu_only_run drained_6000 0 0 (1 / 2) = .ok (g1, exitcode) ∧
      written "output-truncated" cpu_only_run g1 = [.s v] ∧
      (v = "" ∨ v = "stdout" ∨ v = "stderr" ∨ v = "stdout,stderr") ∧
      ("stdout".toList <:+: v.toList ↔
        drained_6000.out.data_passed < drained_6000.out.data_read) ∧
      ("stderr".toList <:+: v.toList ↔
        drained_6000.err.data_passed < drained_6000.err.data_read) ∧
      (drained_6000.out.data_passed < drained_6000.out.data_read →
        drained_6000.err.data_passed < drained_6000.err.data_read → v = "stdout,stderr") :=
  ⟨⟨rfl, rfl, by decide⟩,
   output_truncated_line cpu_only_run drained_6000 0 0 (1 / 2) rfl rfl rfl (Or.inr rfl)
     (by decide) (by decide) (Or.inl (by decide))⟩


/-! ## The drain loop in general -/

theorem size_sub_self (n : Nat) : size_sub n n = 0 := by
  unfold size_sub
  have : n + SIZE_MOD - n = SIZE_MOD := by omega
  rw [this, Nat.mod_self]

theorem write_loop_once (m sink : Nat) :
    write_loop (m + 1) sink [.count (m + 1)] = some (none, sink + (m + 1)) := by
  simp [write_loop, size_sub_self]

/-- The loop body of `pump_pipes` on a pipe without writers that holds `a` bytes, with a
sink that accepts `splice`: end-of-file closes the read end, at the cap the bytes read
are only counted, and otherwise they are forwarded and counted. -/
theorem pump_stream_drain (L : Bool) (S : Nat) (us : Bool) (st : Stream) (a : Nat)
    (hfd : 0 ≤ st.pipefd) :
    pump_stream L S us st (drain_calls L S st a true) =
      if min (requested L S st) a = 0 then .ok (us, { st with pipefd := -1 })
      else if (L && st.data_passed == S) = true then
        .ok (us, { st with data_read := size_add st.data_read (min (requested L S st) a) })
      else
        .ok (us, { st with
          data_read := size_add st.data_read (min (requested L S st) a)
          data_passed := size_add st.data_passed (min (requested L S st) a)
          sink := st.sink + min (requested L S st) a }) := by
  have hne : st.pipefd ≠ -1 := by omega
  have hg : (decide (st.pipefd ≠ -1) && (drain_calls L S st a true).ready) = true := by
    simp [drain_calls, hne, hfd]
  unfold pump_stream
  rw [if_pos hg]
  unfold transfer
  generalize hk : min (requested L S st) a = k
  have hrd : (drain_calls L S st a true).read = .count k := by simp [drain_calls, hk]
  have hsp : (drain_calls L S st a true).splice = .count k := by simp [drain_calls, hk]
  have hwr : (drain_calls L S st a true).writes = [.count k] := by simp [drain_calls, hk]
  have hcl : (drain_calls L S st a true).close_ok = true := by simp [drain_calls]
  rw [hrd, hsp, hwr, hcl]
  by_cases hcap : (L && st.data_passed == S) = true
  · simp only [hcap, if_true]
    cases k with
    | zero => simp
    | succ m => simp
  · simp only [hcap, if_false]
    cases us
    · cases k with
      | zero => simp
      | succ m => simp [write_loop_once]
    · cases k with
      | zero => simp
      | succ m => simp


theorem pump_stream_closed (L : Bool) (S : Nat) (us : Bool) (st : Stream) (c : Calls)
    (h : st.pipefd = -1) : pump_stream L S us st c = .ok (us, st) := by
  unfold pump_stream
  simp [h]

theorem taken_drain (L : Bool) (S : Nat) (us : Bool) (st : Stream) (a : Nat)
    (hfd : 0 ≤ st.pipefd) :
    taken L S us st (drain_calls L S st a true) = min (requested L S st) a := by
  have hne : st.pipefd ≠ -1 := by omega
  unfold taken
  simp only [drain_calls, SysResult.bytes, if_true]
  have hg : (decide (st.pipefd ≠ -1) && decide (st.pipefd ≥ 0)) = true := by simp [hne, hfd]
  rw [if_pos hg]
  split_ifs <;> rfl

/-- A call of `drain_pump` in terms of the two loop bodies. -/
theorem drain_pump_ok (s : PumpState) (p : Pipes) (us1 us2 : Bool) (o1 e1 : Stream)
    (h1 : pump_stream s.limit_streamsize s.streamsize s.use_splice s.out
      (drain_calls s.limit_streamsize s.streamsize s.out p.avail1 p.splice_ok1) = .ok (us1, o1))
    (h2 : pump_stream s.limit_streamsize s.streamsize us1 s.err
      (drain_calls s.limit_streamsize s.streamsize s.err p.avail2 p.splice_ok2) = .ok (us2, e1)) :
    drain_pump s p = .ok ({ s with use_splice := us2, out := o1, err := e1 },
      { p with
        avail1 := p.avail1 - taken s.limit_streamsize s.streamsize s.use_splice s.out
          (drain_calls s.limit_streamsize s.streamsize s.out p.avail1 p.splice_ok1)
        avail2 := p.avail2 - taken s.limit_streamsize s.streamsize us1 s.err
          (drain_calls s.limit_streamsize s.streamsize s.err p.avail2 p.splice_ok2) }) := by
  unfold drain_pump pump_pipes
  simp only [h1, h2]

/-- The loop body for a stderr pipe that is empty at end-of-file, or already closed: the
read end is closed afterwards and the counters stay 0. -/
theorem err_step (C : Nat) (us : Bool) (fd : Int) (hfd : 0 ≤ fd ∨ fd = -1) :
    pump_stream true C us ⟨fd, 0, 0, 0⟩ (drain_calls true C ⟨fd, 0, 0, 0⟩ 0 true) =
      .ok (us, ⟨-1, 0, 0, 0⟩) := by
  rcases hfd with h | h
  · rw [pump_stream_drain true C us ⟨fd, 0, 0, 0⟩ 0 h]
    simp
  · subst h
    exact pump_stream_closed _ _ _ _ _ rfl


theorem out_step (C : Nat) (us : Bool) (fd1 : Int) (p a : Nat) (hfd : 0 ≤ fd1) :
    pump_stream true C us ⟨fd1, p, p, p⟩ (drain_calls true C ⟨fd1, p, p, p⟩ a true) =
      .ok (us, drained_out C fd1 p a) := by
  rw [pump_stream_drain true C us ⟨fd1, p, p, p⟩ a hfd]
  unfold drained_out
  simp only [Bool.true_and, beq_iff_eq]
  split_ifs <;> rfl

theorem drain_pump_draining (C : Nat) (us : Bool) (fd1 fd2 : Int) (p a : Nat)
    (h1 : 0 ≤ fd1) (h2 : 0 ≤ fd2 ∨ fd2 = -1) :
    drain_pump (draining C us fd1 fd2 p) ⟨a, 0, true, true⟩ =
      .ok ({ draining C us fd1 (-1) p with out := drained_out C fd1 p a },
           ⟨a - min (requested true C ⟨fd1, p, p, p⟩) a, 0, true, true⟩) := by
  have e1 := out_step C us fd1 p a h1
  have e2 := err_step C us fd2 h2
  have := drain_pump_ok (draining C us fd1 fd2 p) ⟨a, 0, true, true⟩ us us _ _ e1 e2
  rw [this]
  have t1 := taken_drain true C us ⟨fd1, p, p, p⟩ a h1
  simp only [draining] at t1 ⊢
  rw [t1]
  simp


theorem drained_out_eof (C : Nat) (fd1 : Int) (p : Nat) :
    drained_out C fd1 p 0 = ⟨-1, p, p, p⟩ := by
  simp [drained_out]

theorem drained_out_cap (C : Nat) (fd1 : Int) (a : Nat) (ha : 0 < a)
    (hC : C + BUF_SIZE < SIZE_MOD) :
    drained_out C fd1 C a = ⟨fd1, C + min BUF_SIZE a, C, C⟩ := by
  unfold drained_out
  rw [requested_at_cap true C ⟨fd1, C, C, C⟩ ⟨rfl, rfl⟩]
  have hk : min BUF_SIZE a ≠ 0 := by
    rw [BUF_SIZE_eq]; omega
  simp only [hk, if_false, if_true]
  unfold size_add
  rw [SIZE_MOD_eq, BUF_SIZE_eq] at *
  have : (C + min 4096 a) % 18446744073709551616 = C + min 4096 a := by
    apply Nat.mod_eq_of_lt
    omega
  rw [this]

theorem drained_out_below (C : Nat) (fd1 : Int) (p a : Nat) (ha : 0 < a) (hp : p < C)
    (hC : C + BUF_SIZE < SIZE_MOD) :
    drained_out C fd1 p a =
      ⟨fd1, p + min (min BUF_SIZE (C - p)) a, p + min (min BUF_SIZE (C - p)) a,
        p + min (min BUF_SIZE (C - p)) a⟩ := by
  unfold drained_out
  have hS : C < SIZE_MOD := by rw [SIZE_MOD_eq, BUF_SIZE_eq] at *; omega
  rw [requested_below_cap C ⟨fd1, p, p, p⟩ hS (le_of_lt hp) (ne_of_lt hp)]
  have hk : min (min BUF_SIZE (C - p)) a ≠ 0 := by
    rw [BUF_SIZE_eq]; omega
  have hne : p ≠ C := ne_of_lt hp
  simp only [hk, hne, if_false]
  unfold size_add
  rw [SIZE_MOD_eq, BUF_SIZE_eq] at *
  have : (p + min (min 4096 (C - p)) a) % 18446744073709551616 =
      p + min (min 4096 (C - p)) a := by
    apply Nat.mod_eq_of_lt
    omega
  rw [this]

/-- The drain loop on a run with cap `C` whose stdout pipe holds the rest of `N` bytes
and whose stderr pipe is empty: it ends, with `min N C` bytes forwarded and
`min N (C + BUF_SIZE)` bytes counted as read. -/
theorem drain_loop_draining (C N : Nat) (us : Bool) (fd1 : Int)
    (hC : C + BUF_SIZE < SIZE_MOD) (h1 : 0 ≤ fd1) :
    ∀ (fuel a p : Nat) (fd2 : Int), p + a = N → p ≤ C → a + 2 ≤ fuel →
      (0 ≤ fd2 ∨ fd2 = -1) →
      ∃ s q, drain_loop fuel (draining C us fd1 fd2 p) ⟨a, 0, true, true⟩ = .ok (s, q) ∧
        s.limit_streamsize = true ∧ s.streamsize = C ∧
        s.out.data_read = min N (C + BUF_SIZE) ∧ s.out.data_passed = min N C ∧
        s.out.sink = min N C ∧ s.err.data_read = 0 ∧ s.err.data_passed = 0 := by
  intro fuel
  induction fuel with
  | zero => intro a p fd2 _ _ hf; omega
  | succ f ih =>
    intro a p fd2 hN hp hf h2
    unfold drain_loop
    rw [drain_pump_draining C us fd1 fd2 p a h1 h2]
    simp only
    rcases Nat.eq_zero_or_pos a with ha | ha
    · subst ha
      rw [drained_out_eof]
      simp only [draining, gt_iff_lt, lt_self_iff_false, if_false]
      refine ⟨_, _, rfl, rfl, rfl, ?_, ?_, ?_, rfl, rfl⟩ <;>
      · simp only
        rw [BUF_SIZE_eq] at *
        omega
    · rcases Nat.lt_or_ge p C with hlt | hge
      · rw [drained_out_below C fd1 p a ha hlt hC]
        have hS : C < SIZE_MOD := by rw [SIZE_MOD_eq, BUF_SIZE_eq] at *; omega
        rw [requested_below_cap C ⟨fd1, p, p, p⟩ hS (le_of_lt hlt) (ne_of_lt hlt)]
        have hgt : size_add (p + min (min BUF_SIZE (C - p)) a) 0 > size_add p 0 := by
          unfold size_add
          rw [SIZE_MOD_eq, BUF_SIZE_eq] at *
          have e1 : (p + min (min 4096 (C - p)) a + 0) % 18446744073709551616 =
              p + min (min 4096 (C - p)) a := by
            apply Nat.mod_eq_of_lt; omega
          have e2 : (p + 0) % 18446744073709551616 = p := by
            apply Nat.mod_eq_of_lt; omega
          rw [e1, e2]
          omega
        simp only [draining, hgt, if_true]
        have := ih (a - min (min BUF_SIZE (C - p)) a) (p + min (min BUF_SIZE (C - p)) a) (-1)
          (by rw [BUF_SIZE_eq]; omega) (by rw [BUF_SIZE_eq]; omega)
          (by rw [BUF_SIZE_eq]; omega) (Or.inr rfl)
        simpa only [draining] using this
      · have hpc : p = C := le_antisymm hp hge
        subst hpc
        rw [drained_out_cap p fd1 a ha hC]
        simp only [draining, gt_iff_lt, lt_self_iff_false, if_false]
        refine ⟨_, _, rfl, rfl, rfl, ?_, ?_, ?_, rfl, rfl⟩ <;>
        · simp only
          rw [BUF_SIZE_eq] at *
          omega


/-- The drain loop after a reap that found `N` bytes of stdout and no stderr in the pipes
of a run with cap `C`: it ends within `N + 2` iterations with `min N C` bytes in the sink
and `min N (C + BUF_SIZE)` bytes counted in `data_read[1]`; the truncation string is
`stdout` exactly when `N > C`. The count is `N` exactly when `N <= C + BUF_SIZE`. -/
theorem drain_loop_reaped (C N : Nat) (us : Bool) (fd1 fd2 : Int)
    (hC : C + BUF_SIZE < SIZE_MOD) (h1 : 0 ≤ fd1) (h2 : 0 ≤ fd2) :
    ∃ s q, drain_loop (N + 2) (reaped C us fd1 fd2) ⟨N, 0, true, true⟩ = .ok (s, q) ∧
      s.out.data_read = min N (C + BUF_SIZE) ∧ s.out.data_passed = min N C ∧
      s.out.sink = min N C ∧
      (output_truncated s = "stdout" ↔ C < N) ∧
      (s.out.data_read = N ↔ N ≤ C + BUF_SIZE) := by
  obtain ⟨s, q, hrun, -, -, hr, hp, hs, er, ep⟩ :=
    drain_loop_draining C N us fd1 hC h1 (N + 2) N 0 fd2 (by omega) (by omega)
      (le_refl _) (Or.inl h2)
  refine ⟨s, q, hrun, hr, hp, hs, ?_, ?_⟩
  · rw [output_truncated_cases, hr, hp, er, ep]
    rw [BUF_SIZE_eq]
    by_cases h : C < N
    · have : min N C < min N (C + 4096) := by omega
      simp only [this, h, if_true, lt_self_iff_false, if_false]
    · have : ¬ (min N C < min N (C + 4096)) := by omega
      simp only [this, h, if_false, lt_self_iff_false, iff_false]
      decide
  · rw [hr]
    omega

/-! ## Lemmas and claims on the option loop -/

theorem process_option_timetype (sys : Sys) (o o1 : Options) (opt : Opt)
    (h : process_option sys o opt = .ok o1) :
    o1.outputtimetype =
      if opt.is_walltime then WALL_TIME_TYPE
      else if opt.is_cputime then CPU_TIME_TYPE else o.outputtimetype := by
  cases opt <;> simp only [process_option] at h <;> (try split at h) <;>
    (try split_ifs at h) <;>
    first
    | (injection h with h; subst h; rfl)
    | cases h

theorem last_time_option_cons (opt : Opt) (opts : List Opt) :
    last_time_option (opt :: opts) =
      match last_time_option opts with
      | some x => some x
      | none => if opt.is_walltime || opt.is_cputime then some opt else none := by
  unfold last_time_option
  simp only [List.filter_cons]
  generalize List.filter (fun opt => opt.is_walltime || opt.is_cputime) opts = l
  by_cases hc : (opt.is_walltime || opt.is_cputime) = true
  · simp only [hc, if_true]
    cases l with
    | nil => rfl
    | cons b l =>
      rw [List.getLast?_cons_cons]
      cases h : (b :: l).getLast? with
      | none => simp at h
      | some x => rfl
  · have hc2 : (opt.is_walltime || opt.is_cputime) = false := by simpa using hc
    simp only [hc2, Bool.false_eq_true, if_false]
    cases h : l.getLast? with
    | none => rfl
    | some x => rfl

theorem parse_options_timetype (sys : Sys) (opts : List Opt) (o o1 : Options)
    (h : parse_options sys o opts = .ok o1) :
    o1.outputtimetype =
      match last_time_option opts with
      | some opt => if opt.is_walltime then WALL_TIME_TYPE else CPU_TIME_TYPE
      | none => o.outputtimetype := by
  induction opts generalizing o with
  | nil => simp [parse_options] at h; subst h; rfl
  | cons opt opts ih =>
    simp only [parse_options] at h
    split at h
    · cases h
    · rename_i o2 hstep
      have h1 := process_option_timetype sys o o2 opt hstep
      have h2 := ih o2 h
      rw [h2, last_time_option_cons]
      cases hl : last_time_option opts with
      | some x => rfl
      | none =>
        simp only [h1]
        by_cases hw : opt.is_walltime = true
        · simp [hw]
        · by_cases hc : opt.is_cputime = true
          · simp [hw, hc]
          · simp [hw, hc]

theorem written_time_used (g g1 : Globals) (exitcode : Int) (cpudiff : ℚ) (str : String)
    (h : g1.metafile = g.metafile) :
    written "time-used" g (with_lines g1 (exit_time_lines g exitcode cpudiff str)) =
      [.s (if g.outputtimetype = WALL_TIME_TYPE then "wall-time" else "cpu-time")] := by
  rw [written_with_lines _ _ _ _ h]
  unfold exit_time_lines
  split_ifs <;> simp

/-- Claim C11: on a command line that the option loop accepts, the `time-used` line that
`output_exit_time` writes is `wall-time` if and only if the last of the `-t` and `-C`
options is a `-t`; in every other case, among them a command line with neither option,
it is `cpu-time`. -/
theorem time_used_last_option (sys : Sys) (opts : List Opt) (o : Options) (g : Globals)
    (exitcode : Int) (cpudiff : ℚ)
    (hp : parse_options sys Options.start opts = .ok o)
    (hg : g.outputtimetype = o.outputtimetype)
    (hm : g.outputmeta = true) (hw : g.metafile_writable = true)
    (hwr : g.walllimit_reached < 4) (hcr : g.cpulimit_reached < 4) :
    ∃ g1, output_exit_time g exitcode cpudiff = .ok g1 ∧
      (written "time-used" g g1 = [.s "wall-time"] ↔
        (last_time_option opts).map Opt.is_walltime = some true) ∧
      (written "time-used" g g1 = [.s "cpu-time"] ↔
        (last_time_option opts).map Opt.is_walltime ≠ some true) ∧
      (last_time_option opts = none → written "time-used" g g1 = [.s "cpu-time"]) := by
  have ht := parse_options_timetype sys opts Options.start o hp
  rw [← hg] at ht
  have hcw : CPU_TIME_TYPE ≠ WALL_TIME_TYPE := by decide
  have key : g.outputtimetype = WALL_TIME_TYPE ↔
      (last_time_option opts).map Opt.is_walltime = some true := by
    rw [ht]
    cases hl : last_time_option opts with
    | none => simp [Options.start, hcw]
    | some x =>
      by_cases hx : x.is_walltime = true
      · simp [hx]
      · simp [hx, hcw]
  have htype : g.outputtimetype = WALL_TIME_TYPE ∨ g.outputtimetype = CPU_TIME_TYPE := by
    rw [ht]
    cases hl : last_time_option opts with
    | none => right; rfl
    | some x =>
      by_cases hx : x.is_walltime = true
      · left; simp [hx]
      · right; simp [hx]
  obtain ⟨str, hs⟩ := timelimit_str_exists g cpudiff hwr hcr
  obtain ⟨-, -, -, f3, -⟩ := soft_checks_frame g cpudiff
  refine ⟨_, output_exit_time_ok g exitcode cpudiff str hm hw htype hs, ?_, ?_, ?_⟩
  · rw [written_time_used g _ exitcode cpudiff str f3, ← key]
    by_cases hx : g.outputtimetype = WALL_TIME_TYPE
    · simp [hx]
    · simp [hx]
  · rw [written_time_used g _ exitcode cpudiff str f3, Ne, ← key]
    by_cases hx : g.outputtimetype = WALL_TIME_TYPE
    · simp [hx]
    · simp [hx]
  · intro hn
    rw [written_time_used g _ exitcode cpudiff str f3]
    have : ¬ g.outputtimetype = WALL_TIME_TYPE := by
      rw [key, hn]; simp
    simp [this]


theorem time_used_last_option_witness :
    parse_options sample_sys Options.start [.cputime "5", .walltime "2:3"] =
      .ok sample_options ∧
    ∃ g1, output_exit_time wall_only_run 7 0 = .ok g1 ∧
      written "time-used" wall_only_run g1 = [.s "wall-time"] := by
  have hp : parse_options sample_sys Options.start [.cputime "5", .walltime "2:3"] =
      .ok sample_options := by
    decide
  obtain ⟨g1, h1, h2, -⟩ := time_used_last_option sample_sys
    [.cputime "5", .walltime "2:3"] sample_options wall_only_run 7 0 hp rfl rfl rfl
    (by decide) (by decide)
  exact ⟨hp, g1, h1, h2.mpr (by decide)⟩

theorem read_optarg_int_ok (optarg : List Char) (minval maxval k : Int)
    (h : read_optarg_int optarg minval maxval = .ok k) :
    k = (strtol optarg).value ∧ (strtol optarg).erange = false ∧
      (strtol optarg).rest = [] ∧ minval ≤ k ∧ k ≤ maxval := by
  unfold read_optarg_int at h
  dsimp only at h
  split_ifs at h with hc
  injection h with h
  subst h
  simp only [Bool.or_eq_true, Bool.not_eq_true', decide_eq_true_eq, not_or, not_lt,
    Bool.not_eq_true, List.isEmpty_eq_false, not_not, ← List.isEmpty_iff] at hc
  obtain ⟨⟨⟨h1, h2⟩, h3⟩, h4⟩ := hc
  refine ⟨rfl, h1, ?_, h3, h4⟩
  simpa using h2

theorem kb_to_rlim_eq (k : Int) (h1 : 1 ≤ k) (h2 : k ≤ 2 ^ 63 - 1) :
    (k * 1024 < 2 ^ 64 → (kb_to_rlim k : Int) = k * 1024 ∧ kb_to_rlim k ≠ RLIM_INFINITY) ∧
    (2 ^ 64 ≤ k * 1024 → kb_to_rlim k = RLIM_INFINITY) := by
  obtain ⟨n, rfl⟩ : ∃ n : Nat, k = n := ⟨k.toNat, by omega⟩
  have hn : to_rlim (n : Int) = n := by
    unfold to_rlim
    omega
  unfold kb_to_rlim
  simp only [hn, RLIM_MOD, RLIM_INFINITY]
  constructor
  · intro h
    have : ¬ (n ≠ n * 1024 % 2 ^ 64 / 1024) := by omega
    simp only [this, if_false]
    omega
  · intro h
    have : n ≠ n * 1024 % 2 ^ 64 / 1024 := by omega
    rw [if_pos this]

/-- Claim C13: when `read_optarg_int` accepts the argument of `-m` or `-f` with the value
`k`, then `1 <= k <= 2^63 - 1`, both options store the same limit, and with the 64-bit
`rlim_t` the stored limit is `k * 1024` when `k * 1024 < 2^64` and `RLIM_INFINITY`
otherwise; a limit that does not overflow differs from `RLIM_INFINITY`. -/
theorem kb_limit_stored (sys : Sys) (o : Options) (optarg : String) (k : Int)
    (h : read_optarg_int optarg.data 1 LONG_MAX = .ok k) :
    1 ≤ k ∧ k ≤ 2 ^ 63 - 1 ∧
    (∃ o1 o2, process_option sys o (.memsize optarg) = .ok o1 ∧
      process_option sys o (.filesize optarg) = .ok o2 ∧
      o1.memsize = kb_to_rlim k ∧ o2.filesize = kb_to_rlim k) ∧
    (k * 1024 < 2 ^ 64 → (kb_to_rlim k : Int) = k * 1024 ∧ kb_to_rlim k ≠ RLIM_INFINITY) ∧
    (2 ^ 64 ≤ k * 1024 → kb_to_rlim k = RLIM_INFINITY) := by
  obtain ⟨-, -, -, h1, h2⟩ := read_optarg_int_ok _ _ _ _ h
  have h3 : k ≤ 2 ^ 63 - 1 := h2
  refine ⟨h1, h3, ⟨{ o with memsize := kb_to_rlim k }, { o with filesize := kb_to_rlim k },
    ?_, ?_, rfl, rfl⟩, kb_to_rlim_eq k h1 h3⟩
  · simp only [process_option, h]
  · simp only [process_option, h]

theorem kb_limit_stored_witness :
    read_optarg_int "16384".data 1 LONG_MAX = .ok 16384 ∧
    (kb_to_rlim 16384 : Int) = 16384 * 1024 ∧
    kb_to_rlim (2 ^ 54) = RLIM_INFINITY := by
  have h : read_optarg_int "16384".data 1 LONG_MAX = .ok 16384 := by decide
  have h2 : read_optarg_int "18014398509481984".data 1 LONG_MAX = .ok (2 ^ 54) := by decide
  exact ⟨h, ((kb_limit_stored sample_sys Options.start "16384" 16384 h).2.2.2.1
      (by norm_num)).1,
    (kb_limit_stored sample_sys Options.start "18014398509481984" (2 ^ 54) h2).2.2.2.2
      (by norm_num)⟩


/-! ## Lemmas and claims on `read_optarg_time` -/

theorem takeWhile_ne_append (c : Char) (pre post : List Char) (h : c ∉ pre) :
    (pre ++ c :: post).takeWhile (fun x => x != c) = pre ∧
    (pre ++ c :: post).dropWhile (fun x => x != c) = c :: post := by
  induction pre with
  | nil => simp
  | cons a pre ih =>
    have ha : a ≠ c := fun e => h (by simp [e])
    have hp : c ∉ pre := fun e => h (by simp [e])
    obtain ⟨i1, i2⟩ := ih hp
    simp only [List.cons_append, List.takeWhile_cons, List.dropWhile_cons, bne_iff_ne, ne_eq,
      ha, not_false_eq_true, if_true, i1, i2, and_self]

theorem takeWhile_ne_all (c : Char) (s : List Char) (h : c ∉ s) :
    s.takeWhile (fun x => x != c) = s ∧ s.dropWhile (fun x => x != c) = [] := by
  induction s with
  | nil => simp
  | cons a s ih =>
    have ha : a ≠ c := fun e => h (by simp [e])
    have hp : c ∉ s := fun e => h (by simp [e])
    obtain ⟨i1, i2⟩ := ih hp
    simp only [List.takeWhile_cons, List.dropWhile_cons, bne_iff_ne, ne_eq,
      ha, not_false_eq_true, if_true, i1, i2, and_self]

theorem split_first (c : Char) (s : List Char) :
    c ∉ s ∨ ∃ pre post, c ∉ pre ∧ s = pre ++ c :: post := by
  induction s with
  | nil => left; simp
  | cons a s ih =>
    by_cases ha : a = c
    · right
      exact ⟨[], s, by simp, by simp [ha]⟩
    · rcases ih with h | ⟨pre, post, h1, h2⟩
      · left
        simp only [List.mem_cons, not_or]
        exact ⟨fun e => ha e.symm, h⟩
      · right
        refine ⟨a :: pre, post, ?_, by simp [h2]⟩
        simp only [List.mem_cons, not_or]
        exact ⟨fun e => ha e.symm, h1⟩

/-- What `read_optarg_time` accepts as one part of its argument: `strtod` reads all of
the string without setting `errno`, and the value is finite and positive. -/
theorem part_accepted_iff (r : StrtodResult) :
    (r.erange || !r.rest.isEmpty || !r.value.finite || r.value.le_zero) = false ↔
      r.erange = false ∧ r.rest = [] ∧ ∃ v : ℚ, r.value = .fin v ∧ 0 < v := by
  rcases r with ⟨value, rest, erange⟩
  cases value with
  | fin q =>
    cases erange <;> cases rest <;> simp [Double.finite, Double.le_zero]
  | inf n => cases erange <;> cases rest <;> simp [Double.finite, Double.le_zero]
  | nan => cases erange <;> cases rest <;> simp [Double.finite, Double.le_zero]

theorem read_optarg_time_no_colon (sd : List Char → StrtodResult) (s : List Char)
    (h : ':' ∉ s) :
    read_optarg_time sd s =
      if (sd s).erange || !(sd s).rest.isEmpty || !(sd s).value.finite ||
        (sd s).value.le_zero
      then .error "invalid time specified"
      else .ok ((sd s).value.toRat, (sd s).value.toRat) := by
  obtain ⟨h1, h2⟩ := takeWhile_ne_all ':' s h
  unfold read_optarg_time
  simp only [h1, h2]

theorem read_optarg_time_colon (sd : List Char → StrtodResult) (pre hard : List Char)
    (h : ':' ∉ pre) :
    read_optarg_time sd (pre ++ ':' :: hard) =
      if (sd pre).erange || !(sd pre).rest.isEmpty || !(sd pre).value.finite ||
        (sd pre).value.le_zero
      then .error "invalid time specified"
      else if (sd hard).erange || hard.isEmpty || !(sd hard).rest.isEmpty ||
        !(sd hard).value.finite || (sd hard).value.le_zero
      then .error "invalid time specified"
      else if (sd hard).value.lt (sd pre).value
      then .error "invalid time specified: hard limit is lower than soft limit"
      else .ok ((sd pre).value.toRat, (sd hard).value.toRat) := by
  obtain ⟨h1, h2⟩ := takeWhile_ne_append ':' pre hard h
  unfold read_optarg_time
  simp only [h1, h2]

theorem split_unique (c : Char) (pre pre0 post post0 : List Char) (h : c ∉ pre)
    (h0 : c ∉ pre0) (e : pre ++ c :: post = pre0 ++ c :: post0) :
    pre = pre0 ∧ post = post0 := by
  obtain ⟨a1, a2⟩ := takeWhile_ne_append c pre post h
  obtain ⟨b1, b2⟩ := takeWhile_ne_append c pre0 post0 h0
  rw [e] at a1 a2
  rw [a1] at b1
  rw [a2] at b2
  exact ⟨b1, by simpa using b2⟩

theorem read_optarg_time_ok_no_colon (sd : List Char → StrtodResult) (s : List Char)
    (h : ':' ∉ s) (soft hard : ℚ) (hr : read_optarg_time sd s = .ok (soft, hard)) :
    (sd s).erange = false ∧ (sd s).rest = [] ∧ (sd s).value = .fin soft ∧ 0 < soft ∧
      hard = soft := by
  rw [read_optarg_time_no_colon sd s h] at hr
  split_ifs at hr with hc
  have hc2 := (part_accepted_iff (sd s)).mp (by simpa using hc)
  obtain ⟨e1, e2, v, e3, e4⟩ := hc2
  rw [e3] at hr
  simp only [Double.toRat, Except.ok.injEq, Prod.mk.injEq] at hr
  obtain ⟨rfl, rfl⟩ := hr
  exact ⟨e1, e2, e3, e4, rfl⟩

theorem read_optarg_time_ok_colon (sd : List Char → StrtodResult) (pre hp : List Char)
    (h : ':' ∉ pre) (soft hard : ℚ)
    (hr : read_optarg_time sd (pre ++ ':' :: hp) = .ok (soft, hard)) :
    (sd pre).erange = false ∧ (sd pre).rest = [] ∧ (sd pre).value = .fin soft ∧ 0 < soft ∧
    (sd hp).erange = false ∧ (sd hp).rest = [] ∧ (sd hp).value = .fin hard ∧ hp ≠ [] ∧
    soft ≤ hard := by
  rw [read_optarg_time_colon sd pre hp h] at hr
  split_ifs at hr with hc hd hl
  have hc2 := (part_accepted_iff (sd pre)).mp (by simpa using hc)
  obtain ⟨e1, e2, v, e3, e4⟩ := hc2
  have hne : hp.isEmpty = false := by
    cases hh : hp.isEmpty
    · rfl
    · simp [hh] at hd
  have hd2 := (part_accepted_iff (sd hp)).mp (by
    simp only [hne, Bool.or_false] at hd
    simpa using hd)
  obtain ⟨f1, f2, w, f3, f4⟩ := hd2
  rw [e3, f3] at hr hl
  simp only [Double.toRat, Except.ok.injEq, Prod.mk.injEq] at hr
  obtain ⟨rfl, rfl⟩ := hr
  simp only [Double.lt, Bool.not_eq_true, decide_eq_false_iff_not, not_lt] at hl
  refine ⟨e1, e2, e3, e4, f1, f2, f3, ?_, hl⟩
  intro e
  simp [e] at hne

/-- Claim C12: for a `strtod` that returns 0 when it converts nothing and never reads
past a `:`, and for every argument string: `read_optarg_time` is defined on it, and when
it returns limits `(soft, hard)` then `0 < soft <= hard`, both are finite values that
`strtod` read from a whole part of the argument without setting `errno`; without a `:`
in the argument `soft` is the number in it and `hard = soft`; with a `:` the part before
the first one is not empty and holds `soft`, the part after it is not empty, holds no
further `:` and holds `hard`. An argument that ends in `:`, starts with `:` or has a
second `:` is rejected. -/
theorem read_optarg_time_limits (sd : List Char → StrtodResult)
    (hzero : (sd []).value = .fin 0)
    (hused : ∀ s, ∃ used, s = used ++ (sd s).rest ∧ ':' ∉ used) (optarg : List Char) :
    ((∃ e, read_optarg_time sd optarg = .error e) ∨
      ∃ soft hard, read_optarg_time sd optarg = .ok (soft, hard)) ∧
    (∀ soft hard, read_optarg_time sd optarg = .ok (soft, hard) →
      0 < soft ∧ soft ≤ hard ∧
      (':' ∉ optarg →
        (sd optarg).value = .fin soft ∧ (sd optarg).rest = [] ∧
        (sd optarg).erange = false ∧ hard = soft) ∧
      (∀ pre hp, ':' ∉ pre → optarg = pre ++ ':' :: hp →
        (sd pre).value = .fin soft ∧ (sd pre).rest = [] ∧ (sd pre).erange = false ∧
        (sd hp).value = .fin hard ∧ (sd hp).rest = [] ∧ (sd hp).erange = false ∧
        pre ≠ [] ∧ hp ≠ [] ∧ ':' ∉ hp)) ∧
    (∀ a b c, optarg = a ++ [':'] ∨ optarg = ':' :: b ∨
        optarg = a ++ ':' :: b ++ ':' :: c →
      ∃ e, read_optarg_time sd optarg = .error e) := by
  have total : (∃ e, read_optarg_time sd optarg = .error e) ∨
      ∃ soft hard, read_optarg_time sd optarg = .ok (soft, hard) := by
    cases hr : read_optarg_time sd optarg with
    | error e => exact Or.inl ⟨e, rfl⟩
    | ok p => exact Or.inr ⟨p.1, p.2, rfl⟩
  have main : ∀ soft hard, read_optarg_time sd optarg = .ok (soft, hard) →
      0 < soft ∧ soft ≤ hard ∧
      (':' ∉ optarg →
        (sd optarg).value = .fin soft ∧ (sd optarg).rest = [] ∧
        (sd optarg).erange = false ∧ hard = soft) ∧
      (∀ pre hp, ':' ∉ pre → optarg = pre ++ ':' :: hp →
        (sd pre).value = .fin soft ∧ (sd pre).rest = [] ∧ (sd pre).erange = false ∧
        (sd hp).value = .fin hard ∧ (sd hp).rest = [] ∧ (sd hp).erange = false ∧
        pre ≠ [] ∧ hp ≠ [] ∧ ':' ∉ hp) := by
    intro soft hard hr
    rcases split_first ':' optarg with hn | ⟨pre0, hp0, hn, rfl⟩
    · obtain ⟨e1, e2, e3, e4, e5⟩ := read_optarg_time_ok_no_colon sd optarg hn soft hard hr
      refine ⟨e4, by rw [e5], fun _ => ⟨e3, e2, e1, e5⟩, ?_⟩
      intro pre hp _ e
      exact absurd (by rw [e]; simp) hn
    · obtain ⟨e1, e2, e3, e4, f1, f2, f3, f4, f5⟩ :=
        read_optarg_time_ok_colon sd pre0 hp0 hn soft hard hr
      refine ⟨e4, f5, fun hc => absurd (by simp) hc, ?_⟩
      intro pre hp hpre e
      obtain ⟨rfl, rfl⟩ := split_unique ':' pre pre0 hp hp0 hpre hn e.symm
      refine ⟨e3, e2, e1, f3, f2, f1, ?_, f4, ?_⟩
      · intro e0
        rw [e0, hzero] at e3
        injection e3 with e3
        rw [← e3] at e4
        exact lt_irrefl _ e4
      · obtain ⟨used, u1, u2⟩ := hused hp
        rw [f2, List.append_nil] at u1
        rw [u1]
        exact u2
  refine ⟨total, main, ?_⟩
  intro a b c hform
  rcases total with he | ⟨soft, hard, hr⟩
  · exact he
  · exfalso
    obtain ⟨-, -, -, hsplit⟩ := main soft hard hr
    rcases hform with e | e | e
    · rcases split_first ':' a with ha | ⟨pre, post, hpre, rfl⟩
      · exact (hsplit a [] ha e).2.2.2.2.2.2.2.1 rfl
      · have := (hsplit pre (post ++ [':']) hpre (by simp [e])).2.2.2.2.2.2.2.2
        exact this (by simp)
    · exact (hsplit [] b (by simp) (by simp [e])).2.2.2.2.2.2.1 rfl
    · rcases split_first ':' a with ha | ⟨pre, post, hpre, rfl⟩
      · have := (hsplit a (b ++ ':' :: c) ha (by simp [e])).2.2.2.2.2.2.2.2
        exact this (by simp)
      · have := (hsplit pre (post ++ ':' :: b ++ ':' :: c) hpre (by simp [e])).2.2.2.2.2.2.2.2
        exact this (by simp)

theorem read_digits_used (s : List Char) (acc : Nat) :
    ∃ used, s = used ++ (read_digits s acc).2 ∧ ∀ c ∈ used, isdigit c = true := by
  induction s generalizing acc with
  | nil => exact ⟨[], rfl, by simp⟩
  | cons a s ih =>
    unfold read_digits
    by_cases ha : isdigit a = true
    · simp only [ha, if_true]
      obtain ⟨used, h1, h2⟩ := ih (10 * acc + (a.toNat - 48))
      refine ⟨a :: used, by rw [List.cons_append, ← h1], ?_⟩
      intro c hc
      rcases List.mem_cons.mp hc with rfl | hc
      · exact ha
      · exact h2 c hc
    · simp only [ha, if_false]
      exact ⟨[], rfl, by simp⟩

theorem strtod_digits_used (s : List Char) :
    ∃ used, s = used ++ (strtod_digits s).rest ∧ ':' ∉ used := by
  unfold strtod_digits
  split_ifs
  · obtain ⟨used, h1, h2⟩ := read_digits_used s 0
    refine ⟨used, h1, fun hc => ?_⟩
    have := h2 ':' hc
    revert this
    decide
  · exact ⟨[], rfl, by simp⟩

theorem read_optarg_time_limits_witness :
    read_optarg_time strtod_digits "2:3".data = .ok (2, 3) ∧ (0 : ℚ) < 2 ∧ (2 : ℚ) ≤ 3 ∧
    (∃ e, read_optarg_time strtod_digits "1:".data = .error e) ∧
    (∃ e, read_optarg_time strtod_digits ":2".data = .error e) ∧
    (∃ e, read_optarg_time strtod_digits "1:2:3".data = .error e) := by
  have hz : (strtod_digits []).value = .fin 0 := by decide
  have acc : read_optarg_time strtod_digits "2:3".data = .ok (2, 3) := by decide
  have h := (read_optarg_time_limits strtod_digits hz strtod_digits_used "2:3".data).2.1
    2 3 acc
  exact ⟨acc, h.1, h.2.1,
    (read_optarg_time_limits strtod_digits hz strtod_digits_used "1:".data).2.2
      "1".data [] [] (Or.inl rfl),
    (read_optarg_time_limits strtod_digits hz strtod_digits_used ":2".data).2.2
      [] "2".data [] (Or.inr (Or.inl rfl)),
    (read_optarg_time_limits strtod_digits hz strtod_digits_used "1:2:3".data).2.2
      "1".data "2".data "3".data (Or.inr (Or.inr rfl))⟩



/-! ## Lemmas and claims on the run user and group -/

theorem process_option_user_group (sys : Sys) (o o1 : Options) (opt : Opt)
    (h : process_option sys o opt = .ok o1) :
    o1.use_user = (o.use_user || opt.is_user) ∧
    o1.use_group = (o.use_group || opt.is_group) ∧
    ((o1.runuser = o.runuser ∧ opt.is_user = false) ∨
      ∃ a, opt = .user a ∧ o1.runuser = some a) := by
  cases opt <;> simp only [process_option] at h <;> (try split at h) <;>
    (try split_ifs at h) <;>
    first
    | (injection h with h; subst h; simp [Opt.is_user, Opt.is_group])
    | cases h

theorem parse_options_user_group (sys : Sys) (opts : List Opt) (o o1 : Options)
    (h : parse_options sys o opts = .ok o1) :
    o1.use_user = (o.use_user || opts.any Opt.is_user) ∧
    o1.use_group = (o.use_group || opts.any Opt.is_group) ∧
    ((o1.runuser = o.runuser ∧ opts.any Opt.is_user = false) ∨
      ∃ a, Opt.user a ∈ opts ∧ o1.runuser = some a) := by
  induction opts generalizing o with
  | nil => simp [parse_options] at h; subst h; simp
  | cons opt opts ih =>
    simp only [parse_options] at h
    split at h
    · cases h
    · rename_i o2 hstep
      obtain ⟨a1, a2, a3⟩ := process_option_user_group sys o o2 opt hstep
      obtain ⟨b1, b2, b3⟩ := ih o2 h
      refine ⟨?_, ?_, ?_⟩
      · rw [b1, a1, List.any_cons, Bool.or_assoc]
      · rw [b2, a2, List.any_cons, Bool.or_assoc]
      · rcases b3 with ⟨c1, c2⟩ | ⟨a, c1, c2⟩
        · rcases a3 with ⟨d1, d2⟩ | ⟨a, d1, d2⟩
          · left
            exact ⟨by rw [c1, d1], by rw [List.any_cons, c2, d2]; rfl⟩
          · right
            exact ⟨a, by rw [d1]; simp, by rw [c1, d2]⟩
        · right
          exact ⟨a, by simp [c1], c2⟩

/-- Claim C14, as the code has it: on a command line with a `-u` and without a `-g` that
the option loop accepts, the run user string is the argument `name` of a `-u`, and the
block after the loop either is a fatal error, which it is exactly when the group
database has no group named `name` or the gid of that group is negative as an `int`, or
sets `use_group` and makes `rungid` the gid of the group named `name`. The user
database is not consulted. -/
theorem default_group_by_name (sys : Sys) (opts : List Opt) (o0 : Options)
    (hp : parse_options sys Options.start opts = .ok o0)
    (hu : opts.any Opt.is_user = true) (hg : opts.any Opt.is_group = false) :
    ∃ name, Opt.user name ∈ opts ∧ o0.runuser = some name ∧
      (((∃ e, default_group sys o0 = .error e) ∧ groupid sys name < 0 ∧
          ∀ grp, getgrnam sys name = some grp → to_int grp.gr_gid < 0) ∨
        ∃ o grp, default_group sys o0 = .ok o ∧ o.use_group = true ∧
          getgrnam sys name = some grp ∧ o.rungid = to_int grp.gr_gid ∧
          0 ≤ o.rungid ∧ o.runuid = o0.runuid ∧ o.use_user = true) := by
  obtain ⟨a1, a2, a3⟩ := parse_options_user_group sys opts Options.start o0 hp
  rw [hu] at a1
  rw [hg] at a2
  have h1 : o0.use_user = true := by rw [a1]; rfl
  have h2 : o0.use_group = false := by rw [a2]; rfl
  rcases a3 with ⟨-, c⟩ | ⟨name, c1, c2⟩
  · rw [hu] at c
    cases c
  · refine ⟨name, c1, c2, ?_⟩
    unfold default_group
    simp only [h1, h2, c2, Bool.not_false, Bool.and_self, if_true]
    by_cases hneg : groupid sys name < 0
    · left
      simp only [hneg, if_true]
      refine ⟨⟨_, rfl⟩, trivial, ?_⟩
      intro grp hgrp
      unfold groupid at hneg
      rw [hgrp] at hneg
      exact hneg
    · right
      simp only [hneg, if_false]
      cases hgrp : getgrnam sys name with
      | none =>
        unfold groupid at hneg
        rw [hgrp] at hneg
        exact absurd (by decide) hneg
      | some grp =>
        have hid : groupid sys name = to_int grp.gr_gid := by
          unfold groupid
          rw [hgrp]
        exact ⟨_, grp, rfl, rfl, rfl, hid, by simpa using (not_lt.mp hneg), rfl, rfl⟩

theorem default_group_by_name_witness :
    parse_options sample_sys Options.start [.user "alice"] = .ok sample_user_options ∧
    ∃ name, Opt.user name ∈ [Opt.user "alice"] ∧ sample_user_options.runuser = some name ∧
      (((∃ e, default_group sample_sys sample_user_options = .error e) ∧
          groupid sample_sys name < 0 ∧
          ∀ grp, getgrnam sample_sys name = some grp → to_int grp.gr_gid < 0) ∨
        ∃ o grp, default_group sample_sys sample_user_options = .ok o ∧
          o.use_group = true ∧ getgrnam sample_sys name = some grp ∧
          o.rungid = to_int grp.gr_gid ∧ 0 ≤ o.rungid ∧
          o.runuid = sample_user_options.runuid ∧ o.use_user = true) :=
  ⟨by decide, default_group_by_name sample_sys [.user "alice"] sample_user_options
    (by decide) (by decide) (by decide)⟩

/-- The run `-u alice` on `sample_sys`: the user `alice` has the uid 1000 and the primary
group 100, and the run gets the gid 1001 of the group named `alice`. -/
theorem default_group_counterexample :
    ∃ o0 o, parse_options sample_sys Options.start [.user "alice"] = .ok o0 ∧
      default_group sample_sys o0 = .ok o ∧ o.use_group = true ∧ o.runuid = 1000 ∧
      primary_gid sample_sys o.runuid = some 100 ∧ o.rungid = 1001 :=
  ⟨sample_user_options,
   { sample_user_options with use_group := true, rungroup := some "alice", rungid := 1001 },
   by decide, by decide, by decide, by decide, by decide, by decide⟩



/-! ## Lemmas and claims on the privileges of the child -/

theorem check_valid_user_ok (sys : Sys) (o : Options)
    (h : check_valid_user sys o = .ok ()) (hu : o.use_user = true) : 0 < o.runuid := by
  unfold check_valid_user at h
  simp only [hu, if_true] at h
  split at h
  · cases h
  · split_ifs at h with hc
    simp only [Bool.or_eq_true, Bool.not_eq_true', decide_eq_true_eq, not_or, not_le] at hc
    exact hc.2

theorem main_start_ok (sys : Sys) (opts : List Opt) (have_command fopen_ok writable : Bool)
    (o : Options) (h : main_start sys opts have_command fopen_ok writable = .ok o) :
    ∃ o0, parse_options sys Options.start opts = .ok o0 ∧ default_group sys o0 = .ok o ∧
      check_valid_user sys o = .ok () ∧ check_cpuset o.cpuset sys.nprocs_conf = .ok () ∧
      have_command = true ∧ (o.outputmeta = true → fopen_ok = true) := by
  unfold main_start at h
  split at h
  · cases h
  · rename_i o0 hp
    split at h
    · cases h
    · rename_i o1 hd
      dsimp only at h
      split_ifs at h with h1 h2 h3 <;>
      · split at h
        · cases h
        · rename_i hv
          split at h
          · cases h
          · rename_i hcs
            injection h with h
            subst h
            refine ⟨o0, hp, hd, hv, hcs, by simpa using h2, ?_⟩
            intro hm
            simpa [hm] using h3

theorem drop_privileges_ok (k : Kernel) (o : Options) (c c3 : Cred)
    (h : drop_privileges k o c = .ok c3) :
    ∃ c2, set_group_id k o c = .ok c2 ∧ set_user_id k o c2 = .ok c3 ∧
      c3.euid ≠ 0 ∧ c3.ruid ≠ 0 := by
  unfold drop_privileges at h
  split at h
  · cases h
  · rename_i c2 hg
    split at h
    · cases h
    · rename_i c3 hu
      split_ifs at h with hz
      injection h with h
      subst h
      exact ⟨c2, hg, hu, fun e => hz (Or.inl e), fun e => hz (Or.inr e)⟩

theorem setrestrictions_ok (k : Kernel) (o : Options) (middle_ok : Bool) (st st1 : Child)
    (h : setrestrictions k o middle_ok st = .ok st1) :
    drop_privileges k o st.cred = .ok st1.cred ∧
    st1.environ = set_environment o.preserve_environment o.environment_variables st.environ := by
  unfold setrestrictions at h
  dsimp only at h
  split_ifs at h
  split at h
  · cases h
  · rename_i c hc
    injection h with h
    subst h
    exact ⟨hc, rfl⟩

theorem child_until_exec_ok (k : Kernel) (o : Options) (middle_ok redirect_ok : Bool)
    (st st1 : Child) (h : child_until_exec k o middle_ok redirect_ok st = .ok st1) :
    setrestrictions k o middle_ok st = .ok st1 := by
  unfold child_until_exec at h
  split at h
  · cases h
  · rename_i st2 hs
    split_ifs at h
    injection h with h
    subst h
    exact hs

/-- Claim C15: for every behaviour of `setgid`, `setgroups` and `setuid`:
`setrestrictions` returns only with the credentials that the group and the user block
left, and only when their effective and real uid are both non-zero; when one of them is
zero after the two blocks, `setrestrictions` is a fatal error and the child does not get
to `execvp`; and `main` gets past its start with `use_user` set only when
`runuid > 0`. -/
theorem root_never_executes (k : Kernel) (sys : Sys) (opts : List Opt)
    (have_command fopen_ok writable middle_ok redirect_ok : Bool) (o : Options) (st : Child)
    (hstart : main_start sys opts have_command fopen_ok writable = .ok o) :
    (o.use_user = true → 0 < o.runuid) ∧
    (∀ st1, setrestrictions k o middle_ok st = .ok st1 →
      (∃ c2, set_group_id k o st.cred = .ok c2 ∧ set_user_id k o c2 = .ok st1.cred) ∧
      st1.cred.euid ≠ 0 ∧ st1.cred.ruid ≠ 0) ∧
    (∀ c2 c3, set_group_id k o st.cred = .ok c2 → set_user_id k o c2 = .ok c3 →
      c3.euid = 0 ∨ c3.ruid = 0 →
      (∃ e, setrestrictions k o middle_ok st = .error e) ∧
      ∃ e, child_until_exec k o middle_ok redirect_ok st = .error e) ∧
    (∀ st1, child_until_exec k o middle_ok redirect_ok st = .ok st1 →
      st1.cred.euid ≠ 0 ∧ st1.cred.ruid ≠ 0) := by
  obtain ⟨o0, -, -, hv, -, -, -⟩ := main_start_ok sys opts have_command fopen_ok writable o hstart
  have hok : ∀ st1, setrestrictions k o middle_ok st = .ok st1 →
      (∃ c2, set_group_id k o st.cred = .ok c2 ∧ set_user_id k o c2 = .ok st1.cred) ∧
      st1.cred.euid ≠ 0 ∧ st1.cred.ruid ≠ 0 := by
    intro st1 h
    obtain ⟨hd, -⟩ := setrestrictions_ok k o middle_ok st st1 h
    obtain ⟨c2, g1, g2, g3, g4⟩ := drop_privileges_ok k o st.cred st1.cred hd
    exact ⟨⟨c2, g1, g2⟩, g3, g4⟩
  refine ⟨check_valid_user_ok sys o hv, hok, ?_, ?_⟩
  · intro c2 c3 hg hu hz
    have hs : ∃ e, setrestrictions k o middle_ok st = .error e := by
      cases hr : setrestrictions k o middle_ok st with
      | error e => exact ⟨e, rfl⟩
      | ok st1 =>
        exfalso
        obtain ⟨⟨d2, g1, g2⟩, g3, g4⟩ := hok st1 hr
        rw [hg] at g1
        injection g1 with g1
        subst g1
        rw [hu] at g2
        injection g2 with g2
        subst g2
        rcases hz with hz | hz
        · exact g3 hz
        · exact g4 hz
    refine ⟨hs, ?_⟩
    obtain ⟨e, he⟩ := hs
    exact ⟨e, by unfold child_until_exec; rw [he]⟩
  · intro st1 h
    exact (hok st1 (child_until_exec_ok k o middle_ok redirect_ok st st1 h)).2

theorem root_never_executes_witness :
    main_start sample_sys [.user "alice", .group "users"] true true true =
      .ok sample_run_options ∧
    (0 : Int) < sample_run_options.runuid ∧
    (∃ st1, setrestrictions linux_kernel sample_run_options true root_child = .ok st1 ∧
      st1.cred.euid ≠ 0 ∧ st1.cred.ruid ≠ 0) := by
  have hs : main_start sample_sys [.user "alice", .group "users"] true true true =
      .ok sample_run_options := by decide
  have h := root_never_executes linux_kernel sample_sys [.user "alice", .group "users"]
    true true true true true sample_run_options root_child hs
  have hr : setrestrictions linux_kernel sample_run_options true root_child =
      .ok ⟨[], ⟨1000, 1000, 100, 100⟩⟩ := by decide
  exact ⟨hs, h.1 (by decide), _, hr, (h.2.1 _ hr).2⟩



/-! ## Lemmas and claims on the environment of the child -/

theorem getenv_setenv (env : Environ) (name value k : List Char) :
    getenv (setenv env name value) k = if k = name then some value else getenv env k := by
  induction env with
  | nil =>
    by_cases h : k = name
    · simp [setenv, getenv, h]
    · have h2 : ¬ name = k := fun e => h e.symm
      simp [setenv, getenv, h, h2]
  | cons e env ih =>
    obtain ⟨a, b⟩ := e
    unfold setenv
    by_cases ha : a = name
    · subst ha
      simp only [if_true]
      unfold getenv
      by_cases h : k = a
      · simp [h]
      · have h2 : ¬ a = k := fun e => h e.symm
        simp [h, h2]
    · simp only [ha, if_false]
      unfold getenv
      rw [ih]
      by_cases hk : a = k
      · have : ¬ k = name := fun e => ha (hk.trans e)
        simp [hk, this]
      · simp [hk]

theorem setenv_keys (env : Environ) (name value : List Char) :
    (setenv env name value).map Prod.fst =
      if name ∈ env.map Prod.fst then env.map Prod.fst else env.map Prod.fst ++ [name] := by
  induction env with
  | nil => simp [setenv]
  | cons e env ih =>
    obtain ⟨a, b⟩ := e
    unfold setenv
    by_cases ha : a = name
    · simp [ha]
    · have hne : ¬ name = a := fun e => ha e.symm
      simp only [ha, if_false, List.map_cons, ih, List.mem_cons, hne, false_or]
      split_ifs <;> simp

theorem setenv_nodup (env : Environ) (name value : List Char)
    (h : (env.map Prod.fst).Nodup) : ((setenv env name value).map Prod.fst).Nodup := by
  rw [setenv_keys]
  split_ifs with hm
  · exact h
  · rw [List.nodup_append]
    refine ⟨h, by simp, ?_⟩
    intro a ha hb
    simp only [List.mem_singleton] at hb
    subst hb
    exact hm ha

theorem getenv_of_mem (env : Environ) (h : (env.map Prod.fst).Nodup) (name value : List Char)
    (hm : (name, value) ∈ env) : getenv env name = some value := by
  induction env with
  | nil => simp at hm
  | cons e env ih =>
    obtain ⟨a, b⟩ := e
    simp only [List.map_cons, List.nodup_cons] at h
    unfold getenv
    rcases List.mem_cons.mp hm with e | hm
    · injection e with e1 e2
      simp [e1, e2]
    · have hne : ¬ a = name := by
        intro e
        apply h.1
        rw [e]
        exact List.mem_map.mpr ⟨(name, value), hm, rfl⟩
      simp only [hne, if_false]
      exact ih h.2 hm

theorem putenv_assignment (env : Environ) (token : List Char) (h : '=' ∈ token) :
    putenv env token = setenv env (token_name token) (token_value token) := by
  unfold putenv token_name token_value
  simp only [h, if_true]

theorem assigned_cons (name t : List Char) (ts : List (List Char)) :
    assigned name (t :: ts) =
      match assigned name ts with
      | some v => some v
      | none => if token_name t = name then some (token_value t) else none := rfl

theorem foldl_putenv (tokens : List (List Char)) (env : Environ)
    (hform : ∀ token ∈ tokens, '=' ∈ token) :
    (∀ name, getenv (tokens.foldl putenv env) name =
      match assigned name tokens with
      | some v => some v
      | none => getenv env name) ∧
    ((env.map Prod.fst).Nodup → ((tokens.foldl putenv env).map Prod.fst).Nodup) := by
  induction tokens generalizing env with
  | nil => exact ⟨fun _ => rfl, fun h => h⟩
  | cons t ts ih =>
    have ht : '=' ∈ t := hform t (by simp)
    obtain ⟨i1, i2⟩ := ih (putenv env t) (fun x hx => hform x (by simp [hx]))
    rw [List.foldl_cons]
    refine ⟨?_, ?_⟩
    · intro name
      rw [i1 name, assigned_cons]
      cases assigned name ts with
      | some v => rfl
      | none =>
        simp only
        rw [putenv_assignment env t ht, getenv_setenv]
        by_cases hn : token_name t = name
        · simp [hn]
        · have hn2 : ¬ name = token_name t := fun e => hn e.symm
          simp [hn, hn2]
    · intro h
      apply i2
      rw [putenv_assignment env t ht]
      exact setenv_nodup env _ _ h

theorem foldl_variables (vars : List String) (env : Environ) :
    vars.foldl (fun env tokens => (strtok tokens.data ';').foldl putenv env) env =
      (variable_tokens vars).foldl putenv env := by
  unfold variable_tokens
  induction vars generalizing env with
  | nil => rfl
  | cons v vs ih =>
    simp only [List.foldl_cons, List.map_cons, List.flatten_cons, List.foldl_append]
    exact ih _

theorem set_environment_cleared (vars : List String) (environ : Environ)
    (hform : ∀ token ∈ variable_tokens vars, '=' ∈ token) :
    (∀ name, getenv (set_environment false vars environ) name =
      match assigned name (variable_tokens vars) with
      | some v => some v
      | none => if name = "PATH".data then getenv environ "PATH".data else none) ∧
    (∀ name value, (name, value) ∈ set_environment false vars environ →
      getenv (set_environment false vars environ) name = some value) := by
  unfold set_environment
  simp only [Bool.not_false, if_true]
  rw [foldl_variables]
  generalize hc : (match getenv environ "PATH".data with
    | some path => setenv [] "PATH".data path
    | none => ([] : Environ)) = cleared
  have h1 : ∀ name, getenv cleared name =
      if name = "PATH".data then getenv environ "PATH".data else none := by
    intro name
    rw [← hc]
    cases getenv environ "PATH".data with
    | none => simp [getenv]
    | some path => rw [getenv_setenv]; simp [getenv]
  have h2 : (cleared.map Prod.fst).Nodup := by
    rw [← hc]
    cases getenv environ "PATH".data with
    | none => simp
    | some path => simp [setenv]
  obtain ⟨i1, i2⟩ := foldl_putenv (variable_tokens vars) cleared hform
  refine ⟨?_, ?_⟩
  · intro name
    rw [i1 name, h1 name]
  · intro name value hm
    exact getenv_of_mem _ (i2 h2) name value hm

/-- Claim C16, for well-formed strings: for every initial environment and every list of
`-V` strings whose tokens between the `;` all have the form `KEY=VALUE`: when `setrestrictions` returns with
preservation off, the value of every name in the environment is the value of the last
token that assigns to it; for a name that no token assigns to it is the invoker's value
when the name is `PATH` and `PATH` was set, and the name is unset otherwise; and the
environment has no entry besides the ones these look-ups find. -/
theorem environment_after_restrictions (k : Kernel) (o : Options) (middle_ok : Bool)
    (st st1 : Child) (h : setrestrictions k o middle_ok st = .ok st1)
    (hp : o.preserve_environment = false)
    (hform : ∀ token ∈ variable_tokens o.environment_variables, '=' ∈ token) :
    (∀ name, getenv st1.environ name =
      match assigned name (variable_tokens o.environment_variables) with
      | some v => some v
      | none => if name = "PATH".data then getenv st.environ "PATH".data else none) ∧
    (∀ name value, (name, value) ∈ st1.environ → getenv st1.environ name = some value) := by
  obtain ⟨-, he⟩ := setrestrictions_ok k o middle_ok st st1 h
  rw [he, hp]
  exact set_environment_cleared o.environment_variables st.environ hform

theorem environment_after_restrictions_witness :
    setrestrictions linux_kernel sample_env_options true sample_child =
      .ok ⟨[("PATH".data, "/bin".data), ("A".data, "3".data), ("B".data, "2".data)],
           ⟨1000, 1000, 100, 100⟩⟩ ∧
    getenv [("PATH".data, "/bin".data), ("A".data, "3".data), ("B".data, "2".data)]
      "HOME".data = none := by
  have hr : setrestrictions linux_kernel sample_env_options true sample_child =
      .ok ⟨[("PATH".data, "/bin".data), ("A".data, "3".data), ("B".data, "2".data)],
           ⟨1000, 1000, 100, 100⟩⟩ := by decide
  have h := environment_after_restrictions linux_kernel sample_env_options true sample_child
    _ hr (by decide) (by decide)
  exact ⟨hr, (h.1 "HOME".data).trans (by decide)⟩

/-- The run `-u alice -g users -V PATH` from an environment with `PATH=/bin`: the one
token has no `=`, `putenv` removes the variable of that name, and the command starts
with an empty environment. -/
theorem putenv_removes_path_counterexample :
    getenv sample_child.environ "PATH".data = some "/bin".data ∧
    variable_tokens sample_unset_options.environment_variables = ["PATH".data] ∧
    setrestrictions linux_kernel sample_unset_options true sample_child =
      .ok ⟨[], ⟨1000, 1000, 100, 100⟩⟩ := by
  decide



/-! ## Claims on the validation of the cpuset -/

theorem to_int_of_range (v : Int) (h1 : -(2 ^ 31) ≤ v) (h2 : v < 2 ^ 31) : to_int v = v := by
  unfold to_int
  omega

theorem check_cpuset_full (s : String) (nprocs : Int) (hlen : s.data ≠ [])
    (hfull : (strtol s.data).rest = []) :
    check_cpuset (some s) nprocs = .ok () ↔
      0 ≤ to_int (strtol s.data).value ∧ to_int (strtol s.data).value < nprocs := by
  have hl : s.data.length > 0 := List.length_pos.mpr hlen
  unfold check_cpuset
  simp only [hl, if_true, hfull, List.isEmpty_nil]
  split_ifs with hc
  · constructor
    · intro h; cases h
    · intro h; omega
  · constructor
    · intro _; omega
    · intro _; rfl

theorem check_cpuset_other (s : String) (nprocs : Int)
    (hrest : (strtol s.data).rest ≠ []) : check_cpuset (some s) nprocs = .ok () := by
  unfold check_cpuset
  have : (strtol s.data).rest.isEmpty = false := by
    cases h : (strtol s.data).rest with
    | nil => exact absurd h hrest
    | cons a l => rfl
  simp [this]

/-- Claim C17, evaluated at the failing input: with four cores configured the cpuset
string `4294967296` is a bare decimal integer that `strtol` reads completely with the
value `2^32`, the `int` that receives it holds 0, and the validation accepts the string,
as does the start of `main`, although `2^32` is not below the number of cores; the
strings `4` and `-1` are rejected, `3` is accepted, and `0,2-3` is not checked. -/
theorem cpuset_wraps_to_core_zero :
    strtol "4294967296".data = ⟨4294967296, [], false⟩ ∧
    to_int 4294967296 = 0 ∧
    check_cpuset (some "4294967296") 4 = .ok () ∧
    main_start sample_sys [.cpuset "4294967296"] true true true =
      .ok { Options.start with cpuset := some "4294967296" } ∧
    check_cpuset (some "4") 4 = .error "processor ID given as cpuset out of range" ∧
    check_cpuset (some "-1") 4 = .error "processor ID given as cpuset out of range" ∧
    check_cpuset (some "3") 4 = .ok () ∧
    check_cpuset (some "0,2-3") 4 = .ok () := by
  decide

/-! ## Lemmas and claims on the fatal-error path -/

theorem error_in_handling (p : Proc) (errnum : Int) (errstr : String)
    (h : p.in_error_handling = true) : p.error errnum errstr = p := by
  unfold Proc.error
  simp only [h, if_true]

theorem write_meta_in_handling (p : Proc) (key : String) (v : MetaValue)
    (h : p.in_error_handling = true) :
    p.write_meta key v = p.write_meta_in_error key v := by
  rcases p with ⟨ieh, om, mf, mw, se, cp, ks, st⟩
  simp only at h
  subst h
  cases om <;> cases mf <;> cases mw <;>
    simp [Proc.write_meta, Proc.write_meta_in_error, Proc.error]

theorem internal_errors_snoc (lines : List MetaLine) (key : String) (v : MetaValue) :
    ((lines ++ [(key, v)]).filter (fun l => l.1 = "internal-error")).length =
      (lines.filter (fun l => l.1 = "internal-error")).length +
        if key = "internal-error" then 1 else 0 := by
  rw [List.filter_append, List.length_append]
  by_cases hk : key = "internal-error"
  · simp [hk]
  · simp [hk]

theorem write_meta_in_error_count (p : Proc) (key : String) (v : MetaValue) :
    (p.write_meta_in_error key v).internal_errors ≤ p.internal_errors + 1 ∧
    (key ≠ "internal-error" ∨ p.outputmeta = false →
      (p.write_meta_in_error key v).internal_errors = p.internal_errors) ∧
    (p.write_meta_in_error key v).in_error_handling = p.in_error_handling := by
  rcases p with ⟨ieh, om, mf, mw, se, cp, ks, st⟩
  cases om <;> cases mf <;> cases mw <;> refine ⟨?_, ?_, ?_⟩ <;>
    simp only [Proc.write_meta_in_error, Proc.internal_errors, Bool.not_true, Bool.not_false,
      Bool.false_eq_true, if_true, if_false, internal_errors_snoc] <;>
    first
    | omega
    | (split_ifs <;> omega)
    | (intro hk; rcases hk with hk | hk <;> simp_all)

theorem error_count (p : Proc) (errnum : Int) (errstr : String) :
    (p.error errnum errstr).internal_errors ≤ p.internal_errors + 1 ∧
    ((p.error errnum errstr).in_error_handling = true) ∧
    (p.outputmeta = false →
      (p.error errnum errstr).internal_errors = p.internal_errors) := by
  by_cases h : p.in_error_handling = true
  · rw [error_in_handling p errnum errstr h]
    exact ⟨by omega, h, fun _ => rfl⟩
  · obtain ⟨k1, k2, k3⟩ := write_meta_in_error_count
      { p with in_error_handling := true, stderr := p.stderr ++ [errstr] }
      "internal-error" (.s errstr)
    have hsame : Proc.internal_errors
        { p with in_error_handling := true, stderr := p.stderr ++ [errstr] } =
        p.internal_errors := rfl
    rw [hsame] at k1 k2
    unfold Proc.error
    dsimp only
    split_ifs with h0
    all_goals first
      | exact absurd h0 h
      | exact ⟨k1, k3, fun ho => k2 (Or.inr ho)⟩

theorem write_meta_count (p : Proc) (key : String) (v : MetaValue)
    (hk : key ≠ "internal-error") :
    (p.write_meta key v).internal_errors = p.internal_errors ∧
    (p.in_error_handling = true → (p.write_meta key v).in_error_handling = true) := by
  by_cases hw : p.outputmeta = true ∧ p.metafile_writable = false ∧ p.metafile.isSome = true
  · obtain ⟨h1, h2, h3⟩ := hw
    obtain ⟨lines, hl⟩ := Option.isSome_iff_exists.mp h3
    have e : p.write_meta key v = Proc.error { p with outputmeta := false } 0
        "cannot write to file" := by
      unfold Proc.write_meta
      simp [h1, h2, hl]
    obtain ⟨-, e2, e3⟩ := error_count { p with outputmeta := false } 0 "cannot write to file"
    rw [e]
    exact ⟨e3 rfl, fun _ => e2⟩
  · have e : p.write_meta key v = p.write_meta_in_error key v := by
      rcases p with ⟨ieh, om, mf, mw, se, cp, ks, st⟩
      cases om <;> cases mf <;> cases mw <;>
        simp_all [Proc.write_meta, Proc.write_meta_in_error]
    obtain ⟨-, k2, k3⟩ := write_meta_in_error_count p key v
    rw [e, k3]
    exact ⟨k2 (Or.inl hk), fun h => h⟩

theorem run_in_handling (calls : List Call) (p : Proc) (h : p.in_error_handling = true)
    (hreg : ∀ c ∈ calls, c.regular) :
    (p.run calls).internal_errors = p.internal_errors := by
  induction calls generalizing p with
  | nil => rfl
  | cons c cs ih =>
    unfold Proc.run
    split_ifs
    · rfl
    · have hcs : ∀ c ∈ cs, c.regular := fun x hx => hreg x (by simp [hx])
      cases c with
      | write_meta key v =>
        have hk : key ≠ "internal-error" := hreg (.write_meta key v) (by simp)
        obtain ⟨w1, w2⟩ := write_meta_count p key v hk
        simp only [Proc.call]
        rw [ih _ (w2 h) hcs, w1]
      | error errnum errstr =>
        simp only [Proc.call]
        rw [error_in_handling p errnum errstr h]
        exact ih p h hcs

theorem run_count (calls : List Call) (p : Proc) (hreg : ∀ c ∈ calls, c.regular) :
    (p.run calls).internal_errors ≤ p.internal_errors + 1 := by
  induction calls generalizing p with
  | nil => exact Nat.le_succ _
  | cons c cs ih =>
    unfold Proc.run
    split_ifs
    · exact Nat.le_succ _
    · have hcs : ∀ c ∈ cs, c.regular := fun x hx => hreg x (by simp [hx])
      cases c with
      | write_meta key v =>
        have hk : key ≠ "internal-error" := hreg (.write_meta key v) (by simp)
        obtain ⟨w1, -⟩ := write_meta_count p key v hk
        simp only [Proc.call]
        rw [← w1]
        exact ih _ hcs
      | error errnum errstr =>
        simp only [Proc.call]
        obtain ⟨e1, e2, -⟩ := error_count p errnum errstr
        rw [run_in_handling cs _ e2 hcs]
        exact e1

/-- Claim C18, for one process: a call of `error` with `in_error_handling` set leaves the
whole process state as it is, so it writes nothing to stderr or to the metadata file,
sends no signal and does not exit, and `write_meta` then behaves as its copy inside
`error`; and in every sequence of `error` calls and of `write_meta` calls with the keys
of the rest of the program, from any state, the process adds at most one
`internal-error` line to the metadata file, and none once the flag is set. -/
theorem internal_error_once (p : Proc) (calls : List Call)
    (hreg : ∀ c ∈ calls, c.regular) :
    (p.in_error_handling = true →
      (∀ errnum errstr, p.error errnum errstr = p) ∧
      (∀ key v, p.write_meta key v = p.write_meta_in_error key v) ∧
      (p.run calls).internal_errors = p.internal_errors) ∧
    (p.run calls).internal_errors ≤ p.internal_errors + 1 ∧
    (p.internal_errors = 0 → (p.run calls).internal_errors ≤ 1) := by
  refine ⟨fun h => ⟨fun a b => error_in_handling p a b h,
    fun a b => write_meta_in_handling p a b h, run_in_handling calls p h hreg⟩,
    run_count calls p hreg, ?_⟩
  intro h0
  have := run_count calls p hreg
  omega

theorem internal_error_once_witness :
    (sample_proc.run [.write_meta "exitcode" (.d 0), .error 0 "first", .error 0 "second"]).metafile
      = some [("exitcode", .d 0), ("internal-error", .s "first")] ∧
    (sample_proc.run
      [.write_meta "exitcode" (.d 0), .error 0 "first", .error 0 "second"]).internal_errors
      ≤ 1 := by
  have hreg : ∀ c ∈ [Call.write_meta "exitcode" (.d 0), .error 0 "first", .error 0 "second"],
      c.regular := by
    intro c hc
    simp only [List.mem_cons, List.mem_singleton, List.not_mem_nil, or_false] at hc
    rcases hc with rfl | rfl | rfl
    · show "exitcode" ≠ "internal-error"
      decide
    · trivial
    · trivial
  exact ⟨by decide, (internal_error_once sample_proc _ hreg).2.2 (by decide)⟩

/-- A run with `-r` and `-M` in which the child fails in `setrestrictions` and the
parent fails afterwards in `output_cgroup_stats_v2`: each process has its own
`in_error_handling`, and the metadata file ends with two `internal-error` lines. -/
theorem internal_error_twice_counterexample :
    (fork_run sample_proc [.error 0 "cannot chdir"]
      [.error 0 "get cgroup value memory.peak"]).metafile =
      some [("internal-error", .s "cannot chdir"),
            ("internal-error", .s "get cgroup value memory.peak")] ∧
    (fork_run sample_proc [.error 0 "cannot chdir"]
      [.error 0 "get cgroup value memory.peak"]).internal_errors = 2 := by
  decide



/-! ## Claims on errors in the user input and on the order of the metadata writes -/

theorem error_null_metafile (writable : Bool) (errstr : String) :
    (Proc.before_fork true none writable).error 0 errstr =
      { in_error_handling := true, outputmeta := true, metafile := none,
        metafile_writable := writable, stderr := [errstr], child_pid := 0, kills := [],
        stopped := some .null_stream } := by
  simp [Proc.before_fork, Proc.error, Proc.write_meta_in_error]

theorem parse_error_null_metafile (sys : Sys) (opts : List Opt)
    (have_command fopen_ok writable : Bool) (o : Options) (e : String)
    (hp : parse_options sys Options.start opts = .error (o, e))
    (hm : o.outputmeta = true) :
    main_start sys opts have_command fopen_ok writable =
      .error { in_error_handling := true, outputmeta := true, metafile := none,
               metafile_writable := writable, stderr := [e], child_pid := 0, kills := [],
               stopped := some .null_stream } := by
  unfold main_start
  rw [hp]
  simp only [hm]
  rw [error_null_metafile]

/-- Claim C19, evaluated at the failing input: on `-M meta.txt -m 0` the bad value of
`-m` is found in the option loop, where `outputmeta` is already set and `metafile` is
still the null pointer, and `error` ends in `write_meta` on the null stream: no
`internal-error` line is written and the process does not reach `exit`. With the two
options in the other order `error` exits with `exit_failure`, but no metadata file
exists. An out-of-range cpuset is found after the `fopen`, and there the line is
written and the exit code is `exit_failure`. -/
theorem option_error_null_metafile :
    main_start sample_sys [.outmeta "meta.txt", .memsize "0"] true true true =
      .error { in_error_handling := true, outputmeta := true, metafile := none,
               metafile_writable := true, stderr := ["invalid value specified"],
               child_pid := 0, kills := [], stopped := some .null_stream } ∧
    main_start sample_sys [.memsize "0", .outmeta "meta.txt"] true true true =
      .error { in_error_handling := true, outputmeta := false, metafile := none,
               metafile_writable := true, stderr := ["invalid value specified"],
               child_pid := 0, kills := [], stopped := some (.exit exit_failure) } ∧
    main_start sample_sys [.outmeta "meta.txt", .user "nobody"] true true true =
      .error { in_error_handling := true, outputmeta := true, metafile := none,
               metafile_writable := true, stderr := ["invalid username or ID specified"],
               child_pid := 0, kills := [], stopped := some .null_stream } ∧
    main_start sample_sys [.outmeta "meta.txt", .cpuset "7"] true true true =
      .error { in_error_handling := true, outputmeta := true,
               metafile := some [("internal-error",
                 .s "processor ID given as cpuset out of range")],
               metafile_writable := true,
               stderr := ["processor ID given as cpuset out of range"],
               child_pid := 0, kills := [], stopped := some (.exit exit_failure) } := by
  decide

theorem parent_steps_keys (use_user : Bool) (g : Globals) (s : PumpState)
    (exitcode max_usage : Int) (cputime : ℚ) (str : String) :
    (parent_steps use_user g s).filterMap Step.key =
      (finish_lines g s exitcode max_usage cputime str).map (fun l => l.1) := by
  unfold parent_steps finish_lines exit_time_lines
  cases use_user <;> cases hl : s.limit_streamsize <;>
    by_cases hs : g.received_signal = -1 <;>
    simp [hs, Step.key, List.filterMap_cons, List.filterMap_append]

theorem parent_steps_split (use_user : Bool) (g : Globals) (s : PumpState) :
    ∃ before after, parent_steps use_user g s = before ++ [.setuid_getuid] ++ after ∧
      Step.setuid_getuid ∉ after ∧
      Step.write_meta "memory-bytes" ∈ before ∧
      Step.write_meta "memory-bytes" ∉ after ∧
      (use_user = true → Step.setuid_getuid ∉ before) := by
  refine ⟨(if !use_user then [Step.setuid_getuid] else []) ++
      [.check_remaining_procs, .write_meta "memory-bytes", .cgroup_kill, .cgroup_delete],
    (exit_time_lines g 0 0 "").map (fun l => Step.write_meta l.1) ++
      (if s.limit_streamsize then [Step.write_meta "output-truncated"] else []) ++
      [.write_meta "stdin-bytes", .write_meta "stdout-bytes", .write_meta "stderr-bytes"],
    ?_, ?_, ?_, ?_, ?_⟩
  · unfold parent_steps
    simp
  · unfold exit_time_lines
    cases s.limit_streamsize <;> by_cases hs : g.received_signal = -1 <;> simp [hs]
  · simp
  · unfold exit_time_lines
    cases s.limit_streamsize <;> by_cases hs : g.received_signal = -1 <;> simp [hs]
  · intro hu
    simp [hu]

/-- Claim C20, evaluated at the failing input: in a run with `-u` and `-M` the parent
calls `setuid(getuid())` once, before the outcome report, and the first line it writes
to the metadata file, `memory-bytes`, is written two steps before that call; the lines
of `output_exit_time` and the byte counts follow the call. -/
theorem memory_bytes_before_drop :
    parent_steps true cpu_only_run capped_start =
      [.check_remaining_procs, .write_meta "memory-bytes", .cgroup_kill, .cgroup_delete,
       .setuid_getuid, .write_meta "exitcode", .write_meta "wall-time",
       .write_meta "user-time", .write_meta "sys-time", .write_meta "cpu-time",
       .write_meta "time-used", .write_meta "time-result", .write_meta "output-truncated",
       .write_meta "stdin-bytes", .write_meta "stdout-bytes", .write_meta "stderr-bytes"] ∧
    (parent_steps true cpu_only_run capped_start).indexOf (.write_meta "memory-bytes") <
      (parent_steps true cpu_only_run capped_start).indexOf .setuid_getuid := by
  decide



/-! ## Claims on the streamsize conversion, the pipe flags and the drain loop -/

theorem kb_to_streamsize_eq (k : Int) (h0 : 0 ≤ k) (h1 : k ≤ 2 ^ 63 - 1) :
    (k < 2 ^ 54 → (kb_to_streamsize k : Int) = k * 1024) ∧
    (2 ^ 54 ≤ k → kb_to_streamsize k = 2 ^ 63 - 1) := by
  obtain ⟨n, rfl⟩ : ∃ n : Nat, k = n := ⟨k.toNat, by omega⟩
  have hn : ((n : Int) % SIZE_MOD).toNat = n := by
    rw [SIZE_MOD_eq]
    omega
  have hl : LONG_MAX.toNat = 2 ^ 63 - 1 := by decide
  unfold kb_to_streamsize
  simp only [hn, hl]
  rw [SIZE_MOD_eq]
  constructor
  · intro h
    have : ¬ (n ≠ n * 1024 % 18446744073709551616 / 1024) := by omega
    rw [if_neg this]
    omega
  · intro h
    have : n ≠ n * 1024 % 18446744073709551616 / 1024 := by omega
    rw [if_pos this]

/-- Claim C26, evaluated at the failing input: the arguments `9007199254740992` (`2^53`)
and `18014398509481984` (`2^54`) of `-s` are both accepted; the first does not overflow
and gives the cap `2^63`, the second overflows and gives the cap `2^63 - 1`, which is
smaller. -/
theorem streamsize_cap_not_monotone :
    read_optarg_int "9007199254740992".data 0 LONG_MAX = .ok (2 ^ 53) ∧
    read_optarg_int "18014398509481984".data 0 LONG_MAX = .ok (2 ^ 54) ∧
    kb_to_streamsize (2 ^ 53) = 2 ^ 63 ∧
    kb_to_streamsize (2 ^ 54) = 2 ^ 63 - 1 ∧
    (process_option sample_sys Options.start (.streamsize "9007199254740992")).map
      (fun o => o.streamsize) = .ok 9223372036854775808 ∧
    (process_option sample_sys Options.start (.streamsize "18014398509481984")).map
      (fun o => o.streamsize) = .ok 9223372036854775807 := by
  decide

theorem xor_nonblock_bits (f : Nat) :
    (f ^^^ O_NONBLOCK).testBit 11 = !f.testBit 11 ∧
    ∀ i, i ≠ 11 → (f ^^^ O_NONBLOCK).testBit i = f.testBit i := by
  have h11 : O_NONBLOCK = 2 ^ 11 := by decide
  constructor
  · rw [Nat.testBit_xor, h11, Nat.testBit_two_pow_self]
    cases f.testBit 11 <;> rfl
  · intro i hi
    rw [Nat.testBit_xor, h11, Nat.testBit_two_pow_of_ne (Ne.symm hi)]
    cases f.testBit i <;> rfl

theorem drain_flags_ok (f : Nat) : drain_flags f true = .ok (f ^^^ O_NONBLOCK) := by
  unfold drain_flags
  have : ¬ ((f : Int) = -1) := by omega
  simp [this]

/-- Claim C23, evaluated at the failing input: for the flag word 0 (`O_RDONLY`, blocking),
which is what the read end of a pipe from `pipe()` has, the flag word that `main` sets
before the drain loop is `O_NONBLOCK`: the descriptor is put into non-blocking mode. The
same holds for the flag word `O_APPEND` (1024); only a descriptor that was non-blocking
before becomes blocking. -/
theorem drain_sets_nonblocking :
    drain_flags 0 true = .ok O_NONBLOCK ∧
    drain_flags 1024 true = .ok (1024 + O_NONBLOCK) ∧
    drain_flags O_NONBLOCK true = .ok 0 ∧
    O_NONBLOCK &&& O_NONBLOCK ≠ 0 ∧ (1024 + O_NONBLOCK) &&& O_NONBLOCK ≠ 0 := by
  decide

/-- Claim C22, evaluated at the failing inputs. With a cap of 1024 bytes and 6000 bytes
of stdout in the pipe at reap time the drain loop ends with 880 bytes unread, and one
further `pump_pipes` call reads them: `data_read[1]` goes from 5120 to 6000. Without a
cap, with 2048 bytes of stdout in the pipe and a sink that does not support `splice`,
the drain loop ends after one call that only clears `use_splice`, and one further call
reads and forwards all 2048 bytes. -/
theorem drain_not_idempotent :
    drain_loop 2 capped_start pipes_6000 = .ok (drained_6000, ⟨880, 0, true, true⟩) ∧
    drain_pump drained_6000 ⟨880, 0, true, true⟩ =
      .ok ({ drained_6000 with out := ⟨5, 6000, 1024, 1024⟩ }, ⟨0, 0, true, true⟩) ∧
    drain_loop 1 uncapped_start ⟨2048, 0, false, true⟩ =
      .ok ({ uncapped_start with use_splice := false, err := ⟨-1, 0, 0, 0⟩ },
           ⟨2048, 0, false, true⟩) ∧
    drain_pump { uncapped_start with use_splice := false, err := ⟨-1, 0, 0, 0⟩ }
        ⟨2048, 0, false, true⟩ =
      .ok ({ uncapped_start with use_splice := false, out := ⟨5, 2048, 2048, 2048⟩,
                                 err := ⟨-1, 0, 0, 0⟩ }, ⟨0, 0, false, true⟩) := by
  decide



/-! ## Lemmas and claims on the CPU time of the cgroup -/

theorem cpu_stat_none (c : ℚ) (stats : List (String × String))
    (h : ∀ e ∈ stats, e.1 ≠ "usage_usec") : cpu_stat_cputime c stats = c := by
  induction stats generalizing c with
  | nil => rfl
  | cons e rest ih =>
    obtain ⟨name, value⟩ := e
    have hn : name ≠ "usage_usec" := h (name, value) (by simp)
    unfold cpu_stat_cputime
    simp only [hn, if_false]
    exact ih c (fun x hx => h x (by simp [hx]))

theorem cpu_stat_append (c : ℚ) (a b : List (String × String)) :
    cpu_stat_cputime c (a ++ b) = cpu_stat_cputime (cpu_stat_cputime c a) b := by
  induction a generalizing c with
  | nil => rfl
  | cons e rest ih =>
    obtain ⟨name, value⟩ := e
    simp only [List.cons_append, cpu_stat_cputime]
    exact ih _

theorem cpu_stat_last (c : ℚ) (before after : List (String × String)) (value : String)
    (h : ∀ e ∈ after, e.1 ≠ "usage_usec") :
    cpu_stat_cputime c (before ++ ("usage_usec", value) :: after) =
      ((strtol value.data).value : ℚ) / 1000000 := by
  rw [cpu_stat_append]
  unfold cpu_stat_cputime
  simp only [if_true]
  exact cpu_stat_none _ after h

theorem written_cpu_time (g g1 : Globals) (exitcode : Int) (cpudiff : ℚ) (str : String)
    (h : g1.metafile = g.metafile) :
    written "cpu-time" g (with_lines g1 (exit_time_lines g exitcode cpudiff str)) =
      [.f3 cpudiff] := by
  rw [written_with_lines _ _ _ _ h]
  unfold exit_time_lines
  split_ifs <;> simp

theorem exit_time_cpu_line (g : Globals) (exitcode : Int) (cpudiff : ℚ)
    (hm : g.outputmeta = true) (hw : g.metafile_writable = true)
    (ht : g.outputtimetype = WALL_TIME_TYPE ∨ g.outputtimetype = CPU_TIME_TYPE)
    (hwr : g.walllimit_reached < 4) (hcr : g.cpulimit_reached < 4) :
    ∃ g1, output_exit_time g exitcode cpudiff = .ok g1 ∧
      written "cpu-time" g g1 = [.f3 cpudiff] := by
  obtain ⟨str, hs⟩ := timelimit_str_exists g cpudiff hwr hcr
  obtain ⟨-, -, -, f4, -⟩ := soft_checks_frame g cpudiff
  exact ⟨_, output_exit_time_ok g exitcode cpudiff str hm hw ht hs,
    written_cpu_time g _ exitcode cpudiff str f4⟩

/-- Claim C21, as the code has it: the `cpu-time` line of a cgroup v2 run holds the value
that the loop over `cpu.stat` leaves in `cputime`. When `cpu.stat` has no entry named
`usage_usec` this is the initial value -1; otherwise it is the number that `strtoll`
reads from the value of the last such entry, divided by `10^6`, and it is `>= 0` exactly
when that number is. -/
theorem cpu_time_of_cpu_stat (stats : List (String × String)) (g : Globals)
    (exitcode : Int)
    (hm : g.outputmeta = true) (hw : g.metafile_writable = true)
    (ht : g.outputtimetype = WALL_TIME_TYPE ∨ g.outputtimetype = CPU_TIME_TYPE)
    (hwr : g.walllimit_reached < 4) (hcr : g.cpulimit_reached < 4) :
    (∃ g1, output_exit_time g exitcode (main_cputime_v2 stats) = .ok g1 ∧
      written "cpu-time" g g1 = [.f3 (main_cputime_v2 stats)]) ∧
    ((∀ e ∈ stats, e.1 ≠ "usage_usec") → main_cputime_v2 stats = -1) ∧
    (∀ before value after, stats = before ++ ("usage_usec", value) :: after →
      (∀ e ∈ after, e.1 ≠ "usage_usec") →
      main_cputime_v2 stats = ((strtol value.data).value : ℚ) / 1000000 ∧
      (0 ≤ main_cputime_v2 stats ↔ 0 ≤ (strtol value.data).value)) := by
  refine ⟨exit_time_cpu_line g exitcode _ hm hw ht hwr hcr, ?_, ?_⟩
  · intro h
    exact cpu_stat_none (-1) stats h
  · intro before value after hs ha
    have e : main_cputime_v2 stats = ((strtol value.data).value : ℚ) / 1000000 := by
      unfold main_cputime_v2
      rw [hs]
      exact cpu_stat_last (-1) before after value ha
    refine ⟨e, ?_⟩
    rw [e]
    constructor
    · intro h
      have h2 : (0 : ℚ) ≤ ((strtol value.data).value : ℚ) := by
        by_contra hc
        push_neg at hc
        have : ((strtol value.data).value : ℚ) / 1000000 < 0 :=
          div_neg_of_neg_of_pos hc (by norm_num)
        linarith
      exact_mod_cast h2
    · intro h
      have h2 : (0 : ℚ) ≤ ((strtol value.data).value : ℚ) := by exact_mod_cast h
      exact div_nonneg h2 (by norm_num)

theorem cpu_time_of_cpu_stat_witness :
    main_cputime_v2 [("user_usec", "900000"), ("usage_usec", "1500000")] = 3 / 2 ∧
    ∃ g1, output_exit_time cpu_only_run 0
        (main_cputime_v2 [("user_usec", "900000"), ("usage_usec", "1500000")]) = .ok g1 ∧
      written "cpu-time" cpu_only_run g1 =
        [.f3 (main_cputime_v2 [("user_usec", "900000"), ("usage_usec", "1500000")])] := by
  have h := cpu_time_of_cpu_stat [("user_usec", "900000"), ("usage_usec", "1500000")]
    cpu_only_run 0 rfl rfl (Or.inr rfl) (by decide) (by decide)
  refine ⟨?_, h.1⟩
  have h2 := (h.2.2 [("user_usec", "900000")] "1500000" [] rfl (by simp)).1
  rw [h2]
  have : (strtol "1500000".data).value = 1500000 := by decide
  rw [this]
  norm_num

/-- A cgroup v2 run whose `cpu.stat` has no `usage_usec` entry: the `cpu-time` line holds
-1. -/
theorem cpu_time_negative_counterexample :
    main_cputime_v2 [("user_usec", "900000"), ("system_usec", "100000")] = -1 ∧
    ∃ g1, output_exit_time cpu_only_run 0
        (main_cputime_v2 [("user_usec", "900000"), ("system_usec", "100000")]) = .ok g1 ∧
      written "cpu-time" cpu_only_run g1 = [.f3 (-1)] := by
  have e : main_cputime_v2 [("user_usec", "900000"), ("system_usec", "100000")] = -1 :=
    cpu_stat_none (-1) _ (by decide)
  refine ⟨e, ?_⟩
  rw [e]
  exact exit_time_cpu_line cpu_only_run 0 (-1) rfl rfl (Or.inr rfl) (by decide) (by decide)



/-! ## Lemmas and claims on the interval timer and the CPU-time limit -/

theorem trunc_of_nonneg (x : ℚ) (h : 0 ≤ x) : trunc x = ⌊x⌋ := by
  unfold trunc
  rw [if_pos h]

theorem walltime_itimer_eq (h : ℚ) (hpos : 0 ≤ h) :
    walltime_itimer h =
      if ⌊h⌋ < 2 ^ 31 then some ⟨⟨0, 0⟩, ⟨⌊h⌋, ⌊(h - ⌊h⌋) * 1000000⌋⟩⟩ else none := by
  have hs0 : 0 ≤ ⌊h⌋ := Int.floor_nonneg.mpr hpos
  have hf0 : 0 ≤ h - ⌊h⌋ := sub_nonneg.mpr (Int.floor_le h)
  have hf1 : h - ⌊h⌋ < 1 := by
    have := Int.lt_floor_add_one h
    linarith
  have hm0 : 0 ≤ (h - ⌊h⌋) * 1000000 := mul_nonneg hf0 (by norm_num)
  have hu0 : 0 ≤ ⌊(h - ⌊h⌋) * 1000000⌋ := Int.floor_nonneg.mpr hm0
  have hu1 : ⌊(h - ⌊h⌋) * 1000000⌋ < 1000000 := by
    rw [Int.floor_lt]
    push_cast
    nlinarith
  unfold walltime_itimer double_to_int modf
  rw [trunc_of_nonneg h hpos, trunc_of_nonneg _ hm0]
  have c2 : -(2 ^ 31) ≤ ⌊(h - ⌊h⌋) * 1000000⌋ ∧ ⌊(h - ⌊h⌋) * 1000000⌋ < 2 ^ 31 := by
    constructor <;> omega
  by_cases hs1 : ⌊h⌋ < 2 ^ 31
  · have c1 : -(2 ^ 31) ≤ ⌊h⌋ ∧ ⌊h⌋ < 2 ^ 31 := ⟨by omega, hs1⟩
    simp only [c1, c2, and_self, if_true, hs1]
  · have c1 : ¬ (-(2 ^ 31) ≤ ⌊h⌋ ∧ ⌊h⌋ < 2 ^ 31) := fun c => hs1 c.2
    rw [if_neg c1, if_neg hs1]

theorem walltime_itimer_in_range (h : ℚ) (h1 : 1 / 1000000 ≤ h) (h2 : h < 2 ^ 31) :
    ∃ tv_sec tv_usec : Int, walltime_itimer h = some ⟨⟨0, 0⟩, ⟨tv_sec, tv_usec⟩⟩ ∧
      0 ≤ tv_sec ∧ 0 ≤ tv_usec ∧ tv_usec < 1000000 ∧ (tv_sec ≠ 0 ∨ tv_usec ≠ 0) ∧
      0 ≤ h - (tv_sec + tv_usec / 1000000) ∧
      h - (tv_sec + tv_usec / 1000000) < 1 / 1000000 := by
  have hpos : 0 ≤ h := le_trans (by norm_num) h1
  have hs0 : 0 ≤ ⌊h⌋ := Int.floor_nonneg.mpr hpos
  have hs1 : ⌊h⌋ < 2 ^ 31 := by
    rw [Int.floor_lt]
    exact_mod_cast h2
  have hf0 : 0 ≤ h - ⌊h⌋ := sub_nonneg.mpr (Int.floor_le h)
  have hf1 : h - ⌊h⌋ < 1 := by
    have := Int.lt_floor_add_one h
    linarith
  have hm0 : 0 ≤ (h - ⌊h⌋) * 1000000 := mul_nonneg hf0 (by norm_num)
  have hu0 : 0 ≤ ⌊(h - ⌊h⌋) * 1000000⌋ := Int.floor_nonneg.mpr hm0
  have hu1 : ⌊(h - ⌊h⌋) * 1000000⌋ < 1000000 := by
    rw [Int.floor_lt]
    push_cast
    nlinarith
  have e1 : ((⌊(h - ⌊h⌋) * 1000000⌋ : Int) : ℚ) ≤ (h - ⌊h⌋) * 1000000 := Int.floor_le _
  have e2 : (h - ⌊h⌋) * 1000000 < ((⌊(h - ⌊h⌋) * 1000000⌋ : Int) : ℚ) + 1 :=
    Int.lt_floor_add_one _
  refine ⟨⌊h⌋, ⌊(h - ⌊h⌋) * 1000000⌋, ?_, hs0, hu0, hu1, ?_, ?_, ?_⟩
  · rw [walltime_itimer_eq h hpos, if_pos hs1]
  · by_contra hc
    push_neg at hc
    obtain ⟨z1, z2⟩ := hc
    rw [z2] at e2
    rw [z1] at e2
    simp only [Int.cast_zero, sub_zero, zero_add] at e2
    linarith
  · linarith
  · linarith

/-- Claim C24, evaluated at the failing input: for the accepted hard wall-time limit of
half a microsecond (`-t 0.0000005`) both fields of `it_value` are 0, so `setitimer` is
called with a zero `it_value`, which disarms the timer instead of arming it; for the
limit `2^31` seconds the conversion of the seconds to `int` is undefined. For the limit
2.5 seconds the timer value is 2 s and 500000 us. -/
theorem tiny_walltime_disarms_timer :
    walltime_itimer (1 / 2000000) = some ⟨⟨0, 0⟩, ⟨0, 0⟩⟩ ∧
    walltime_itimer (2 ^ 31) = none ∧
    walltime_itimer (5 / 2) = some ⟨⟨0, 0⟩, ⟨2, 500000⟩⟩ := by
  refine ⟨?_, ?_, ?_⟩
  · rw [walltime_itimer_eq _ (by norm_num)]
    have f1 : ⌊(1 / 2000000 : ℚ)⌋ = 0 := by
      rw [Int.floor_eq_iff]
      norm_num
    rw [f1]
    have f2 : ⌊((1 / 2000000 : ℚ) - ((0 : Int) : ℚ)) * 1000000⌋ = 0 := by
      rw [Int.floor_eq_iff]
      norm_num
    rw [f2]
    rfl
  · rw [walltime_itimer_eq _ (by norm_num)]
    have f1 : ⌊((2 : ℚ) ^ 31)⌋ = 2 ^ 31 := by
      rw [Int.floor_eq_iff]
      norm_num
    rw [f1]
    rfl
  · rw [walltime_itimer_eq _ (by norm_num)]
    have f1 : ⌊(5 / 2 : ℚ)⌋ = 2 := by
      rw [Int.floor_eq_iff]
      norm_num
    rw [f1]
    have f2 : ⌊((5 / 2 : ℚ) - ((2 : Int) : ℚ)) * 1000000⌋ = 500000 := by
      rw [Int.floor_eq_iff]
      norm_num
    rw [f2]
    rfl

theorem cputime_rlimit_eq (h : ℚ) (hpos : 0 < h) :
    cputime_rlimit h =
      if ⌈h⌉ < 2 ^ 64 then some ⟨⌈h⌉.toNat, (⌈h⌉.toNat + 1) % RLIM_MOD⟩ else none := by
  have hc : 0 < ⌈h⌉ := Int.ceil_pos.mpr hpos
  have hq : (0 : ℚ) ≤ ((⌈h⌉ : Int) : ℚ) := by exact_mod_cast hc.le
  unfold cputime_rlimit double_to_rlim
  rw [trunc_of_nonneg _ hq, Int.floor_intCast]
  by_cases hb : ⌈h⌉ < 2 ^ 64
  · have c1 : 0 ≤ ⌈h⌉ ∧ ⌈h⌉ < 2 ^ 64 := ⟨hc.le, hb⟩
    simp only [c1, and_self, if_true, hb]
  · have c1 : ¬ (0 ≤ ⌈h⌉ ∧ ⌈h⌉ < 2 ^ 64) := fun c => hb c.2
    rw [if_neg c1, if_neg hb]

/-- Claim C25, within the range of `rlim_t`: for a hard CPU-time limit `h > 0` with
`ceil(h) <= 2^64 - 2` the limit passed to `setrlimit(RLIMIT_CPU, ...)` has
`rlim_cur = ceil(h)` and `rlim_max = rlim_cur + 1`, hence `rlim_cur >= h`,
`rlim_cur >= 1` and `rlim_max > rlim_cur`, and `rlim_cur` is not `RLIM_INFINITY`. -/
theorem cputime_rlimit_ceil (h : ℚ) (hpos : 0 < h) (hb : ⌈h⌉ ≤ 2 ^ 64 - 2) :
    ∃ lim, cputime_rlimit h = some lim ∧
      (lim.rlim_cur : Int) = ⌈h⌉ ∧ lim.rlim_max = lim.rlim_cur + 1 ∧
      h ≤ (lim.rlim_cur : ℚ) ∧ 1 ≤ lim.rlim_cur ∧ lim.rlim_cur < lim.rlim_max ∧
      lim.rlim_cur ≠ RLIM_INFINITY := by
  have hc : 0 < ⌈h⌉ := Int.ceil_pos.mpr hpos
  have hlt : ⌈h⌉ < 2 ^ 64 := by omega
  have hcur : ((⌈h⌉.toNat : Nat) : Int) = ⌈h⌉ := Int.toNat_of_nonneg hc.le
  have hmax : (⌈h⌉.toNat + 1) % RLIM_MOD = ⌈h⌉.toNat + 1 := by
    unfold RLIM_MOD
    omega
  refine ⟨⟨⌈h⌉.toNat, ⌈h⌉.toNat + 1⟩, ?_, hcur, rfl, ?_, ?_, ?_, ?_⟩
  · rw [cputime_rlimit_eq h hpos, if_pos hlt, hmax]
  · have h1 : h ≤ ((⌈h⌉ : Int) : ℚ) := Int.le_ceil h
    have h2 : ((⌈h⌉.toNat : Nat) : ℚ) = ((⌈h⌉ : Int) : ℚ) := by
      rw [← Int.cast_natCast, hcur]
    show h ≤ ((⌈h⌉.toNat : Nat) : ℚ)
    rw [h2]
    exact h1
  · show 1 ≤ ⌈h⌉.toNat
    omega
  · show ⌈h⌉.toNat < ⌈h⌉.toNat + 1
    omega
  · show ⌈h⌉.toNat ≠ RLIM_INFINITY
    unfold RLIM_INFINITY
    omega

theorem cputime_rlimit_ceil_witness :
    (0 : ℚ) < 3 / 2 ∧ ⌈(3 / 2 : ℚ)⌉ = 2 ∧
    ∃ lim, cputime_rlimit (3 / 2) = some lim ∧
      (lim.rlim_cur : Int) = ⌈(3 / 2 : ℚ)⌉ ∧ lim.rlim_max = lim.rlim_cur + 1 ∧
      (3 / 2 : ℚ) ≤ (lim.rlim_cur : ℚ) ∧ 1 ≤ lim.rlim_cur ∧ lim.rlim_cur < lim.rlim_max ∧
      lim.rlim_cur ≠ RLIM_INFINITY := by
  have hc : ⌈(3 / 2 : ℚ)⌉ = 2 := by
    rw [Int.ceil_eq_iff]
    norm_num
  exact ⟨by norm_num, hc, cputime_rlimit_ceil (3 / 2) (by norm_num) (by rw [hc]; norm_num)⟩

/-- The hard CPU-time limit `2^64` seconds (`-C 18446744073709551616`): the conversion
of its ceiling to `rlim_t` is undefined, and no value of `rlim_t` is at least the
limit. -/
theorem cputime_rlimit_counterexample :
    cputime_rlimit (2 ^ 64) = none ∧
    ∀ lim : Rlimit, lim.rlim_cur < RLIM_MOD → ¬ ((2 ^ 64 : ℚ) ≤ (lim.rlim_cur : ℚ)) := by
  constructor
  · rw [cputime_rlimit_eq _ (by norm_num)]
    have hc : ⌈((2 : ℚ) ^ 64)⌉ = 2 ^ 64 := by
      rw [Int.ceil_eq_iff]
      norm_num
    rw [hc]
    rfl
  · intro lim hl hc
    unfold RLIM_MOD at hl
    have : (2 ^ 64 : ℕ) ≤ lim.rlim_cur := by exact_mod_cast hc
    omega


end Runguard
